import Mathlib

/-!
# DarkCaverns: the entity/component world store of `game.c`

A shallow embedding of the world state of `game.c` and of the functions that
create, update and destroy game objects, together with the level generation,
the target map, and the movement, health and combat systems.

Conventions of the embedding.

* A pointer is `Option Nat`: `none` is `NULL`, `some a` is the address `a`.
  Every component kind has its own typed heap `Nat → record`; `malloc` hands
  out the address `brk` and advances it, and the record found at a fresh
  address is whatever the heap holds there (uninitialised memory).
* `&gameObjects[i]` is the index `i`.
* A function that can fault (failed `assert`, `NULL` dereference, array index
  out of range) returns `Option`; `none` is the fault.
* `MAP_WIDTH`, `MAP_HEIGHT`, `NUM_COLS`, `NUM_ROWS` are defined outside
  `game.c`; every function that uses one takes it as an argument.
-/

namespace DarkCaverns

/-! ## Constants and records -/

/-- The id of a free pool slot (`#define UNUSED -1`). -/
def UNUSED : Int := -1

def LAYER_UNSET : Nat := 0
def LAYER_GROUND : Nat := 1
def LAYER_MID : Nat := 2
def LAYER_AIR : Nat := 3
def LAYER_TOP : Nat := 4

/-- Capacity of the entity pool (`#define MAX_GO 10000`). -/
def MAX_GO : Nat := 10000

/-- The enum `GameComponentType`; `COMPONENT_COUNT` is its number of values. -/
inductive GameComponentType where
  | COMP_POSITION
  | COMP_VISIBILITY
  | COMP_PHYSICAL
  | COMP_HEALTH
  | COMP_MOVEMENT
  | COMP_COMBAT
  deriving DecidableEq, Repr

open GameComponentType

def COMPONENT_COUNT : Nat := 6

/-- The struct `GameObject`: an id and one link per component kind. -/
structure GameObject where
  id : Int
  components : GameComponentType → Option Nat

/-- The struct `Position`; `x`, `y`, `layer` are `u8`. -/
structure Position where
  objectId : Int
  x : Nat
  y : Nat
  layer : Nat
  deriving DecidableEq, Repr

structure Visibility where
  objectId : Int
  glyph : Nat
  fgColor : Nat
  bgColor : Nat
  hasBeenSeen : Bool
  visibleOutsideFOV : Bool
  deriving DecidableEq, Repr

structure Physical where
  objectId : Int
  blocksMovement : Bool
  blocksSight : Bool
  deriving DecidableEq, Repr

structure Movement where
  objectId : Int
  speed : Int
  frequency : Int
  ticksUntilNextMove : Int
  destination : Int × Int
  hasDestination : Bool
  chasingPlayer : Bool
  turnsSincePlayerSeen : Int
  deriving DecidableEq, Repr

structure Health where
  objectId : Int
  currentHP : Int
  maxHP : Int
  recoveryRate : Int
  ticksUntilRemoval : Int
  deriving DecidableEq, Repr

structure Combat where
  objectId : Int
  attack : Int
  attackModifier : Int
  defense : Int
  defenseModifier : Int
  dodgeModifier : Int
  deriving DecidableEq, Repr

/-- The record type a `void *compData` is cast to for each component kind. -/
abbrev CompData : GameComponentType → Type
  | COMP_POSITION => Position
  | COMP_VISIBILITY => Visibility
  | COMP_PHYSICAL => Physical
  | COMP_HEALTH => Health
  | COMP_MOVEMENT => Movement
  | COMP_COMBAT => Combat

/-- The struct `DungeonLevel`: the level number and the wall grid
(`true` is a wall), indexed as `mapWalls[x][y]`. -/
structure DungeonLevel where
  level : Int
  mapWalls : Int → Int → Bool

/-- The global variables of `game.c` that the game object functions, the
target map, the movement pass and the health and combat routines read or
write. `currentLevel = none` is the `NULL` level pointer. -/
structure World where
  player : Option Nat
  currentLevel : Option DungeonLevel
  gameObjects : Nat → GameObject
  positionComps : List Nat
  visibilityComps : List Nat
  physicalComps : List Nat
  movementComps : List Nat
  healthComps : List Nat
  combatComps : List Nat
  fovMap : Nat → Nat → Nat
  targetMap : Option (Int → Int → Int)
  goPositions : Nat → Nat → Option (List Nat)
  posHeap : Nat → Position
  visHeap : Nat → Visibility
  physHeap : Nat → Physical
  mvHeap : Nat → Movement
  hlthHeap : Nat → Health
  comHeap : Nat → Combat
  brk : Nat

/-! ## The list library -/

/-- Modelled from the spec: the list library (`list.c`) is not part of the
sources. `list_insert_after list NULL data` adds `data` as the new head. -/
def list_insert_after (list : List Nat) (data : Nat) : List Nat :=
  data :: list

/-- Modelled from the spec: `list_search` of the list library, not part of the
sources: the position of the first element holding `data`, or `none` (`NULL`).
No element of a list holds a `NULL` data pointer. -/
def list_search (list : List Nat) (data : Option Nat) : Option Nat :=
  match data with
  | none => none
  | some d => if d ∈ list then some (list.indexOf d) else none

/-- Modelled from the spec: `list_remove` of the list library, not part of the
sources: unlinks the given element. -/
def list_remove (list : List Nat) (element : Nat) : List Nat :=
  list.eraseIdx element

/-- Modelled from the spec: `list_remove_element_with_data` of the list
library, not part of the sources: removes the first element holding `data`,
and nothing when there is none. -/
def list_remove_element_with_data (list : List Nat) (data : Nat) : List Nat :=
  match list_search list (some data) with
  | none => list
  | some e => list_remove list e

/-! ## World state management -/

/-- The part of `world_state_init` that sets up the pool and the stores, on a
given memory: every slot is `UNUSED`, every store is a new empty list. The
component links of the slots are not written by the source; they are those
of `mem`. -/
def world_state_init (mem : World) : World :=
  { mem with
    gameObjects := fun i => { id := UNUSED, components := (mem.gameObjects i).components }
    positionComps := []
    visibilityComps := []
    physicalComps := []
    movementComps := []
    healthComps := []
    combatComps := [] }

/-- Zero-initialised static memory: what the globals hold at program start. -/
def zeroMem : World :=
  { player := none
    currentLevel := none
    gameObjects := fun _ => { id := 0, components := fun _ => none }
    positionComps := []
    visibilityComps := []
    physicalComps := []
    movementComps := []
    healthComps := []
    combatComps := []
    fovMap := fun _ _ => 0
    targetMap := none
    goPositions := fun _ _ => none
    posHeap := fun _ => ⟨0, 0, 0, 0⟩
    visHeap := fun _ => ⟨0, 0, 0, 0, false, false⟩
    physHeap := fun _ => ⟨0, false, false⟩
    mvHeap := fun _ => ⟨0, 0, 0, 0, (0, 0), false, false, 0⟩
    hlthHeap := fun _ => ⟨0, 0, 0, 0, 0⟩
    comHeap := fun _ => ⟨0, 0, 0, 0, 0, 0⟩
    brk := 0 }

/-! ## Game object management -/

/-- The search loop of `game_object_create`: the first index `i`, among the
`n` indices from `i` on, whose slot is `UNUSED`. -/
def findUnused (go : Nat → GameObject) : Nat → Nat → Option Nat
  | 0, _ => none
  | n + 1, i => if (go i).id = UNUSED then some i else findUnused go n (i + 1)

/-- The function `game_object_create`: `none` is the failed
`assert(go != NULL)`; otherwise the new world and the slot handed out. -/
def game_object_create (w : World) : Option (World × Nat) :=
  match findUnused w.gameObjects MAX_GO 0 with
  | none => none
  | some i =>
    some ({ w with
            gameObjects := fun j =>
              if j = i then { id := (i : Int), components := fun _ => none }
              else w.gameObjects j }, i)

/-- Write `obj->components[comp] = link` for the slot `obj`. -/
def setLink (w : World) (obj : Nat) (comp : GameComponentType) (link : Option Nat) : World :=
  { w with
    gameObjects := fun j =>
      if j = obj then
        { id := (w.gameObjects obj).id
          components := fun c => if c = comp then link else (w.gameObjects obj).components c }
      else w.gameObjects j }

/-- The statements `ls = goPositions[x][y]; list_remove_element_with_data(ls, obj)`:
faults when the index is outside the array or the cell holds no list. -/
def goPositions_remove (MAP_WIDTH MAP_HEIGHT : Nat) (w : World) (x y obj : Nat) :
    Option World :=
  if x < MAP_WIDTH ∧ y < MAP_HEIGHT then
    match w.goPositions x y with
    | none => none
    | some ls =>
      some { w with
             goPositions := fun a b =>
               if a = x ∧ b = y then some (list_remove_element_with_data ls obj)
               else w.goPositions a b }
  else none

/-- The statements that update the helper structure on a Position write:
the cell's list is created when the cell holds none, then `obj` is inserted
at its head. Faults when the index is outside the array. -/
def goPositions_insert (MAP_WIDTH MAP_HEIGHT : Nat) (w : World) (x y obj : Nat) :
    Option World :=
  if x < MAP_WIDTH ∧ y < MAP_HEIGHT then
    let gos := match w.goPositions x y with
      | none => []
      | some l => l
    some { w with
           goPositions := fun a b =>
             if a = x ∧ b = y then some (list_insert_after gos obj)
             else w.goPositions a b }
  else none

/-- The function `game_object_update_component`. `compData = none` is the
`NULL` data pointer. `none` as a result is a fault: the failed
`assert(obj->id != UNUSED)`, the dereference of a `NULL` position in the
clear branch, or an index outside `goPositions`. -/
def game_object_update_component (MAP_WIDTH MAP_HEIGHT : Nat) (w : World) (obj : Nat)
    (comp : GameComponentType) (compData : Option (CompData comp)) : Option World :=
  if (w.gameObjects obj).id = UNUSED then none
  else
    match comp, compData with
    | COMP_POSITION, some posData =>
      let step : Option (World × Nat) :=
        match (w.gameObjects obj).components COMP_POSITION with
        | none => some ({ w with brk := w.brk + 1 }, w.brk)
        | some pos =>
          (goPositions_remove MAP_WIDTH MAP_HEIGHT w (w.posHeap pos).x (w.posHeap pos).y obj).map
            (fun w1 => (w1, pos))
      match step with
      | none => none
      | some (w1, pos) =>
        let w2 : World :=
          { w1 with
            posHeap := fun a =>
              if a = pos then
                { objectId := (w.gameObjects obj).id, x := posData.x, y := posData.y,
                  layer := posData.layer }
              else w1.posHeap a
            positionComps := list_insert_after w1.positionComps pos }
        goPositions_insert MAP_WIDTH MAP_HEIGHT (setLink w2 obj COMP_POSITION (some pos))
          posData.x posData.y obj
    | COMP_POSITION, none =>
      match (w.gameObjects obj).components COMP_POSITION with
      | none => none
      | some pos =>
        let w1 : World :=
          { w with positionComps := list_remove_element_with_data w.positionComps pos }
        goPositions_remove MAP_WIDTH MAP_HEIGHT (setLink w1 obj COMP_POSITION none)
          (w.posHeap pos).x (w.posHeap pos).y obj
    | COMP_VISIBILITY, some visData =>
      let (w1, vis) : World × Nat :=
        match (w.gameObjects obj).components COMP_VISIBILITY with
        | none => ({ w with brk := w.brk + 1 }, w.brk)
        | some vis => (w, vis)
      let w2 : World :=
        { w1 with
          visHeap := fun a =>
            if a = vis then
              { objectId := (w.gameObjects obj).id, glyph := visData.glyph,
                fgColor := visData.fgColor, bgColor := visData.bgColor,
                hasBeenSeen := visData.hasBeenSeen,
                visibleOutsideFOV := visData.visibleOutsideFOV }
            else w1.visHeap a
          visibilityComps := list_insert_after w1.visibilityComps vis }
      some (setLink w2 obj COMP_VISIBILITY (some vis))
    | COMP_VISIBILITY, none =>
      let w1 : World :=
        match (w.gameObjects obj).components COMP_VISIBILITY with
        | none => w
        | some vis =>
          { w with visibilityComps := list_remove_element_with_data w.visibilityComps vis }
      some (setLink w1 obj COMP_VISIBILITY none)
    | COMP_PHYSICAL, some physData =>
      let (w1, phys) : World × Nat :=
        match (w.gameObjects obj).components COMP_PHYSICAL with
        | none => ({ w with brk := w.brk + 1 }, w.brk)
        | some phys => (w, phys)
      let w2 : World :=
        { w1 with
          physHeap := fun a =>
            if a = phys then
              { objectId := (w.gameObjects obj).id, blocksMovement := physData.blocksMovement,
                blocksSight := physData.blocksSight }
            else w1.physHeap a
          physicalComps := list_insert_after w1.physicalComps phys }
      some (setLink w2 obj COMP_PHYSICAL (some phys))
    | COMP_PHYSICAL, none =>
      let w1 : World :=
        match (w.gameObjects obj).components COMP_PHYSICAL with
        | none => w
        | some phys =>
          { w with physicalComps := list_remove_element_with_data w.physicalComps phys }
      some (setLink w1 obj COMP_PHYSICAL none)
    | COMP_MOVEMENT, some mvData =>
      let (w1, mv) : World × Nat :=
        match (w.gameObjects obj).components COMP_MOVEMENT with
        | none => ({ w with brk := w.brk + 1 }, w.brk)
        | some mv => (w, mv)
      let w2 : World :=
        { w1 with
          mvHeap := fun a =>
            if a = mv then
              { w1.mvHeap mv with
                objectId := (w.gameObjects obj).id, speed := mvData.speed,
                frequency := mvData.frequency,
                ticksUntilNextMove := mvData.ticksUntilNextMove,
                chasingPlayer := mvData.chasingPlayer,
                turnsSincePlayerSeen := mvData.turnsSincePlayerSeen }
            else w1.mvHeap a
          movementComps := list_insert_after w1.movementComps mv }
      some (setLink w2 obj COMP_MOVEMENT (some mv))
    | COMP_MOVEMENT, none =>
      let w1 : World :=
        match (w.gameObjects obj).components COMP_MOVEMENT with
        | none => w
        | some mv =>
          { w with movementComps := list_remove_element_with_data w.movementComps mv }
      some (setLink w1 obj COMP_MOVEMENT none)
    | COMP_HEALTH, some hlthData =>
      let (w1, hlth) : World × Nat :=
        match (w.gameObjects obj).components COMP_HEALTH with
        | none => ({ w with brk := w.brk + 1 }, w.brk)
        | some hlth => (w, hlth)
      let w2 : World :=
        { w1 with
          hlthHeap := fun a =>
            if a = hlth then
              { w1.hlthHeap hlth with
                objectId := (w.gameObjects obj).id, currentHP := hlthData.currentHP,
                maxHP := hlthData.maxHP, recoveryRate := hlthData.recoveryRate }
            else w1.hlthHeap a
          healthComps := list_insert_after w1.healthComps hlth }
      some (setLink w2 obj COMP_HEALTH (some hlth))
    | COMP_HEALTH, none =>
      let w1 : World :=
        match (w.gameObjects obj).components COMP_HEALTH with
        | none => w
        | some h =>
          { w with healthComps := list_remove_element_with_data w.healthComps h }
      some (setLink w1 obj COMP_HEALTH none)
    | COMP_COMBAT, some combatData =>
      let (w1, com) : World × Nat :=
        match (w.gameObjects obj).components COMP_COMBAT with
        | none => ({ w with brk := w.brk + 1 }, w.brk)
        | some com => (w, com)
      let w2 : World :=
        { w1 with
          comHeap := fun a =>
            if a = com then
              { w1.comHeap com with
                objectId := (w.gameObjects obj).id, attack := combatData.attack,
                defense := combatData.defense }
            else w1.comHeap a
          combatComps := list_insert_after w1.combatComps com }
      some (setLink w2 obj COMP_COMBAT (some com))
    | COMP_COMBAT, none =>
      let w1 : World :=
        match (w.gameObjects obj).components COMP_COMBAT with
        | none => w
        | some c =>
          { w with combatComps := list_remove_element_with_data w.combatComps c }
      some (setLink w1 obj COMP_COMBAT none)

/-- One store's share of `game_object_destroy`:
`e = list_search(store, link); if (e != NULL) list_remove(store, e)`. -/
def destroy_in_store (store : List Nat) (link : Option Nat) : List Nat :=
  match list_search store link with
  | none => store
  | some e => list_remove store e

/-- The body of `game_object_destroy` on the object `obj` it is handed (which
need not be a pool slot): the stores after the six removals, and the object
with its id `UNUSED` and its links cleared. -/
def game_object_destroy_obj (w : World) (obj : GameObject) : World × GameObject :=
  ({ w with
     positionComps := destroy_in_store w.positionComps (obj.components COMP_POSITION)
     visibilityComps := destroy_in_store w.visibilityComps (obj.components COMP_VISIBILITY)
     physicalComps := destroy_in_store w.physicalComps (obj.components COMP_PHYSICAL)
     movementComps := destroy_in_store w.movementComps (obj.components COMP_MOVEMENT)
     healthComps := destroy_in_store w.healthComps (obj.components COMP_HEALTH)
     combatComps := destroy_in_store w.combatComps (obj.components COMP_COMBAT) },
   { id := UNUSED, components := fun _ => none })

/-- The call `game_object_destroy(&gameObjects[i])`. -/
def game_object_destroy (w : World) (i : Nat) : World :=
  let r := game_object_destroy_obj w (w.gameObjects i)
  { r.1 with gameObjects := fun j => if j = i then r.2 else r.1.gameObjects j }

/-- The function `game_object_get_component`. -/
def game_object_get_component (w : World) (obj : Nat) (comp : GameComponentType) :
    Option Nat :=
  (w.gameObjects obj).components comp

/-- The function `game_objects_at_position`: the cell's list pointer, `none`
when no list was ever created for the cell. -/
def game_objects_at_position (w : World) (x y : Nat) : Option (List Nat) :=
  w.goPositions x y

/-! ## Vocabulary of the statements -/

/-- The store of a component kind. -/
def storeOf (w : World) : GameComponentType → List Nat
  | COMP_POSITION => w.positionComps
  | COMP_VISIBILITY => w.visibilityComps
  | COMP_PHYSICAL => w.physicalComps
  | COMP_HEALTH => w.healthComps
  | COMP_MOVEMENT => w.movementComps
  | COMP_COMBAT => w.combatComps

/-- Slot `i` of the pool holds a live entity. -/
def Live (w : World) (i : Nat) : Prop :=
  i < MAX_GO ∧ (w.gameObjects i).id ≠ UNUSED

/-- Array slot and id coincide for every live entity. -/
def SlotIdCoincide (w : World) : Prop :=
  ∀ i, Live w i → (w.gameObjects i).id = (i : Int)

/-- The ids of live entities are pairwise distinct. -/
def LiveIdsDistinct (w : World) : Prop :=
  ∀ i j, Live w i → Live w j → (w.gameObjects i).id = (w.gameObjects j).id → i = j

/-- Number of times the entity `e` occurs among the occupants that
`game_objects_at_position` returns for the cell `(x, y)`. -/
def occ (w : World) (e x y : Nat) : Nat :=
  match game_objects_at_position w x y with
  | none => 0
  | some l => l.count e

/-! ## Scenarios evaluated on the code -/

/-- A fresh world, one entity created, a Visibility attached and then updated. -/
def scenario_visibility_twice : Option World :=
  (game_object_create (world_state_init zeroMem)).bind fun r =>
  (game_object_update_component 4 4 r.1 r.2 COMP_VISIBILITY
    (some ⟨0, 35, 1, 0, false, true⟩)).bind fun w2 =>
  game_object_update_component 4 4 w2 r.2 COMP_VISIBILITY (some ⟨0, 46, 1, 0, false, true⟩)

/-- A fresh world, one entity created, a Position at `(1, 1)` attached, a
Visibility attached and then updated. -/
def scenario_before_destroy : Option World :=
  (game_object_create (world_state_init zeroMem)).bind fun r =>
  (game_object_update_component 4 4 r.1 r.2 COMP_POSITION (some ⟨0, 1, 1, LAYER_TOP⟩)).bind
  fun w1 =>
  (game_object_update_component 4 4 w1 r.2 COMP_VISIBILITY
    (some ⟨0, 35, 1, 0, false, true⟩)).bind fun w2 =>
  game_object_update_component 4 4 w2 r.2 COMP_VISIBILITY (some ⟨0, 46, 1, 0, false, true⟩)

/-- The Combat record of the failing input of the field-copy property. -/
def combatSample : Combat :=
  { objectId := 0, attack := 15, attackModifier := 3, defense := 5, defenseModifier := 2,
    dodgeModifier := 10 }

/-- The Health record of the failing input of the field-copy property. -/
def healthSample : Health :=
  { objectId := 0, currentHP := 7, maxHP := 9, recoveryRate := 1, ticksUntilRemoval := 5 }

/-- A fresh world, one entity created, a Health and a Combat attached. -/
def scenario_health_combat : Option World :=
  (game_object_create (world_state_init zeroMem)).bind fun r =>
  (game_object_update_component 4 4 r.1 r.2 COMP_HEALTH (some healthSample)).bind fun w1 =>
  game_object_update_component 4 4 w1 r.2 COMP_COMBAT (some combatSample)

/-- The entity `e` has a Position component whose coordinates are `(x, y)`. -/
def HasPositionAt (w : World) (e x y : Nat) : Prop :=
  ∃ p, game_object_get_component w e COMP_POSITION = some p ∧
    (w.posHeap p).x = x ∧ (w.posHeap p).y = y

/-- A sequence of Position calls on the entity `e`, each made through
`game_object_update_component`: `some d` attaches or updates, `none` detaches.
`none` as a result means that one of the calls faulted. -/
def runPositionCalls (MAP_WIDTH MAP_HEIGHT : Nat) (w : World) (e : Nat) :
    List (Option Position) → Option World
  | [] => some w
  | d :: ds =>
    (game_object_update_component MAP_WIDTH MAP_HEIGHT w e COMP_POSITION d).bind
      fun w1 => runPositionCalls MAP_WIDTH MAP_HEIGHT w1 e ds

/-- The Position of `e` and the spatial index agree: without a Position `e`
is in no cell, with one it is exactly once in the cell of its coordinates,
which lies inside the map, and in no other cell. -/
def PosSync (MAP_WIDTH MAP_HEIGHT : Nat) (w : World) (e : Nat) : Prop :=
  match (w.gameObjects e).components COMP_POSITION with
  | none => ∀ x y, occ w e x y = 0
  | some p =>
    (w.posHeap p).x < MAP_WIDTH ∧ (w.posHeap p).y < MAP_HEIGHT ∧
    ∀ x y, occ w e x y = if x = (w.posHeap p).x ∧ y = (w.posHeap p).y then 1 else 0

/-- The world after `world_state_init` on zeroed memory and one
`game_object_create`: the entity in slot 0 is live and has no component. -/
def world_one_entity : World :=
  ((game_object_create (world_state_init zeroMem)).map Prod.fst).getD zeroMem

/-- Attach at `(1, 1)`, move to `(2, 1)`, detach, attach at `(0, 3)`. -/
def sampleCalls : List (Option Position) :=
  [some ⟨0, 1, 1, LAYER_TOP⟩, some ⟨0, 2, 1, LAYER_TOP⟩, none, some ⟨0, 0, 3, LAYER_TOP⟩]

/-- The world after `sampleCalls` on the entity of `world_one_entity`, on a
4 x 4 map. -/
def world_after_calls : World :=
  (runPositionCalls 4 4 world_one_entity 0 sampleCalls).getD zeroMem

/-! ## The target map -/

/-- The value `UNSET = 9999` of `generate_target_map`. -/
def TARGET_UNSET : Int := 9999

/-- The index `[x][y]` lies inside an array declared `[MAP_WIDTH][MAP_HEIGHT]`. -/
def inMap (MAP_WIDTH MAP_HEIGHT : Nat) (x y : Int) : Prop :=
  0 ≤ x ∧ x < (MAP_WIDTH : Int) ∧ 0 ≤ y ∧ y < (MAP_HEIGHT : Int)

instance (MAP_WIDTH MAP_HEIGHT : Nat) (x y : Int) : Decidable (inMap MAP_WIDTH MAP_HEIGHT x y) := by
  unfold inMap
  infer_instance

/-- The function `is_wall`: `currentLevel->mapWalls[x][y]`. `none` is a fault:
no current level, or an index outside the grid. -/
def is_wall (MAP_WIDTH MAP_HEIGHT : Nat) (currentLevel : Option DungeonLevel) (x y : Int) :
    Option Bool :=
  match currentLevel with
  | none => none
  | some lvl => if inMap MAP_WIDTH MAP_HEIGHT x y then some (lvl.mapWalls x y) else none

/-- The read `dmap[x][y]`; `none` when the index is outside the grid. -/
def dmapGet (MAP_WIDTH MAP_HEIGHT : Nat) (dmap : Int → Int → Int) (x y : Int) : Option Int :=
  if inMap MAP_WIDTH MAP_HEIGHT x y then some (dmap x y) else none

/-- The write `dmap[x][y] = v` (the index has been checked by the caller). -/
def dmapSet (dmap : Int → Int → Int) (x y v : Int) : Int → Int → Int :=
  fun a b => if a = x ∧ b = y then v else dmap a b

/-- One of the four neighbour updates of `generate_target_map`:
`if ((!is_wall(nx, ny)) && (dmap[nx][ny] > currCellValue + 1))
   { dmap[nx][ny] = currCellValue + 1; changesMade = true; }`.
The state is the grid and `changesMade`. -/
def relaxNeighbour (MAP_WIDTH MAP_HEIGHT : Nat) (currentLevel : Option DungeonLevel)
    (st : (Int → Int → Int) × Bool) (nx ny currCellValue : Int) :
    Option ((Int → Int → Int) × Bool) :=
  match is_wall MAP_WIDTH MAP_HEIGHT currentLevel nx ny with
  | none => none
  | some true => some st
  | some false =>
    match dmapGet MAP_WIDTH MAP_HEIGHT st.1 nx ny with
    | none => none
    | some u =>
      if u > currCellValue + 1 then some (dmapSet st.1 nx ny (currCellValue + 1), true)
      else some st

/-- The body of the two nested `for` loops of `generate_target_map` at the
cell `(x, y)`: the cell's value is read once, and when it is not `UNSET` the
neighbours `(x+1, y)`, `(x-1, y)`, `(x, y-1)`, `(x, y+1)` are updated in this
order. -/
def sweepCell (MAP_WIDTH MAP_HEIGHT : Nat) (currentLevel : Option DungeonLevel)
    (st : (Int → Int → Int) × Bool) (x y : Int) : Option ((Int → Int → Int) × Bool) :=
  match dmapGet MAP_WIDTH MAP_HEIGHT st.1 x y with
  | none => none
  | some currCellValue =>
    if currCellValue ≠ TARGET_UNSET then
      (relaxNeighbour MAP_WIDTH MAP_HEIGHT currentLevel st (x + 1) y currCellValue).bind
      fun s1 =>
      (relaxNeighbour MAP_WIDTH MAP_HEIGHT currentLevel s1 (x - 1) y currCellValue).bind
      fun s2 =>
      (relaxNeighbour MAP_WIDTH MAP_HEIGHT currentLevel s2 x (y - 1) currCellValue).bind
      fun s3 =>
      relaxNeighbour MAP_WIDTH MAP_HEIGHT currentLevel s3 x (y + 1) currCellValue
    else some st

/-- The cells in the order the nested loops visit them: `x` outer, `y` inner. -/
def sweepOrder (MAP_WIDTH MAP_HEIGHT : Nat) : List (Int × Int) :=
  (List.range MAP_WIDTH).flatMap fun (x : Nat) =>
    (List.range MAP_HEIGHT).map fun (y : Nat) => ((x : Int), (y : Int))

/-- The loop body run over a list of cells. -/
def sweepCells (MAP_WIDTH MAP_HEIGHT : Nat) (currentLevel : Option DungeonLevel) :
    List (Int × Int) → (Int → Int → Int) × Bool → Option ((Int → Int → Int) × Bool)
  | [], st => some st
  | c :: cs, st =>
    (sweepCell MAP_WIDTH MAP_HEIGHT currentLevel st c.1 c.2).bind
      (sweepCells MAP_WIDTH MAP_HEIGHT currentLevel cs)

/-- One iteration of `while (changesMade)`: `changesMade = false`, then the
sweep over the whole grid. The result is the grid and `changesMade`. -/
def sweep (MAP_WIDTH MAP_HEIGHT : Nat) (currentLevel : Option DungeonLevel)
    (dmap : Int → Int → Int) : Option ((Int → Int → Int) × Bool) :=
  sweepCells MAP_WIDTH MAP_HEIGHT currentLevel (sweepOrder MAP_WIDTH MAP_HEIGHT) (dmap, false)

/-- The loop `while (changesMade)` with a bound `fuel` on the number of
iterations: `none` is a fault inside a sweep, or the bound reached. -/
def sweepLoop (MAP_WIDTH MAP_HEIGHT : Nat) (currentLevel : Option DungeonLevel) :
    Nat → (Int → Int → Int) → Option (Int → Int → Int)
  | 0, _ => none
  | fuel + 1, dmap =>
    match sweep MAP_WIDTH MAP_HEIGHT currentLevel dmap with
    | none => none
    | some (d, true) => sweepLoop MAP_WIDTH MAP_HEIGHT currentLevel fuel d
    | some (d, false) => some d

/-- The function `generate_target_map`, with a bound `fuel` on the number of
sweeps: the grid is filled with `UNSET`, the target cell is set to 0 (a fault
when it is outside the grid), the sweeps run, and the result becomes
`targetMap`. -/
def generate_target_map (MAP_WIDTH MAP_HEIGHT : Nat) (w : World) (targetX targetY : Int)
    (fuel : Nat) : Option World :=
  if inMap MAP_WIDTH MAP_HEIGHT targetX targetY then
    match sweepLoop MAP_WIDTH MAP_HEIGHT w.currentLevel fuel
        (dmapSet (fun _ _ => TARGET_UNSET) targetX targetY 0) with
    | none => none
    | some d => some { w with targetMap := some d }
  else none

/-- The cells `(x, y)` and `(a, b)` are neighbours in one of the four
cardinal directions. -/
def Adjacent (x y a b : Int) : Prop :=
  (a = x + 1 ∧ b = y) ∨ (a = x - 1 ∧ b = y) ∨ (a = x ∧ b = y - 1) ∨ (a = x ∧ b = y + 1)

/-- `PathLen ... n x y`: there is a 4-connected path of `n` steps from the
target `(tx, ty)` to `(x, y)` all of whose cells after the target lie inside
the grid and are not walls. -/
inductive PathLen (MAP_WIDTH MAP_HEIGHT : Nat) (walls : Int → Int → Bool) (tx ty : Int) :
    Nat → Int → Int → Prop where
  | start : PathLen MAP_WIDTH MAP_HEIGHT walls tx ty 0 tx ty
  | step (n : Nat) (x y a b : Int) :
      PathLen MAP_WIDTH MAP_HEIGHT walls tx ty n x y → Adjacent x y a b →
      inMap MAP_WIDTH MAP_HEIGHT a b → walls a b = false →
      PathLen MAP_WIDTH MAP_HEIGHT walls tx ty (n + 1) a b

/-- Every border cell of the grid is a wall. -/
def BorderWalls (MAP_WIDTH MAP_HEIGHT : Nat) (walls : Int → Int → Bool) : Prop :=
  ∀ x y, inMap MAP_WIDTH MAP_HEIGHT x y →
    (x = 0 ∨ x = (MAP_WIDTH : Int) - 1 ∨ y = 0 ∨ y = (MAP_HEIGHT : Int) - 1) → walls x y = true

/-- A 5 x 5 level: walls on the border and at `(2, 2)`, `(3, 2)`, so that the
floor cell `(3, 3)` is reached from `(1, 1)` only around the inner wall. -/
def sampleLevel : DungeonLevel :=
  { level := 1
    mapWalls := fun x y =>
      decide (x ≤ 0 ∨ 4 ≤ x ∨ y ≤ 0 ∨ 4 ≤ y ∨ (x = 2 ∧ y = 2) ∨ (x = 3 ∧ y = 2)) }

/-- The sum of the values of the grid, the measure that every change of a
sweep decreases. -/
def dmapSum (MAP_WIDTH MAP_HEIGHT : Nat) (dmap : Int → Int → Int) : Nat :=
  ∑ c ∈ Finset.range MAP_WIDTH ×ˢ Finset.range MAP_HEIGHT, (dmap (c.1 : Int) (c.2 : Int)).toNat

/-- The invariant of the sweeps: the target holds 0, no value exceeds
`UNSET`, every set value is the length of a path from the target, and every
set cell other than the target has a neighbour with a smaller value. -/
structure TargetInv (MAP_WIDTH MAP_HEIGHT : Nat) (walls : Int → Int → Bool) (tx ty : Int)
    (dmap : Int → Int → Int) : Prop where
  target : dmap tx ty = 0
  le : ∀ x y, inMap MAP_WIDTH MAP_HEIGHT x y → dmap x y ≤ TARGET_UNSET
  sound : ∀ x y, inMap MAP_WIDTH MAP_HEIGHT x y → dmap x y ≠ TARGET_UNSET →
    ∃ n : Nat, dmap x y = (n : Int) ∧ PathLen MAP_WIDTH MAP_HEIGHT walls tx ty n x y
  pred : ∀ x y, inMap MAP_WIDTH MAP_HEIGHT x y → dmap x y ≠ TARGET_UNSET →
    ¬ (x = tx ∧ y = ty) →
    ∃ a b, Adjacent x y a b ∧ inMap MAP_WIDTH MAP_HEIGHT a b ∧ dmap a b < dmap x y

/-- A step of the sweep state: nothing happened, or `changesMade` is set and
the sum of the grid went down. -/
def SweepStep (MAP_WIDTH MAP_HEIGHT : Nat) (s s1 : (Int → Int → Int) × Bool) : Prop :=
  s1 = s ∨ (s1.2 = true ∧ dmapSum MAP_WIDTH MAP_HEIGHT s1.1 < dmapSum MAP_WIDTH MAP_HEIGHT s.1)

/-- The grid is settled: no set cell has a neighbour inside the grid that is
not a wall and whose value exceeds the cell's value plus one. -/
def Settled (MAP_WIDTH MAP_HEIGHT : Nat) (walls : Int → Int → Bool) (dmap : Int → Int → Int) :
    Prop :=
  ∀ x y, inMap MAP_WIDTH MAP_HEIGHT x y → dmap x y ≠ TARGET_UNSET →
    ∀ a b, Adjacent x y a b → inMap MAP_WIDTH MAP_HEIGHT a b → walls a b = false →
      dmap a b ≤ dmap x y + 1

/-- A world whose current level is `sampleLevel`. -/
def sampleLevelWorld : World :=
  { zeroMem with currentLevel := some sampleLevel }

/-! ## The movement system -/

/-- The pool slot `&gameObjects[id]` for an `objectId` read from a component;
`none` when the index is outside the pool. -/
def gameObjectAt (id : Int) : Option Nat :=
  if 0 ≤ id ∧ id < (MAX_GO : Int) then some id.toNat else none

/-- The `while` loop of `can_move` over the elements of `positionComps`:
`some false` at the first Position on the cell of `pos` whose owner has
`blocksMovement`, `some true` when there is none; `none` is a fault (owner
index outside the pool, or an owner without Physical component). -/
def can_move_loop (w : World) (pos : Position) : List Nat → Option Bool
  | [] => some true
  | e :: es =>
    if (w.posHeap e).x = pos.x ∧ (w.posHeap e).y = pos.y then
      match gameObjectAt (w.posHeap e).objectId with
      | none => none
      | some o =>
        match game_object_get_component w o COMP_PHYSICAL with
        | none => none
        | some phys =>
          if (w.physHeap phys).blocksMovement = true then some false
          else can_move_loop w pos es
    else can_move_loop w pos es

/-- The function `can_move`. The coordinates are `u8`, so `pos.x >= 0` and
`pos.y >= 0` hold. -/
def can_move (NUM_COLS NUM_ROWS : Nat) (w : World) (pos : Position) : Option Bool :=
  if pos.x < NUM_COLS ∧ pos.y < NUM_ROWS then can_move_loop w pos w.positionComps
  else some false

/-- The statement `np.x -= 1` on a `u8`. -/
def u8_dec (v : Nat) : Nat := (v + 255) % 256

/-- The statement `np.x += 1` on a `u8`. -/
def u8_inc (v : Nat) : Nat := (v + 1) % 256

/-- The chase branch of `movement_update` up to the choice: the candidate
moves in the order the source collects them (left, up, right, down), each
taken when the target map value of that neighbour is below the value of the
current cell. `none` is a read outside the target map. -/
def chaseMoves (MAP_WIDTH MAP_HEIGHT : Nat) (targetMap : Int → Int → Int) (p newPos : Position) :
    Option (List Position) :=
  (dmapGet MAP_WIDTH MAP_HEIGHT targetMap p.x p.y).bind fun currTargetValue =>
  (dmapGet MAP_WIDTH MAP_HEIGHT targetMap ((p.x : Int) - 1) p.y).bind fun left =>
  (dmapGet MAP_WIDTH MAP_HEIGHT targetMap p.x ((p.y : Int) - 1)).bind fun up =>
  (dmapGet MAP_WIDTH MAP_HEIGHT targetMap ((p.x : Int) + 1) p.y).bind fun right =>
  (dmapGet MAP_WIDTH MAP_HEIGHT targetMap p.x ((p.y : Int) + 1)).bind fun down =>
  some
    ((if left < currTargetValue then [{ newPos with x := u8_dec newPos.x }] else []) ++
     (if up < currTargetValue then [{ newPos with y := u8_dec newPos.y }] else []) ++
     (if right < currTargetValue then [{ newPos with x := u8_inc newPos.x }] else []) ++
     (if down < currTargetValue then [{ newPos with y := u8_inc newPos.y }] else []))

/-- The `switch (dir)` of the random branch of `movement_update`. -/
def randomStep (newPos : Position) (dir : Nat) : Position :=
  if dir = 0 then { newPos with x := u8_dec newPos.x }
  else if dir = 1 then { newPos with y := u8_dec newPos.y }
  else if dir = 2 then { newPos with x := u8_inc newPos.x }
  else { newPos with y := u8_inc newPos.y }

/-- Write the record `m` at the address `mv` of the Movement heap. -/
def setMovement (w : World) (mv : Nat) (m : Movement) : World :=
  { w with mvHeap := fun a => if a = mv then m else w.mvHeap a }

/-- The body of the `while` loop of `movement_update` for the Movement
component at address `mv`. The state is the world and the number of calls of
`rand()` made so far; `rand k` is the value of the call number `k`. The
counters are `i32` and are taken without overflow. `none` is a fault: an
`objectId` outside the pool, an owner without Position, a read outside
`fovMap` or the target map, no target map, `rand() % 0`, or a fault of
`can_move` or `game_object_update_component`. -/
def movement_step (MAP_WIDTH MAP_HEIGHT NUM_COLS NUM_ROWS : Nat) (rand : Nat → Nat)
    (st : World × Nat) (mv : Nat) : Option (World × Nat) :=
  let w := st.1
  let m1 : Movement :=
    { w.mvHeap mv with ticksUntilNextMove := (w.mvHeap mv).ticksUntilNextMove - 1 }
  if m1.ticksUntilNextMove ≤ 0 then
    match gameObjectAt m1.objectId with
    | none => none
    | some o =>
      match game_object_get_component w o COMP_POSITION with
      | none => none
      | some pp =>
        let p := w.posHeap pp
        let newPos : Position := { objectId := p.objectId, x := p.x, y := p.y, layer := p.layer }
        if p.x < MAP_WIDTH ∧ p.y < MAP_HEIGHT then
          let seen : Bool := decide (w.fovMap p.x p.y > 0)
          let giveChase : Bool := if seen then true else m1.chasingPlayer
          let m2 : Movement :=
            if seen then { m1 with chasingPlayer := true, turnsSincePlayerSeen := 0 }
            else if m1.turnsSincePlayerSeen + 1 > 5 then
              { m1 with turnsSincePlayerSeen := m1.turnsSincePlayerSeen + 1,
                        chasingPlayer := false }
            else { m1 with turnsSincePlayerSeen := m1.turnsSincePlayerSeen + 1 }
          let chosen : Option Position :=
            if giveChase then
              match w.targetMap with
              | none => none
              | some tm =>
                match chaseMoves MAP_WIDTH MAP_HEIGHT tm p newPos with
                | none => none
                | some moves =>
                  if moves.length = 0 then none
                  else moves.get? (rand st.2 % moves.length)
            else some (randomStep newPos (rand st.2 % 4))
          match chosen with
          | none => none
          | some pos1 =>
            let w1 := setMovement w mv m2
            match can_move NUM_COLS NUM_ROWS w1 pos1 with
            | none => none
            | some true =>
              match game_object_update_component MAP_WIDTH MAP_HEIGHT w1 o COMP_POSITION
                  (some pos1) with
              | none => none
              | some w2 =>
                some (setMovement w2 mv
                  { w2.mvHeap mv with ticksUntilNextMove := (w2.mvHeap mv).frequency },
                  st.2 + 1)
            | some false =>
              some (setMovement w1 mv
                { m2 with ticksUntilNextMove := m2.ticksUntilNextMove + 1 }, st.2 + 1)
        else none
  else some (setMovement w mv m1, st.2)

/-- The `while` loop of `movement_update` over the elements of the list. -/
def movement_loop (MAP_WIDTH MAP_HEIGHT NUM_COLS NUM_ROWS : Nat) (rand : Nat → Nat) :
    List Nat → World × Nat → Option (World × Nat)
  | [], st => some st
  | mv :: mvs, st =>
    (movement_step MAP_WIDTH MAP_HEIGHT NUM_COLS NUM_ROWS rand st mv).bind
      (movement_loop MAP_WIDTH MAP_HEIGHT NUM_COLS NUM_ROWS rand mvs)

/-- The function `movement_update`: the loop over `movementComps` from its
head. `k` is the number of calls of `rand()` made before the pass. -/
def movement_update (MAP_WIDTH MAP_HEIGHT NUM_COLS NUM_ROWS : Nat) (rand : Nat → Nat)
    (w : World) (k : Nat) : Option (World × Nat) :=
  movement_loop MAP_WIDTH MAP_HEIGHT NUM_COLS NUM_ROWS rand w.movementComps (w, k)

/-- The entity in slot `i` has a Physical component with `blocksMovement`. -/
def Blocks (w : World) (i : Nat) : Prop :=
  ∃ ph, game_object_get_component w i COMP_PHYSICAL = some ph ∧
    (w.physHeap ph).blocksMovement = true

/-- The entity in slot `i` has a Physical component. -/
def HasPhysical (w : World) (i : Nat) : Prop :=
  ∃ ph, game_object_get_component w i COMP_PHYSICAL = some ph

/-- The Position store is consistent with the pool: the Position of every
live entity is an element of `positionComps` and carries the entity's slot as
`objectId`, and the slot is the entity's id. -/
def StoreConsistent (w : World) : Prop :=
  ∀ i p, Live w i → game_object_get_component w i COMP_POSITION = some p →
    p ∈ w.positionComps ∧ (w.posHeap p).objectId = (i : Int) ∧
    (w.gameObjects i).id = (i : Int)

/-- The value of an `i32` expression whose mathematical value is `v`, under
two's complement wrap-around. -/
def wrap32 (v : Int) : Int := (v + 2147483648) % 4294967296 - 2147483648

/-- The conversion of an `i32` value to `u32`. -/
def toU32 (v : Int) : Int := v % 4294967296

/-! ## Health routines -/

/-- The corpse glyph `'%'`. -/
def CORPSE_GLYPH : Nat := 37

/-- The corpse colour `0x990000FF`. -/
def CORPSE_COLOR : Nat := 0x990000FF

/-- The function `health_check_death`. `go == player` compares the slot with
the global `player` pointer. `none` is a fault: the entity has no Health, or
is dead, is not the player and has no Visibility or no Physical, or the
detach of its Movement faults. -/
def health_check_death (MAP_WIDTH MAP_HEIGHT : Nat) (w : World) (go : Nat) : Option World :=
  match game_object_get_component w go COMP_HEALTH with
  | none => none
  | some h =>
    if (w.hlthHeap h).currentHP ≤ 0 then
      if w.player = some go then some w
      else
        match game_object_get_component w go COMP_VISIBILITY with
        | none => none
        | some vis =>
          let w1 : World :=
            { w with
              visHeap := fun a =>
                if a = vis then
                  { w.visHeap vis with glyph := CORPSE_GLYPH, fgColor := CORPSE_COLOR }
                else w.visHeap a }
          match game_object_get_component w1 go COMP_PHYSICAL with
          | none => none
          | some phys =>
            let w2 : World :=
              { w1 with
                physHeap := fun a =>
                  if a = phys then
                    { w1.physHeap phys with blocksMovement := false, blocksSight := false }
                  else w1.physHeap a }
            match game_object_update_component MAP_WIDTH MAP_HEIGHT w2 go COMP_MOVEMENT none with
            | none => none
            | some w3 =>
              some { w3 with
                     hlthHeap := fun a =>
                       if a = h then { w3.hlthHeap h with ticksUntilRemoval := 5 }
                       else w3.hlthHeap a }
    else some w

/-- The body of the loop of `health_recover` for the Health component at
address `h`; `currentHP += recoveryRate` is an `i32` addition. -/
def health_recover_step (w : World) (h : Nat) : World :=
  if (w.hlthHeap h).currentHP > 0 then
    let hp := wrap32 ((w.hlthHeap h).currentHP + (w.hlthHeap h).recoveryRate)
    { w with
      hlthHeap := fun a =>
        if a = h then
          { w.hlthHeap h with
            currentHP := if hp > (w.hlthHeap h).maxHP then (w.hlthHeap h).maxHP else hp }
        else w.hlthHeap a }
  else w

/-- The function `health_recover`: the loop over `healthComps` from its head. -/
def health_recover (w : World) : World :=
  w.healthComps.foldl health_recover_step w

/-- The body of the loop of `health_removal_update` for the Health component
at address `h`. The source copies the owner into the local variable
`goToDestroy` and calls `game_object_destroy` on the address of that copy:
the stores change, the pool does not. `none` is an `objectId` outside the
pool. -/
def health_removal_step (w : World) (h : Nat) : Option World :=
  if (w.hlthHeap h).currentHP ≤ 0 then
    if (w.hlthHeap h).ticksUntilRemoval ≤ 0 then
      match gameObjectAt (w.hlthHeap h).objectId with
      | none => none
      | some o => some (game_object_destroy_obj w (w.gameObjects o)).1
    else
      some { w with
             hlthHeap := fun a =>
               if a = h then
                 { w.hlthHeap h with
                   ticksUntilRemoval := wrap32 ((w.hlthHeap h).ticksUntilRemoval - 1) }
               else w.hlthHeap a }
  else some w

/-- The loop of `health_removal_update` over the elements of the list. -/
def health_removal_loop : List Nat → World → Option World
  | [], w => some w
  | h :: hs, w => (health_removal_step w h).bind (health_removal_loop hs)

/-- The function `health_removal_update`. Modelled from the spec: the list
library is not part of the sources; after the element under the cursor has
been removed from `healthComps` by the destroy, `list_next` still yields the
element that followed it, so the loop visits the elements that the list held
when the sweep began. -/
def health_removal_update (w : World) : Option World :=
  health_removal_loop w.healthComps w

/-- A number of successive sweeps of `health_removal_update`. -/
def removal_sweeps : Nat → World → Option World
  | 0, w => some w
  | n + 1, w => (health_removal_update w).bind (removal_sweeps n)

/-! ## Combat routines -/

/-- The function `combat_deal_damage`; the sums and the subtraction are `i32`
operations. `none` is a fault: a missing Combat component, a missing Health
of the defender when damage is dealt, or a fault of `health_check_death`. -/
def combat_deal_damage (MAP_WIDTH MAP_HEIGHT : Nat) (w : World) (attacker defender : Nat) :
    Option World :=
  match game_object_get_component w attacker COMP_COMBAT with
  | none => none
  | some att =>
    match game_object_get_component w defender COMP_COMBAT with
    | none => none
    | some df =>
      let totAtt := wrap32 ((w.comHeap att).attack + (w.comHeap att).attackModifier)
      let totDef := wrap32 ((w.comHeap df).defense + (w.comHeap df).defenseModifier)
      if totDef ≥ totAtt then some w
      else
        match game_object_get_component w defender COMP_HEALTH with
        | none => none
        | some dh =>
          health_check_death MAP_WIDTH MAP_HEIGHT
            { w with
              hlthHeap := fun a =>
                if a = dh then
                  { w.hlthHeap dh with
                    currentHP := wrap32 ((w.hlthHeap dh).currentHP - wrap32 (totAtt - totDef)) }
                else w.hlthHeap a }
            defender

/-- The function `combat_attack`. `rand k` is the value of the call of
`rand()`, `k` the number of calls made before. `hitRoll` is a `u32`,
`hitWindow` an `i32`: the comparison `hitRoll < hitWindow` converts
`hitWindow` to `u32`. `none` is a fault: the defender has no Combat, or
`combat_deal_damage` faults. -/
def combat_attack (MAP_WIDTH MAP_HEIGHT : Nat) (rand : Nat → Nat) (w : World) (k : Nat)
    (attacker defender : Nat) : Option (World × Nat) :=
  match game_object_get_component w defender COMP_COMBAT with
  | none => none
  | some df =>
    let hitRoll : Int := ((rand k % 100 : Nat) : Int)
    let hitWindow : Int := wrap32 (99 - (w.comHeap df).dodgeModifier)
    if hitRoll < toU32 hitWindow then
      (combat_deal_damage MAP_WIDTH MAP_HEIGHT w attacker defender).map fun w1 => (w1, k + 1)
    else some (w, k + 1)

/-! ## Monster sampling -/

def MONSTER_TYPE_COUNT : Nat := 100

def MAX_DUNGEON_LEVEL : Nat := 20

/-- The `for` loop of `monster_for_level` from type index `i` on, `n` types
left, with `accum` (a `u32`) the sum so far and `lvl` the index `level - 1`:
`accum += monsterProbability[i][lvl]; if (accum >= r) return i + 1;`, and
`return 1` after the loop. -/
def monster_loop (monsterProbability : Nat → Nat → Int) (lvl : Nat) (r : Int) :
    Nat → Nat → Int → Int
  | 0, _, _ => 1
  | n + 1, i, accum =>
    if toU32 (accum + monsterProbability i lvl) ≥ r then (i : Int) + 1
    else monster_loop monsterProbability lvl r n (i + 1) (toU32 (accum + monsterProbability i lvl))

/-- The function `monster_for_level`; `randVal` is the value of its call of
`rand()`. `none` is an index `level - 1` outside `monsterProbability`. -/
def monster_for_level (monsterProbability : Nat → Nat → Int) (level : Int) (randVal : Nat) :
    Option Int :=
  if 1 ≤ level ∧ level ≤ (MAX_DUNGEON_LEVEL : Int) then
    some (monster_loop monsterProbability (level - 1).toNat ((randVal % 100 : Nat) : Int)
      MONSTER_TYPE_COUNT 0 0)
  else none

/-! ## Scenarios for the tick systems -/

/-- A world whose current level is `sampleLevel`, with one monster made
through `game_object_create` and `game_object_update_component` at `(2, 1)`:
it blocks movement, its Movement is due, `chasingPlayer` is set and
`turnsSincePlayerSeen` is 5; the target map is generated for the target
`(1, 1)` and no cell is in the field of view. -/
def scenario_chaser : Option World :=
  (game_object_create (world_state_init sampleLevelWorld)).bind fun r0 =>
  (game_object_update_component 5 5 r0.1 r0.2 COMP_POSITION (some ⟨0, 2, 1, LAYER_TOP⟩)).bind
  fun w1 =>
  (game_object_update_component 5 5 w1 r0.2 COMP_PHYSICAL (some ⟨0, true, false⟩)).bind
  fun w2 =>
  (game_object_update_component 5 5 w2 r0.2 COMP_MOVEMENT
    (some ⟨0, 1, 1, 1, (0, 0), false, true, 5⟩)).bind fun w3 =>
  generate_target_map 5 5 w3 1 1 1000000

/-- The world of `scenario_chaser`. -/
def world_chaser : World := scenario_chaser.getD zeroMem

/-- Every call of `rand()` returns 2: the random branch steps to the right. -/
def randTwo (_ : Nat) : Nat := 2

/-- The world after `movement_update` on `world_chaser`. -/
def world_chaser_after : World :=
  ((movement_update 5 5 5 5 randTwo world_chaser 0).map Prod.fst).getD zeroMem

/-- A fresh world with one monster (not the player) made through the
component interface: Visibility, Physical, a Movement that is attached and
then updated once, and a Health with `currentHP = 0`. -/
def scenario_dead_monster_twice : Option World :=
  (game_object_create (world_state_init zeroMem)).bind fun r0 =>
  (game_object_update_component 5 5 r0.1 r0.2 COMP_VISIBILITY
    (some ⟨0, 103, 1, 0, false, false⟩)).bind fun w1 =>
  (game_object_update_component 5 5 w1 r0.2 COMP_PHYSICAL (some ⟨0, true, false⟩)).bind
  fun w2 =>
  (game_object_update_component 5 5 w2 r0.2 COMP_MOVEMENT
    (some ⟨0, 1, 1, 1, (0, 0), false, false, 0⟩)).bind fun w3 =>
  (game_object_update_component 5 5 w3 r0.2 COMP_MOVEMENT
    (some ⟨0, 1, 2, 2, (0, 0), false, false, 0⟩)).bind fun w4 =>
  game_object_update_component 5 5 w4 r0.2 COMP_HEALTH (some ⟨0, 0, 10, 1, 0⟩)

/-- The world of `scenario_dead_monster_twice`. -/
def world_dead_monster_twice : World := scenario_dead_monster_twice.getD zeroMem

/-- A fresh world with one monster (not the player) as `npc_add` makes it,
every component attached once, with `currentHP = 0`. -/
def scenario_dead_monster : Option World :=
  (game_object_create (world_state_init zeroMem)).bind fun r0 =>
  (game_object_update_component 5 5 r0.1 r0.2 COMP_POSITION (some ⟨0, 2, 1, LAYER_TOP⟩)).bind
  fun w0 =>
  (game_object_update_component 5 5 w0 r0.2 COMP_VISIBILITY
    (some ⟨0, 103, 1, 0, false, false⟩)).bind fun w1 =>
  (game_object_update_component 5 5 w1 r0.2 COMP_PHYSICAL (some ⟨0, true, false⟩)).bind
  fun w2 =>
  (game_object_update_component 5 5 w2 r0.2 COMP_MOVEMENT
    (some ⟨0, 1, 1, 1, (0, 0), false, false, 0⟩)).bind fun w3 =>
  (game_object_update_component 5 5 w3 r0.2 COMP_HEALTH (some ⟨0, 0, 10, 1, 0⟩)).bind
  fun w4 =>
  game_object_update_component 5 5 w4 r0.2 COMP_COMBAT (some ⟨0, 3, 0, 1, 0, 0⟩)

/-- The world of `scenario_dead_monster`. -/
def world_dead_monster : World := scenario_dead_monster.getD zeroMem

/-- The world after `health_check_death` on the monster of
`world_dead_monster`. -/
def world_corpse : World := (health_check_death 5 5 world_dead_monster 0).getD zeroMem

/-- A fresh world with two fighters made through the component interface:
slot 0 has attack 15 and defense 10, slot 1 has attack 10 and defense 5;
both have 20 hit points, a Visibility, a Physical and a Movement. The
modifiers are those of the zeroed memory, 0. -/
def scenario_fighters : Option World :=
  (game_object_create (world_state_init zeroMem)).bind fun r0 =>
  (game_object_update_component 5 5 r0.1 r0.2 COMP_VISIBILITY
    (some ⟨0, 64, 1, 0, false, false⟩)).bind fun a1 =>
  (game_object_update_component 5 5 a1 r0.2 COMP_PHYSICAL (some ⟨0, true, false⟩)).bind
  fun a2 =>
  (game_object_update_component 5 5 a2 r0.2 COMP_HEALTH (some ⟨0, 20, 20, 1, 0⟩)).bind
  fun a3 =>
  (game_object_update_component 5 5 a3 r0.2 COMP_COMBAT (some ⟨0, 15, 0, 10, 0, 0⟩)).bind
  fun a4 =>
  (game_object_create a4).bind fun r1 =>
  (game_object_update_component 5 5 r1.1 r1.2 COMP_VISIBILITY
    (some ⟨0, 103, 1, 0, false, false⟩)).bind fun b1 =>
  (game_object_update_component 5 5 b1 r1.2 COMP_PHYSICAL (some ⟨0, true, false⟩)).bind
  fun b2 =>
  (game_object_update_component 5 5 b2 r1.2 COMP_HEALTH (some ⟨0, 20, 20, 1, 0⟩)).bind
  fun b3 =>
  game_object_update_component 5 5 b3 r1.2 COMP_COMBAT (some ⟨0, 10, 0, 5, 0, 0⟩)

/-- The world of `scenario_fighters`. -/
def world_fighters : World := scenario_fighters.getD zeroMem

/-- The world `world_fighters` with the `dodgeModifier` of every Combat
record set to 100. -/
def world_fighters_dodge : World :=
  { world_fighters with
    comHeap := fun a => { world_fighters.comHeap a with dodgeModifier := 100 } }

/-- Every call of `rand()` returns 99. -/
def randNinetyNine (_ : Nat) : Nat := 99

/-- Every call of `rand()` returns 0. -/
def randZero (_ : Nat) : Nat := 0

/-- Weights for level 1 that sum to 40, all on monster type 2. -/
def probForty (i lvl : Nat) : Int := if i = 1 ∧ lvl = 0 then 40 else 0

/-- Weights for level 1 that sum to 100, all on monster type 2. -/
def probHundred (i lvl : Nat) : Int := if i = 1 ∧ lvl = 0 then 100 else 0

/-- The number of rolls `r` in `0, ..., 99` for which `monster_for_level`
returns the type `t`. -/
def rollCount (monsterProbability : Nat → Nat → Int) (level : Int) (t : Int) : Nat :=
  ((List.range 100).filter fun r =>
    decide (monster_for_level monsterProbability level r = some t)).length

/-- The mathematical value `v` is representable as an `i32`. -/
def InI32 (v : Int) : Prop := -2147483648 ≤ v ∧ v < 2147483648

instance (v : Int) : Decidable (InI32 v) := by
  unfold InI32
  infer_instance

/-! ## Game objects and level management -/

/-- The function `floor_add`; the glyph is `'.'`. -/
def floor_add (MAP_WIDTH MAP_HEIGHT : Nat) (w : World) (x y : Nat) : Option World :=
  (game_object_create w).bind fun r =>
  (game_object_update_component MAP_WIDTH MAP_HEIGHT r.1 r.2 COMP_POSITION
    (some ⟨(r.1.gameObjects r.2).id, x, y, LAYER_GROUND⟩)).bind fun w1 =>
  (game_object_update_component MAP_WIDTH MAP_HEIGHT w1 r.2 COMP_VISIBILITY
    (some ⟨(w1.gameObjects r.2).id, 46, 0x3e3c3cFF, 0, false, true⟩)).bind fun w2 =>
  game_object_update_component MAP_WIDTH MAP_HEIGHT w2 r.2 COMP_PHYSICAL
    (some ⟨(w2.gameObjects r.2).id, false, false⟩)

/-- The function `wall_add`; the glyph is `'#'`. -/
def wall_add (MAP_WIDTH MAP_HEIGHT : Nat) (w : World) (x y : Nat) : Option World :=
  (game_object_create w).bind fun r =>
  (game_object_update_component MAP_WIDTH MAP_HEIGHT r.1 r.2 COMP_POSITION
    (some ⟨(r.1.gameObjects r.2).id, x, y, LAYER_GROUND⟩)).bind fun w1 =>
  (game_object_update_component MAP_WIDTH MAP_HEIGHT w1 r.2 COMP_VISIBILITY
    (some ⟨(w1.gameObjects r.2).id, 35, 0x675644FF, 0, false, true⟩)).bind fun w2 =>
  game_object_update_component MAP_WIDTH MAP_HEIGHT w2 r.2 COMP_PHYSICAL
    (some ⟨(w2.gameObjects r.2).id, true, true⟩)

/-- The values that `level_init` reads from the configuration entity of a
monster type (`vis_glyph`, `vis_color`, `mv_speed`, `mv_frequency`,
`h_maxHP`, `h_recRate`, `com_attack`, `com_defense`), already converted. -/
structure NpcTemplate where
  glyph : Nat
  fgColor : Nat
  speed : Nat
  frequency : Nat
  maxHP : Int
  hpRecRate : Int
  attack : Int
  defense : Int

/-- The function `npc_add`; `speed` and `frequency` are `u32` arguments
stored in `i32` fields. -/
def npc_add (MAP_WIDTH MAP_HEIGHT : Nat) (w : World) (x y layer : Nat) (t : NpcTemplate) :
    Option World :=
  (game_object_create w).bind fun r =>
  (game_object_update_component MAP_WIDTH MAP_HEIGHT r.1 r.2 COMP_POSITION
    (some ⟨(r.1.gameObjects r.2).id, x, y, layer⟩)).bind fun w1 =>
  (game_object_update_component MAP_WIDTH MAP_HEIGHT w1 r.2 COMP_VISIBILITY
    (some ⟨(w1.gameObjects r.2).id, t.glyph, t.fgColor, 0, false, false⟩)).bind fun w2 =>
  (game_object_update_component MAP_WIDTH MAP_HEIGHT w2 r.2 COMP_PHYSICAL
    (some ⟨(w2.gameObjects r.2).id, true, false⟩)).bind fun w3 =>
  (game_object_update_component MAP_WIDTH MAP_HEIGHT w3 r.2 COMP_MOVEMENT
    (some ⟨(w3.gameObjects r.2).id, wrap32 t.speed, wrap32 t.frequency, wrap32 t.frequency,
      (0, 0), false, false, 0⟩)).bind fun w4 =>
  (game_object_update_component MAP_WIDTH MAP_HEIGHT w4 r.2 COMP_HEALTH
    (some ⟨(w4.gameObjects r.2).id, t.maxHP, t.maxHP, t.hpRecRate, 0⟩)).bind fun w5 =>
  game_object_update_component MAP_WIDTH MAP_HEIGHT w5 r.2 COMP_COMBAT
    (some ⟨(w5.gameObjects r.2).id, t.attack, 0, t.defense, 0, 0⟩)

/-- The function `level_get_open_point`, with a bound `fuel` on the number of
rounds of its `for (;;)` loop; each round makes two calls of `rand()`. The
result is the point and the number of calls of `rand()` made so far. `none`
is `rand() % 0`, or the bound reached. -/
def level_get_open_point (MAP_WIDTH MAP_HEIGHT : Nat) (rand : Nat → Nat)
    (mapCells : Nat → Nat → Bool) : Nat → Nat → Option ((Nat × Nat) × Nat)
  | 0, _ => none
  | fuel + 1, k =>
    if MAP_WIDTH = 0 ∨ MAP_HEIGHT = 0 then none
    else if mapCells (rand k % MAP_WIDTH) (rand (k + 1) % MAP_HEIGHT) = false then
      some ((rand k % MAP_WIDTH, rand (k + 1) % MAP_HEIGHT), k + 2)
    else level_get_open_point MAP_WIDTH MAP_HEIGHT rand mapCells fuel (k + 2)

/-- The first loop of `level_init`, `for (u32 i = 1; i < MAX_GO; i++)`, with
`n` indices left, so that the index at hand is `i = MAX_GO - n`: the slot `i`
is destroyed when its id is neither the player's nor `UNUSED`. -/
def level_clear_loop (player : Nat) : Nat → World → World
  | 0, w => w
  | n + 1, w =>
    if (w.gameObjects (MAX_GO - (n + 1))).id ≠ (w.gameObjects player).id ∧
        (w.gameObjects (MAX_GO - (n + 1))).id ≠ UNUSED
    then level_clear_loop player n (game_object_destroy w (MAX_GO - (n + 1)))
    else level_clear_loop player n w

/-- The first loop of `level_init`, from `i = 1` on. -/
def level_clear (w : World) (player : Nat) : World :=
  level_clear_loop player (MAX_GO - 1) w

/-- The cells in the order of the two nested loops of `level_init` that add
the terrain: `x` outer, `y` inner. -/
def terrainOrder (MAP_WIDTH MAP_HEIGHT : Nat) : List (Nat × Nat) :=
  List.product (List.range MAP_WIDTH) (List.range MAP_HEIGHT)

/-- The terrain loops of `level_init` over a list of cells: a wall entity for
a wall cell, a floor entity for the others. The arguments of `wall_add` and
`floor_add` are `u8`. -/
def level_terrain (MAP_WIDTH MAP_HEIGHT : Nat) (mapCells : Nat → Nat → Bool) :
    List (Nat × Nat) → World → Option World
  | [], w => some w
  | c :: cs, w =>
    (if mapCells c.1 c.2 = true then wall_add MAP_WIDTH MAP_HEIGHT w (c.1 % 256) (c.2 % 256)
     else floor_add MAP_WIDTH MAP_HEIGHT w (c.1 % 256) (c.2 % 256)).bind
      (level_terrain MAP_WIDTH MAP_HEIGHT mapCells cs)

/-- The monster loop of `level_init` with `n` monsters left to add.
`templates id` stands for `get_monster_config` and the reads of the
configuration entity, which are not part of the sources: `none` when the
configuration has no such monster or lacks a value. The state is the world
and the number of calls of `rand()` made so far. -/
def level_monsters (MAP_WIDTH MAP_HEIGHT : Nat) (rand : Nat → Nat) (mapCells : Nat → Nat → Bool)
    (monsterProbability : Nat → Nat → Int) (templates : Int → Option NpcTemplate)
    (fuel : Nat) (levelToGenerate : Int) : Nat → World × Nat → Option (World × Nat)
  | 0, st => some st
  | n + 1, st =>
    match monster_for_level monsterProbability levelToGenerate (rand st.2) with
    | none => none
    | some monsterId =>
      match level_get_open_point MAP_WIDTH MAP_HEIGHT rand mapCells fuel (st.2 + 1) with
      | none => none
      | some (pt, k1) =>
        match templates monsterId with
        | none => none
        | some t =>
          (npc_add MAP_WIDTH MAP_HEIGHT st.1 (pt.1 % 256) (pt.2 % 256) LAYER_TOP t).bind
            fun w1 =>
            level_monsters MAP_WIDTH MAP_HEIGHT rand mapCells monsterProbability templates
              fuel levelToGenerate n (w1, k1)

/-- The part of `level_init` that follows its first loop, on the world `w`
that the first loop leaves: the terrain, the level record, the monsters and
the placement of the player. -/
def level_populate (MAP_WIDTH MAP_HEIGHT : Nat) (rand : Nat → Nat) (mapCells : Nat → Nat → Bool)
    (monsterProbability : Nat → Nat → Int) (maxMonsters : Nat → Int)
    (templates : Int → Option NpcTemplate) (fuel : Nat)
    (w : World) (k : Nat) (levelToGenerate : Int) (player : Nat) :
    Option (World × DungeonLevel × Nat) :=
  (level_terrain MAP_WIDTH MAP_HEIGHT mapCells (terrainOrder MAP_WIDTH MAP_HEIGHT) w).bind
  fun w2 =>
  if 1 ≤ levelToGenerate ∧ levelToGenerate ≤ (MAX_DUNGEON_LEVEL : Int) then
    (level_monsters MAP_WIDTH MAP_HEIGHT rand mapCells monsterProbability templates fuel
      levelToGenerate (maxMonsters (levelToGenerate - 1).toNat).toNat (w2, k)).bind fun st3 =>
    (level_get_open_point MAP_WIDTH MAP_HEIGHT rand mapCells fuel st3.2).bind fun r =>
    (game_object_update_component MAP_WIDTH MAP_HEIGHT st3.1 player COMP_POSITION
      (some ⟨(st3.1.gameObjects player).id, r.1.1 % 256, r.1.2 % 256, LAYER_TOP⟩)).bind
      fun w4 =>
      some (w4, { level := levelToGenerate,
                  mapWalls := fun x y => mapCells x.toNat y.toNat }, r.2)
  else none

/-- The function `level_init`. `mapCells` is the grid that `map_generate`
(not part of the sources) fills, `maxMonsters` and `monsterProbability` are
the two global tables, `player` is the slot of the `player` argument, `k` the
number of calls of `rand()` made before. The result is the world, the level
record that is returned and the number of calls of `rand()` made. `none` is
a fault (pool exhausted, index outside a table, missing configuration) or
the bound `fuel` reached in the search of an open point. -/
def level_init (MAP_WIDTH MAP_HEIGHT : Nat) (rand : Nat → Nat) (mapCells : Nat → Nat → Bool)
    (monsterProbability : Nat → Nat → Int) (maxMonsters : Nat → Int)
    (templates : Int → Option NpcTemplate) (fuel : Nat)
    (w : World) (k : Nat) (levelToGenerate : Int) (player : Nat) :
    Option (World × DungeonLevel × Nat) :=
  level_populate MAP_WIDTH MAP_HEIGHT rand mapCells monsterProbability maxMonsters templates
    fuel (level_clear w player) k levelToGenerate player

/-- The live entity in slot `j` has a Position on the cell `(x, y)` on
`LAYER_GROUND`. -/
def IsTerrainAt (w : World) (j x y : Nat) : Prop :=
  Live w j ∧ ∃ p, game_object_get_component w j COMP_POSITION = some p ∧
    (w.posHeap p).x = x ∧ (w.posHeap p).y = y ∧ (w.posHeap p).layer = LAYER_GROUND

/-- The entity in slot `j` has a Physical component whose two flags are `b`. -/
def HasFlags (w : World) (j : Nat) (b : Bool) : Prop :=
  ∃ ph, game_object_get_component w j COMP_PHYSICAL = some ph ∧
    (w.physHeap ph).blocksMovement = b ∧ (w.physHeap ph).blocksSight = b

/-- A 2 x 2 map without walls. -/
def openCells (_ _ : Nat) : Bool := false

/-- A fresh world with two entities made through the component interface:
slot 0 is a floor entity of an earlier level at `(0, 0)`, slot 1 is the
player, with a Position at `(1, 1)`. -/
def scenario_player_in_slot_one : Option World :=
  (floor_add 2 2 (world_state_init zeroMem) 0 0).bind fun w0 =>
  (game_object_create w0).bind fun r1 =>
  (game_object_update_component 2 2 r1.1 r1.2 COMP_POSITION (some ⟨1, 1, 1, LAYER_TOP⟩)).map
  fun w1 => { w1 with player := some r1.2 }

/-- The world of `scenario_player_in_slot_one`. -/
def world_player_in_slot_one : World := scenario_player_in_slot_one.getD zeroMem

/-- The world after the part of `level_init` that follows its first loop, for
level 1 on `world_player_in_slot_one`, with a 2 x 2 map without walls and no
monsters. -/
def world_player_in_slot_one_after : World :=
  ((level_populate 2 2 randZero openCells probForty (fun _ => 0) (fun _ => none) 8
    world_player_in_slot_one 0 1 1).map fun r => r.1).getD zeroMem

/-- The entity in slot `j` of `w` is being built from the free slot `j` of
`w0`: every other slot is as in `w0`, the components of `j` were allocated
after `w0`, and the Position and Physical records that `w0` had allocated are
untouched. -/
def Building (w0 w : World) (j : Nat) : Prop :=
  j < MAX_GO ∧ (w0.gameObjects j).id = UNUSED ∧ (w.gameObjects j).id = (j : Int) ∧
  (∀ i, i ≠ j → w.gameObjects i = w0.gameObjects i) ∧
  w0.brk ≤ w.brk ∧
  (∀ c p, (w.gameObjects j).components c = some p → w0.brk ≤ p ∧ p < w.brk) ∧
  (∀ a, a < w0.brk → w.posHeap a = w0.posHeap a) ∧
  (∀ a, a < w0.brk → w.physHeap a = w0.physHeap a) ∧
  w.player = w0.player

/-- The entity in slot `j` has a Position, allocated in `w`, with the given
coordinates and layer. -/
def PosFact (w : World) (j x y layer : Nat) : Prop :=
  ∃ p, p < w.brk ∧ (w.gameObjects j).components COMP_POSITION = some p ∧
    (w.posHeap p).x = x ∧ (w.posHeap p).y = y ∧ (w.posHeap p).layer = layer

/-- The entity in slot `j` has a Physical, allocated in `w`, with the given
flags. -/
def PhysFact (w : World) (j : Nat) (bm bs : Bool) : Prop :=
  ∃ ph, ph < w.brk ∧ (w.gameObjects j).components COMP_PHYSICAL = some ph ∧
    (w.physHeap ph).blocksMovement = bm ∧ (w.physHeap ph).blocksSight = bs

/-- The world `w` is `w0` with one more entity, in slot `j`, that has a
Position with the given coordinates and layer and a Physical with the given
flags. -/
def Adds (w0 w : World) (j x y layer : Nat) (bm bs : Bool) : Prop :=
  Building w0 w j ∧ PosFact w j x y layer ∧ PhysFact w j bm bs

/-- The invariant of `level_init` after its first loop, for the allocation
mark `b0` at the start and the cells `L` whose terrain has been added: the
player, in slot 0, is live and its components were allocated before `b0`;
the components of every other live entity were allocated from `b0` on; every
cell of `L` has a terrain entity with the flags of the wall grid; there is no
other terrain entity than those of the cells of `L`, and none twice on a
cell (the player apart). -/
structure LevelInv (b0 : Nat) (mapCells : Nat → Nat → Bool) (L : List (Nat × Nat))
    (w : World) : Prop where
  player_live : (w.gameObjects 0).id ≠ UNUSED
  player_alloc : ∀ c p, (w.gameObjects 0).components c = some p → p < b0
  brk_le : b0 ≤ w.brk
  fresh : ∀ j, Live w j → j ≠ 0 → ∀ c p, (w.gameObjects j).components c = some p →
    b0 ≤ p ∧ p < w.brk
  terrain : ∀ x y, (x, y) ∈ L → ∃ j, j ≠ 0 ∧ IsTerrainAt w j x y ∧ HasFlags w j (mapCells x y)
  only : ∀ j x y, j ≠ 0 → IsTerrainAt w j x y → (x, y) ∈ L
  uniq : ∀ j j1 x y, j ≠ 0 → j1 ≠ 0 → IsTerrainAt w j x y → IsTerrainAt w j1 x y → j = j1

/-- Every slot of the pool from `n` on is free. -/
def FreeFrom (w : World) (n : Nat) : Prop :=
  ∀ i, n ≤ i → i < MAX_GO → (w.gameObjects i).id = UNUSED

/-- The Position of the entity in slot `e`, if it has one, is on a cell of
the map for which `goPositions` holds a list. -/
def PositionIndexed (MAP_WIDTH MAP_HEIGHT : Nat) (w : World) (e : Nat) : Prop :=
  ∀ p, (w.gameObjects e).components COMP_POSITION = some p →
    (w.posHeap p).x < MAP_WIDTH ∧ (w.posHeap p).y < MAP_HEIGHT ∧
    (w.goPositions (w.posHeap p).x (w.posHeap p).y).isSome = true

/-- The world `w1` extends `w`: nothing was freed, the Position records
allocated in `w` and the slots live in `w` are as in `w`, and every cell
that had a list in `goPositions` still has one. -/
def Extends (w w1 : World) : Prop :=
  w.brk ≤ w1.brk ∧ (∀ a, a < w.brk → w1.posHeap a = w.posHeap a) ∧
  (∀ i, (w.gameObjects i).id ≠ UNUSED → w1.gameObjects i = w.gameObjects i) ∧
  ∀ x y, (w.goPositions x y).isSome = true → (w1.goPositions x y).isSome = true

/-- A fresh world with two entities made through the component interface:
slot 0 is the player, with a Position at `(1, 1)`, slot 1 is a floor entity
of an earlier level at `(0, 0)`. -/
def scenario_player_in_slot_zero : Option World :=
  (game_object_create (world_state_init zeroMem)).bind fun r0 =>
  (game_object_update_component 2 2 r0.1 r0.2 COMP_POSITION (some ⟨0, 1, 1, LAYER_TOP⟩)).bind
  fun w0 => (floor_add 2 2 w0 0 0).map fun w1 => { w1 with player := some r0.2 }

/-- The world of `scenario_player_in_slot_zero`. -/
def world_player_in_slot_zero : World := scenario_player_in_slot_zero.getD zeroMem

/-- One template for every monster type. -/
def sampleTemplate (_ : Int) : Option NpcTemplate := some ⟨103, 0xFF0000FF, 1, 1, 10, 1, 2, 1⟩

/-- A fresh world with one entity made through the component interface:
slot 0 has a Position at `(1, 1)` and no other component. -/
def scenario_position_only : Option World :=
  (game_object_create (world_state_init zeroMem)).bind fun r =>
  game_object_update_component 5 5 r.1 r.2 COMP_POSITION (some ⟨0, 1, 1, LAYER_TOP⟩)

/-- The world of `scenario_position_only`. -/
def world_position_only : World := scenario_position_only.getD zeroMem

/-- Every element of the Position store is the Position of a live entity,
found through its `objectId`, and this entity has a Physical. -/
def StoreExact (w : World) : Prop :=
  ∀ p, p ∈ w.positionComps →
    ∃ o, gameObjectAt (w.posHeap p).objectId = some o ∧ Live w o ∧
      game_object_get_component w o COMP_POSITION = some p ∧ HasPhysical w o

/-- The cell `(x, y)` is an interior cell of the grid: it is not on the
border. -/
def Interior (MAP_WIDTH MAP_HEIGHT : Nat) (x y : Int) : Prop :=
  0 < x ∧ x < (MAP_WIDTH : Int) - 1 ∧ 0 < y ∧ y < (MAP_HEIGHT : Int) - 1

instance (MAP_WIDTH MAP_HEIGHT : Nat) (x y : Int) :
    Decidable (Interior MAP_WIDTH MAP_HEIGHT x y) := by
  unfold Interior
  infer_instance

/-- The invariant that keeps the sweeps of `generate_target_map` inside the
grid: no value of the grid is negative, and every cell that holds a value
other than `UNSET` is an interior cell. -/
def SweepSafe (MAP_WIDTH MAP_HEIGHT : Nat) (dmap : Int → Int → Int) : Prop :=
  ∀ x y, inMap MAP_WIDTH MAP_HEIGHT x y →
    0 ≤ dmap x y ∧ (dmap x y ≠ TARGET_UNSET → Interior MAP_WIDTH MAP_HEIGHT x y)

/-- A 258 x 3 level: walls on the border, so that the row `y = 1` is free
from `x = 1` to `x = 256`. -/
def wideLevel : DungeonLevel :=
  { level := 1
    mapWalls := fun x y => decide (x ≤ 0 ∨ 257 ≤ x ∨ y ≤ 0 ∨ 2 ≤ y) }

/-- A world whose current level is `wideLevel`. -/
def wideLevelWorld : World :=
  { zeroMem with currentLevel := some wideLevel }

/-- The sum of the weights `monsterProbability[0..i-1][lvl]`: the value of
`accum` in `monster_for_level` after `i` rounds of its loop, as long as the
`u32` does not wrap. -/
def cumWeight (monsterProbability : Nat → Nat → Int) (lvl : Nat) : Nat → Int
  | 0 => 0
  | i + 1 => cumWeight monsterProbability lvl i + monsterProbability i lvl

theorem list_remove_element_with_data_eq (l : List Nat) (d : Nat) :
    list_remove_element_with_data l d = l.erase d := by
  unfold list_remove_element_with_data list_search list_remove
  by_cases h : d ∈ l
  · simp [h]
  · simp [h, List.erase_of_not_mem h]

theorem destroy_in_store_none (l : List Nat) : destroy_in_store l none = l := rfl

theorem destroy_in_store_some (l : List Nat) (d : Nat) :
    destroy_in_store l (some d) = l.erase d := by
  unfold destroy_in_store list_search list_remove
  by_cases h : d ∈ l
  · simp [h]
  · simp [h, List.erase_of_not_mem h]

/-! ## The entity pool -/

theorem findUnused_some (go : Nat → GameObject) :
    ∀ (n i k : Nat), findUnused go n i = some k →
      i ≤ k ∧ k < i + n ∧ (go k).id = UNUSED ∧ ∀ j, i ≤ j → j < k → (go j).id ≠ UNUSED := by
  intro n
  induction n with
  | zero => intro i k h; simp [findUnused] at h
  | succ n ih =>
    intro i k h
    unfold findUnused at h
    by_cases hi : (go i).id = UNUSED
    · simp only [hi, if_true, Option.some.injEq] at h
      subst h
      exact ⟨le_rfl, by omega, hi, fun j h1 h2 => absurd h2 (by omega)⟩
    · simp only [hi, if_false] at h
      obtain ⟨h1, h2, h3, h4⟩ := ih (i + 1) k h
      refine ⟨by omega, by omega, h3, ?_⟩
      intro j hj1 hj2
      by_cases hji : j = i
      · subst hji; exact hi
      · exact h4 j (by omega) hj2

theorem findUnused_none (go : Nat → GameObject) :
    ∀ (n i : Nat), findUnused go n i = none →
      ∀ j, i ≤ j → j < i + n → (go j).id ≠ UNUSED := by
  intro n
  induction n with
  | zero => intro i _ j h1 h2; omega
  | succ n ih =>
    intro i h j h1 h2
    unfold findUnused at h
    by_cases hi : (go i).id = UNUSED
    · simp [hi] at h
    · simp only [hi, if_false] at h
      by_cases hji : j = i
      · subst hji; exact hi
      · exact ih (i + 1) h j (by omega) (by omega)

theorem findUnused_isSome_of_free (go : Nat → GameObject) (n i k : Nat)
    (h1 : i ≤ k) (h2 : k < i + n) (hk : (go k).id = UNUSED) :
    ∃ m, findUnused go n i = some m ∧ m ≤ k := by
  cases h : findUnused go n i with
  | none => exact absurd hk (findUnused_none go n i h k h1 h2)
  | some m =>
    refine ⟨m, rfl, ?_⟩
    by_contra hlt
    exact (findUnused_some go n i m h).2.2.2 k h1 (by omega) hk

/-! ## Claims on the entity store -/

/-- C1 (evaluation of the code at the failing input): in a fresh world one
entity is created, a Visibility is attached and then updated. The second call
inserts the component into the Visibility store a second time: the store has
two entries (twice the same address) while exactly one entity is live and has
a Visibility. -/
theorem update_component_reinserts_existing :
    ∃ w, scenario_visibility_twice = some w ∧
      storeOf w COMP_VISIBILITY = [0, 0] ∧
      (storeOf w COMP_VISIBILITY).length = 2 ∧
      (∀ i, (w.gameObjects i).id ≠ UNUSED → i = 0) ∧
      game_object_get_component w 0 COMP_VISIBILITY = some 0 := by
  refine ⟨_, rfl, by decide, by decide, ?_, by decide⟩
  intro i h
  by_contra hi
  apply h
  simp [setLink, hi, world_state_init]

/-- C3 (evaluation of the code at the failing input): an entity with a
Position at `(1, 1)` and a Visibility that was updated once is destroyed.
Afterwards its slot is free, yet the Visibility store still holds the address
of its Visibility component and the occupants of cell `(1, 1)` still list the
entity. -/
theorem destroy_leaves_stale_entries :
    ∃ w, scenario_before_destroy = some w ∧
      (w.gameObjects 0).id ≠ UNUSED ∧
      game_object_get_component w 0 COMP_VISIBILITY = some 1 ∧
      (∃ p, game_object_get_component w 0 COMP_POSITION = some p ∧
        (w.posHeap p).x = 1 ∧ (w.posHeap p).y = 1) ∧
      ((game_object_destroy w 0).gameObjects 0).id = UNUSED ∧
      1 ∈ storeOf (game_object_destroy w 0) COMP_VISIBILITY ∧
      game_objects_at_position (game_object_destroy w 0) 1 1 = some [0] := by
  refine ⟨_, rfl, by decide, by decide, ⟨0, by decide, by decide, by decide⟩, by decide,
    by decide, by decide⟩

/-- C4: after `game_object_destroy` of a live entity `e` its slot has id
`UNUSED` and every component link empty, every other slot is unchanged, and a
later `game_object_create` succeeds and hands out a slot not above `e`. -/
theorem game_object_destroy_frees_slot (w : World) (e : Nat) (hlive : Live w e) :
    ((game_object_destroy w e).gameObjects e).id = UNUSED ∧
    (∀ c, ((game_object_destroy w e).gameObjects e).components c = none) ∧
    (∀ j, j ≠ e → (game_object_destroy w e).gameObjects j = w.gameObjects j) ∧
    (∃ w1 i, game_object_create (game_object_destroy w e) = some (w1, i) ∧ i ≤ e) := by
  have hid : ((game_object_destroy w e).gameObjects e).id = UNUSED := by
    simp [game_object_destroy, game_object_destroy_obj]
  refine ⟨hid, ?_, ?_, ?_⟩
  · intro c
    simp [game_object_destroy, game_object_destroy_obj]
  · intro j hj
    simp [game_object_destroy, game_object_destroy_obj, hj]
  · obtain ⟨m, hm, hle⟩ := findUnused_isSome_of_free (game_object_destroy w e).gameObjects
      MAX_GO 0 e (Nat.zero_le _) (by simpa using hlive.1) hid
    exact ⟨_, m, by unfold game_object_create; rw [hm], hle⟩

/-- Witness for C4: the entity created first in a fresh world is destroyed. -/
theorem game_object_destroy_frees_slot_witness :
    Live world_one_entity 0 ∧
    ((game_object_destroy world_one_entity 0).gameObjects 0).id = UNUSED ∧
    ∃ w1 i, game_object_create (game_object_destroy world_one_entity 0) = some (w1, i) ∧
      i ≤ 0 :=
  ⟨⟨by decide, by decide⟩,
    (game_object_destroy_frees_slot world_one_entity 0 ⟨by decide, by decide⟩).1,
    (game_object_destroy_frees_slot world_one_entity 0 ⟨by decide, by decide⟩).2.2.2⟩

/-- C5: `game_object_create` succeeds exactly when some pool slot is `UNUSED`;
on success it hands out the smallest free index `i`, sets that slot's id to
`i` and all its links to empty and leaves every other slot and every store
unchanged, so that slot and id keep coinciding and the ids of live entities
stay pairwise distinct; when no slot is free it fails. -/
theorem game_object_create_spec (w : World) :
    ((∃ r, game_object_create w = some r) ↔ ∃ i, i < MAX_GO ∧ (w.gameObjects i).id = UNUSED) ∧
    (∀ w1 i, game_object_create w = some (w1, i) →
      i < MAX_GO ∧ (w.gameObjects i).id = UNUSED ∧
      (∀ j, j < i → (w.gameObjects j).id ≠ UNUSED) ∧
      (w1.gameObjects i).id = (i : Int) ∧
      (∀ c, (w1.gameObjects i).components c = none) ∧
      (∀ j, j ≠ i → w1.gameObjects j = w.gameObjects j) ∧
      (∀ c, storeOf w1 c = storeOf w c) ∧
      (SlotIdCoincide w → SlotIdCoincide w1 ∧ LiveIdsDistinct w1)) ∧
    ((∀ i, i < MAX_GO → (w.gameObjects i).id ≠ UNUSED) → game_object_create w = none) := by
  have hsucc : ∀ w1 i, game_object_create w = some (w1, i) →
      findUnused w.gameObjects MAX_GO 0 = some i ∧
      w1 = { w with
             gameObjects := fun j =>
               if j = i then { id := (i : Int), components := fun _ => none }
               else w.gameObjects j } := by
    intro w1 i h
    unfold game_object_create at h
    cases hf : findUnused w.gameObjects MAX_GO 0 with
    | none => simp [hf] at h
    | some k =>
      simp only [hf, Option.some.injEq, Prod.mk.injEq] at h
      obtain ⟨h1, h2⟩ := h
      subst h2
      exact ⟨rfl, h1.symm⟩
  refine ⟨⟨?_, ?_⟩, ?_, ?_⟩
  · rintro ⟨⟨w1, i⟩, h⟩
    obtain ⟨hf, _⟩ := hsucc w1 i h
    obtain ⟨_, h2, h3, _⟩ := findUnused_some _ _ _ _ hf
    exact ⟨i, by omega, h3⟩
  · rintro ⟨i, hi, hfree⟩
    obtain ⟨m, hm, _⟩ := findUnused_isSome_of_free w.gameObjects MAX_GO 0 i (Nat.zero_le _)
      (by omega) hfree
    exact ⟨_, by unfold game_object_create; rw [hm]⟩
  · intro w1 i h
    obtain ⟨hf, hw⟩ := hsucc w1 i h
    obtain ⟨_, h2, h3, h4⟩ := findUnused_some _ _ _ _ hf
    subst hw
    refine ⟨by omega, h3, fun j hj => h4 j (Nat.zero_le _) hj, by simp, by simp, ?_, ?_, ?_⟩
    · intro j hj
      simp [hj]
    · intro c
      cases c <;> rfl
    · intro hco
      have hco1 : SlotIdCoincide
          { w with
            gameObjects := fun j =>
              if j = i then { id := (i : Int), components := fun _ => none }
              else w.gameObjects j } := by
        intro j hj
        by_cases hji : j = i
        · subst hji; simp
        · have hl : Live w j := by
            refine ⟨hj.1, ?_⟩
            have := hj.2
            simpa [hji] using this
          have := hco j hl
          simpa [hji] using this
      refine ⟨hco1, ?_⟩
      intro a b ha hb hab
      have h1 := hco1 a ha
      have h2 := hco1 b hb
      rw [h1, h2] at hab
      exact_mod_cast hab
  · intro hfull
    cases hf : findUnused w.gameObjects MAX_GO 0 with
    | none => simp [game_object_create, hf]
    | some k =>
      obtain ⟨_, h2, h3, _⟩ := findUnused_some _ _ _ _ hf
      exact absurd h3 (hfull k (by omega))

/-- C6 (evaluation of the code at the failing input): a Health and a Combat
record are attached to a fresh entity. The attached Combat component has the
`attack` and `defense` of the data but not its `attackModifier`,
`defenseModifier` and `dodgeModifier`, and the attached Health component does
not have the data's `ticksUntilRemoval`: these fields are never written and
keep what the allocated memory held. -/
theorem update_component_skips_fields :
    ∃ w h c, scenario_health_combat = some w ∧
      game_object_get_component w 0 COMP_HEALTH = some h ∧
      game_object_get_component w 0 COMP_COMBAT = some c ∧
      (w.comHeap c).attack = combatSample.attack ∧
      (w.comHeap c).defense = combatSample.defense ∧
      (w.comHeap c).attackModifier ≠ combatSample.attackModifier ∧
      (w.comHeap c).defenseModifier ≠ combatSample.defenseModifier ∧
      (w.comHeap c).dodgeModifier ≠ combatSample.dodgeModifier ∧
      (w.hlthHeap h).currentHP = healthSample.currentHP ∧
      (w.hlthHeap h).ticksUntilRemoval ≠ healthSample.ticksUntilRemoval := by
  refine ⟨_, 0, 1, rfl, by decide, by decide, by decide, by decide, by decide, by decide,
    by decide, by decide, by decide⟩

/-- C7 (evaluation of the code at the failing input): for a freshly created
entity, which has no Position, `game_object_update_component` with the
Position kind and `NULL` data faults (it dereferences the `NULL` component),
whatever the map size. -/
theorem detach_absent_position_faults (MAP_WIDTH MAP_HEIGHT : Nat) :
    ∃ w, game_object_create (world_state_init zeroMem) = some (w, 0) ∧
      (w.gameObjects 0).id ≠ UNUSED ∧
      game_object_get_component w 0 COMP_POSITION = none ∧
      game_object_update_component MAP_WIDTH MAP_HEIGHT w 0 COMP_POSITION none = none := by
  refine ⟨_, rfl, by decide, by decide, ?_⟩
  simp [game_object_update_component, world_state_init, UNUSED]

theorem GameObject_ext_fields (a b : GameObject) (h1 : a.id = b.id)
    (h2 : ∀ c, a.components c = b.components c) : a = b := by
  cases a; cases b
  simp only [GameObject.mk.injEq]
  exact ⟨h1, funext h2⟩

theorem game_object_destroy_unused (w : World) (e : Nat)
    (hid : (w.gameObjects e).id = UNUSED)
    (hlinks : ∀ c, (w.gameObjects e).components c = none) :
    game_object_destroy w e = w := by
  have hgo : (fun j => if j = e then ({ id := UNUSED, components := fun _ => none } : GameObject)
      else w.gameObjects j) = w.gameObjects := by
    funext j
    by_cases hj : j = e
    · subst hj
      simp only [if_true]
      exact GameObject_ext_fields _ _ hid.symm (fun c => (hlinks c).symm)
    · simp [hj]
  cases w
  simp only [game_object_destroy, game_object_destroy_obj] at *
  simp only [hlinks, destroy_in_store_none, hgo]

/-- C8: `game_object_destroy` on a slot whose id is `UNUSED` and whose
component links are empty leaves the world unchanged; hence destroying the
same slot twice gives the same world as destroying it once. -/
theorem game_object_destroy_idempotent :
    (∀ (w : World) (e : Nat), (w.gameObjects e).id = UNUSED →
      (∀ c, (w.gameObjects e).components c = none) → game_object_destroy w e = w) ∧
    (∀ (w : World) (e : Nat),
      game_object_destroy (game_object_destroy w e) e = game_object_destroy w e) := by
  refine ⟨game_object_destroy_unused, ?_⟩
  intro w e
  apply game_object_destroy_unused
  · simp [game_object_destroy, game_object_destroy_obj]
  · intro c
    simp [game_object_destroy, game_object_destroy_obj]

/-! ## Position and the spatial index -/

theorem occ_goPositions_remove (W H : Nat) (w w1 : World) (x y obj : Nat)
    (h : goPositions_remove W H w x y obj = some w1) :
    x < W ∧ y < H ∧ w1.gameObjects = w.gameObjects ∧ w1.posHeap = w.posHeap ∧
    w1.positionComps = w.positionComps ∧ w1.brk = w.brk ∧
    ∀ o a b, occ w1 o a b =
      if o = obj ∧ a = x ∧ b = y then occ w o a b - 1 else occ w o a b := by
  unfold goPositions_remove at h
  by_cases hb : x < W ∧ y < H
  · simp only [hb, and_self, if_true] at h
    cases hc : w.goPositions x y with
    | none => simp [hc] at h
    | some ls =>
      simp only [hc, Option.some.injEq] at h
      subst h
      refine ⟨hb.1, hb.2, rfl, rfl, rfl, rfl, ?_⟩
      intro o a b
      by_cases hab : a = x ∧ b = y
      · obtain ⟨rfl, rfl⟩ := hab
        simp only [occ, game_objects_at_position, and_self, if_true, hc,
          list_remove_element_with_data_eq, and_true]
        by_cases ho : o = obj
        · subst ho; simp
        · simp [ho, List.count_erase_of_ne ho]
      · have hab2 : ¬ (o = obj ∧ a = x ∧ b = y) := fun hh => hab hh.2
        simp [occ, game_objects_at_position, hab]
  · simp [hb] at h

theorem occ_goPositions_insert (W H : Nat) (w w1 : World) (x y obj : Nat)
    (h : goPositions_insert W H w x y obj = some w1) :
    x < W ∧ y < H ∧ w1.gameObjects = w.gameObjects ∧ w1.posHeap = w.posHeap ∧
    w1.positionComps = w.positionComps ∧ w1.brk = w.brk ∧
    ∀ o a b, occ w1 o a b =
      if o = obj ∧ a = x ∧ b = y then occ w o a b + 1 else occ w o a b := by
  unfold goPositions_insert at h
  by_cases hb : x < W ∧ y < H
  · simp only [hb, and_self, if_true, Option.some.injEq] at h
    subst h
    refine ⟨hb.1, hb.2, rfl, rfl, rfl, rfl, ?_⟩
    intro o a b
    by_cases hab : a = x ∧ b = y
    · obtain ⟨rfl, rfl⟩ := hab
      simp only [occ, game_objects_at_position, and_self, if_true, list_insert_after, and_true]
      cases hc : w.goPositions a b with
      | none =>
        by_cases ho : o = obj
        · subst ho; simp
        · simp [ho, List.count_cons, Ne.symm ho]
      | some ls =>
        by_cases ho : o = obj
        · subst ho; simp
        · simp [ho, List.count_cons, Ne.symm ho]
    · have hab2 : ¬ (o = obj ∧ a = x ∧ b = y) := fun hh => hab hh.2
      simp [occ, game_objects_at_position, hab]
  · simp [hb] at h

theorem goPositions_remove_isSome (W H : Nat) (w : World) (x y obj : Nat)
    (hx : x < W) (hy : y < H) (hocc : 0 < occ w obj x y) :
    ∃ w1, goPositions_remove W H w x y obj = some w1 := by
  unfold goPositions_remove
  simp only [hx, hy, and_self, if_true]
  cases hc : w.goPositions x y with
  | none => simp [occ, game_objects_at_position, hc] at hocc
  | some ls => exact ⟨_, rfl⟩

theorem goPositions_insert_isSome (W H : Nat) (w : World) (x y obj : Nat)
    (hx : x < W) (hy : y < H) :
    ∃ w1, goPositions_insert W H w x y obj = some w1 := by
  unfold goPositions_insert
  simp only [hx, hy, and_self, if_true]
  exact ⟨_, rfl⟩

theorem occ_setLink (w : World) (obj : Nat) (c : GameComponentType) (l : Option Nat)
    (o a b : Nat) : occ (setLink w obj c l) o a b = occ w o a b := rfl

/-- What a Position attach or update does to the link, the record and the
spatial index. -/
theorem update_position_some_spec (W H : Nat) (w w2 : World) (e : Nat) (d : Position)
    (h : game_object_update_component W H w e COMP_POSITION (some d) = some w2) :
    (w.gameObjects e).id ≠ UNUSED ∧ (w2.gameObjects e).id = (w.gameObjects e).id ∧
    d.x < W ∧ d.y < H ∧
    (∃ p, (w2.gameObjects e).components COMP_POSITION = some p ∧
      (w2.posHeap p).x = d.x ∧ (w2.posHeap p).y = d.y ∧ (w2.posHeap p).layer = d.layer ∧
      (w2.posHeap p).objectId = (w.gameObjects e).id) ∧
    (∀ o a b, occ w2 o a b =
      (match (w.gameObjects e).components COMP_POSITION with
        | none => occ w o a b
        | some p =>
          if o = e ∧ a = (w.posHeap p).x ∧ b = (w.posHeap p).y then occ w o a b - 1
          else occ w o a b) +
      if o = e ∧ a = d.x ∧ b = d.y then 1 else 0) := by
  unfold game_object_update_component at h
  by_cases hid : (w.gameObjects e).id = UNUSED
  · simp [hid] at h
  simp only [hid, if_false] at h
  cases hl : (w.gameObjects e).components COMP_POSITION with
  | none =>
    simp only [hl] at h
    obtain ⟨hx, hy, hgo, hheap, _, _, hocc⟩ := occ_goPositions_insert _ _ _ _ _ _ _ h
    refine ⟨hid, ?_, hx, hy, ⟨w.brk, ?_, ?_, ?_, ?_, ?_⟩, ?_⟩
    · rw [hgo]; simp [setLink]
    · rw [hgo]; simp [setLink]
    · rw [hheap]; simp [setLink]
    · rw [hheap]; simp [setLink]
    · rw [hheap]; simp [setLink]
    · rw [hheap]; simp [setLink]
    · intro o a b
      rw [hocc o a b]
      simp only [occ_setLink]
      by_cases hc : o = e ∧ a = d.x ∧ b = d.y
      · simp only [hc, and_self, if_true]; rfl
      · simp only [hc, if_false]; rfl
  | some p =>
    simp only [hl] at h
    cases hr : goPositions_remove W H w (w.posHeap p).x (w.posHeap p).y e with
    | none => simp [hr] at h
    | some w1 =>
      simp only [hr, Option.map_some'] at h
      obtain ⟨_, _, hgo1, hheap1, _, _, hocc1⟩ := occ_goPositions_remove _ _ _ _ _ _ _ hr
      obtain ⟨hx, hy, hgo, hheap, _, _, hocc⟩ := occ_goPositions_insert _ _ _ _ _ _ _ h
      refine ⟨hid, ?_, hx, hy, ⟨p, ?_, ?_, ?_, ?_, ?_⟩, ?_⟩
      · rw [hgo]; simp [setLink, hgo1]
      · rw [hgo]; simp [setLink]
      · rw [hheap]; simp [setLink]
      · rw [hheap]; simp [setLink]
      · rw [hheap]; simp [setLink]
      · rw [hheap]; simp [setLink]
      · intro o a b
        rw [hocc o a b]
        simp only [occ_setLink]
        have h1 := hocc1 o a b
        simp only [occ, game_objects_at_position] at h1 ⊢
        rw [h1]
        by_cases hc : o = e ∧ a = d.x ∧ b = d.y
        · simp only [hc, and_self, if_true]
        · simp only [hc, if_false, add_zero]

/-- What a Position detach that does not fault does. -/
theorem update_position_none_spec (W H : Nat) (w w2 : World) (e : Nat)
    (h : game_object_update_component W H w e COMP_POSITION none = some w2) :
    (w.gameObjects e).id ≠ UNUSED ∧ (w2.gameObjects e).id = (w.gameObjects e).id ∧
    (w2.gameObjects e).components COMP_POSITION = none ∧
    ∃ p, (w.gameObjects e).components COMP_POSITION = some p ∧
      w2.positionComps = w.positionComps.erase p ∧
      ∀ o a b, occ w2 o a b =
        if o = e ∧ a = (w.posHeap p).x ∧ b = (w.posHeap p).y then occ w o a b - 1
        else occ w o a b := by
  unfold game_object_update_component at h
  by_cases hid : (w.gameObjects e).id = UNUSED
  · simp [hid] at h
  simp only [hid, if_false] at h
  cases hl : (w.gameObjects e).components COMP_POSITION with
  | none => simp [hl] at h
  | some p =>
    simp only [hl] at h
    obtain ⟨_, _, hgo1, hheap1, hst, _, hocc1⟩ := occ_goPositions_remove _ _ _ _ _ _ _ h
    refine ⟨hid, ?_, ?_, p, rfl, ?_, ?_⟩
    · rw [hgo1]; simp [setLink]
    · rw [hgo1]; simp [setLink]
    · rw [hst]; simp [setLink, list_remove_element_with_data_eq]
    · intro o a b
      rw [hocc1 o a b]
      rfl

theorem update_position_some_isSome (W H : Nat) (w : World) (e : Nat) (d : Position)
    (hid : (w.gameObjects e).id ≠ UNUSED) (hsync : PosSync W H w e)
    (hx : d.x < W) (hy : d.y < H) :
    ∃ w2, game_object_update_component W H w e COMP_POSITION (some d) = some w2 := by
  unfold game_object_update_component
  simp only [hid, if_false]
  unfold PosSync at hsync
  cases hl : (w.gameObjects e).components COMP_POSITION with
  | none => exact goPositions_insert_isSome _ _ _ _ _ _ hx hy
  | some p =>
    simp only [hl] at hsync
    obtain ⟨hpx, hpy, hocc⟩ := hsync
    obtain ⟨w1, hw1⟩ := goPositions_remove_isSome W H w (w.posHeap p).x (w.posHeap p).y e
      hpx hpy (by rw [hocc]; simp)
    simp only [hw1, Option.map_some']
    exact goPositions_insert_isSome _ _ _ _ _ _ hx hy

theorem update_position_none_isSome (W H : Nat) (w : World) (e p : Nat)
    (hid : (w.gameObjects e).id ≠ UNUSED) (hsync : PosSync W H w e)
    (hl : (w.gameObjects e).components COMP_POSITION = some p) :
    ∃ w2, game_object_update_component W H w e COMP_POSITION none = some w2 := by
  unfold game_object_update_component
  simp only [hid, if_false, hl]
  unfold PosSync at hsync
  simp only [hl] at hsync
  obtain ⟨hpx, hpy, hocc⟩ := hsync
  apply goPositions_remove_isSome _ _ _ _ _ _ hpx hpy
  have : occ w e (w.posHeap p).x (w.posHeap p).y = 1 := by rw [hocc]; simp
  have e1 : ∀ (l : List Nat), occ (setLink { w with positionComps := l } e COMP_POSITION none)
      e (w.posHeap p).x (w.posHeap p).y = occ w e (w.posHeap p).x (w.posHeap p).y :=
    fun _ => rfl
  rw [e1]
  omega

/-- One Position call keeps the Position of `e` and the spatial index in
agreement, from a state where they agree or where `e` is in no cell, and
leaves the occurrences of the other entities alone. -/
theorem position_call_sync (W H : Nat) (w w2 : World) (e : Nat) (d : Option Position)
    (hpre : PosSync W H w e ∨ ∀ x y, occ w e x y = 0)
    (h : game_object_update_component W H w e COMP_POSITION d = some w2) :
    PosSync W H w2 e ∧ (w2.gameObjects e).id = (w.gameObjects e).id ∧
    (w.gameObjects e).id ≠ UNUSED ∧
    ∀ o, o ≠ e → ∀ x y, occ w2 o x y = occ w o x y := by
  have hbase : ∀ a b,
      (match (w.gameObjects e).components COMP_POSITION with
        | none => occ w e a b
        | some p =>
          if e = e ∧ a = (w.posHeap p).x ∧ b = (w.posHeap p).y then occ w e a b - 1
          else occ w e a b) = 0 := by
    intro a b
    rcases hpre with hs | hz
    · unfold PosSync at hs
      cases hl : (w.gameObjects e).components COMP_POSITION with
      | none => simp only [hl] at hs ⊢; exact hs a b
      | some p =>
        simp only [hl] at hs ⊢
        rw [hs.2.2 a b]
        by_cases hc : a = (w.posHeap p).x ∧ b = (w.posHeap p).y
        · simp [hc]
        · simp [hc]
    · cases hl : (w.gameObjects e).components COMP_POSITION with
      | none => simp only [hz]
      | some p => simp [hz]
  cases d with
  | some d =>
    obtain ⟨hid, hid2, hx, hy, ⟨p, hp, hpx, hpy, _, _⟩, hocc⟩ :=
      update_position_some_spec W H w w2 e d h
    refine ⟨?_, hid2, hid, ?_⟩
    · unfold PosSync
      simp only [hp, hpx, hpy]
      refine ⟨hx, hy, ?_⟩
      intro x y
      rw [hocc e x y, hbase x y]
      simp
    · intro o ho x y
      rw [hocc o x y]
      cases hl : (w.gameObjects e).components COMP_POSITION with
      | none => simp [ho]
      | some p => simp [ho]
  | none =>
    obtain ⟨hid, hid2, hnone, p, hp, _, hocc⟩ := update_position_none_spec W H w w2 e h
    refine ⟨?_, hid2, hid, ?_⟩
    · unfold PosSync
      simp only [hnone]
      intro x y
      rw [hocc e x y]
      have := hbase x y
      simp only [hp] at this
      simpa using this
    · intro o ho x y
      rw [hocc o x y]
      simp [ho]

theorem runPositionCalls_sync (W H : Nat) (e : Nat) :
    ∀ (calls : List (Option Position)) (w0 w : World),
      (PosSync W H w0 e ∨ ((∀ x y, occ w0 e x y = 0) ∧ calls ≠ [])) →
      runPositionCalls W H w0 e calls = some w →
      PosSync W H w e ∧ (w.gameObjects e).id = (w0.gameObjects e).id ∧
      ∀ o, o ≠ e → ∀ x y, occ w o x y = occ w0 o x y := by
  intro calls
  induction calls with
  | nil =>
    intro w0 w hpre h
    simp only [runPositionCalls, Option.some.injEq] at h
    subst h
    rcases hpre with hs | ⟨_, hne⟩
    · exact ⟨hs, rfl, fun _ _ _ _ => rfl⟩
    · exact absurd rfl hne
  | cons d ds ih =>
    intro w0 w hpre h
    simp only [runPositionCalls] at h
    cases h1 : game_object_update_component W H w0 e COMP_POSITION d with
    | none => simp [h1] at h
    | some w1 =>
      simp only [h1, Option.some_bind] at h
      have hpre1 : PosSync W H w0 e ∨ ∀ x y, occ w0 e x y = 0 := by
        rcases hpre with hs | ⟨hz, _⟩
        · exact Or.inl hs
        · exact Or.inr hz
      obtain ⟨hs1, hid1, _, hothers1⟩ := position_call_sync W H w0 w1 e d hpre1 h1
      obtain ⟨hs, hid, hothers⟩ := ih w1 w (Or.inl hs1) h
      refine ⟨hs, by rw [hid, hid1], ?_⟩
      intro o ho x y
      rw [hothers o ho x y, hothers1 o ho x y]

theorem PosSync_iff (W H : Nat) (w : World) (e : Nat) (hs : PosSync W H w e) (x y : Nat) :
    HasPositionAt w e x y ↔
      (occ w e x y = 1 ∧ ∀ a b, (a, b) ≠ (x, y) → occ w e a b = 0) := by
  unfold PosSync at hs
  unfold HasPositionAt game_object_get_component
  cases hl : (w.gameObjects e).components COMP_POSITION with
  | none =>
    simp only [hl] at hs
    simp [hs]
  | some p =>
    simp only [hl] at hs
    obtain ⟨_, _, hocc⟩ := hs
    constructor
    · rintro ⟨q, hq, hx, hy⟩
      simp only [Option.some.injEq] at hq
      subst hq
      refine ⟨by rw [hocc]; simp [hx, hy], ?_⟩
      intro a b hab
      rw [hocc]
      have : ¬ (a = (w.posHeap p).x ∧ b = (w.posHeap p).y) := by
        rintro ⟨h1, h2⟩
        exact hab (by rw [h1, h2, hx, hy])
      simp [this]
    · rintro ⟨h1, _⟩
      rw [hocc] at h1
      by_cases hc : x = (w.posHeap p).x ∧ y = (w.posHeap p).y
      · exact ⟨p, rfl, hc.1.symm, hc.2.symm⟩
      · simp [hc] at h1

/-- C2: for a live entity `e` that is in no cell, after every sequence of
Position attach, update and detach calls made through
`game_object_update_component` that runs without a fault, `e` has a Position
with coordinates `(x, y)` iff it occurs exactly once among the occupants of
cell `(x, y)` and in no other cell; the occurrences of every other entity are
those of the start; a further update from `(x0, y0)` to the coordinates of
`d` leaves `e` exactly once in the new cell and not in the old one and does
not touch the other entities; and from the state reached every attach or
update inside the map and every detach of a present Position runs without a
fault. -/
theorem position_spatial_index_sync (MAP_WIDTH MAP_HEIGHT : Nat) (w0 w : World) (e : Nat)
    (calls : List (Option Position))
    (hlive : Live w0 e)
    (hcells : ∀ x y, occ w0 e x y = 0)
    (hstart : game_object_get_component w0 e COMP_POSITION = none ∨ calls ≠ [])
    (hrun : runPositionCalls MAP_WIDTH MAP_HEIGHT w0 e calls = some w) :
    (∀ x y, HasPositionAt w e x y ↔
      (occ w e x y = 1 ∧ ∀ a b, (a, b) ≠ (x, y) → occ w e a b = 0)) ∧
    (∀ o, o ≠ e → ∀ x y, occ w o x y = occ w0 o x y) ∧
    (∀ (d : Position) (w2 : World) (x0 y0 : Nat), HasPositionAt w e x0 y0 →
      game_object_update_component MAP_WIDTH MAP_HEIGHT w e COMP_POSITION (some d) = some w2 →
      HasPositionAt w2 e d.x d.y ∧ occ w2 e d.x d.y = 1 ∧
      ((x0, y0) ≠ (d.x, d.y) → occ w2 e x0 y0 = 0) ∧
      ∀ o, o ≠ e → ∀ x y, occ w2 o x y = occ w o x y) ∧
    (∀ d : Position, d.x < MAP_WIDTH → d.y < MAP_HEIGHT →
      ∃ w2, game_object_update_component MAP_WIDTH MAP_HEIGHT w e COMP_POSITION (some d)
        = some w2) ∧
    ((∃ x y, HasPositionAt w e x y) →
      ∃ w2, game_object_update_component MAP_WIDTH MAP_HEIGHT w e COMP_POSITION none
        = some w2) := by
  have hpre : PosSync MAP_WIDTH MAP_HEIGHT w0 e ∨ ((∀ x y, occ w0 e x y = 0) ∧ calls ≠ []) := by
    rcases hstart with hn | hne
    · left
      unfold PosSync
      unfold game_object_get_component at hn
      simp only [hn]
      exact hcells
    · exact Or.inr ⟨hcells, hne⟩
  obtain ⟨hs, hid, hothers⟩ := runPositionCalls_sync MAP_WIDTH MAP_HEIGHT e calls w0 w hpre hrun
  have hidw : (w.gameObjects e).id ≠ UNUSED := by rw [hid]; exact hlive.2
  refine ⟨PosSync_iff _ _ w e hs, hothers, ?_, ?_, ?_⟩
  · intro d w2 x0 y0 _ hupd
    obtain ⟨hs2, _, _, hoth2⟩ :=
      position_call_sync MAP_WIDTH MAP_HEIGHT w w2 e (some d) (Or.inl hs) hupd
    obtain ⟨_, _, _, _, ⟨p, hp, hpx, hpy, _, _⟩, _⟩ :=
      update_position_some_spec MAP_WIDTH MAP_HEIGHT w w2 e d hupd
    have hat : HasPositionAt w2 e d.x d.y := ⟨p, hp, hpx, hpy⟩
    have hiff := (PosSync_iff _ _ w2 e hs2 d.x d.y).1 hat
    exact ⟨hat, hiff.1, fun hne => hiff.2 x0 y0 hne, hoth2⟩
  · intro d hx hy
    exact update_position_some_isSome _ _ w e d hidw hs hx hy
  · rintro ⟨x, y, p, hp, _, _⟩
    exact update_position_none_isSome _ _ w e p hidw hs hp

/-- Witness for C2: in a fresh world the entity created first is attached at
`(1, 1)`, moved to `(2, 1)`, detached and attached again at `(0, 3)`. -/
theorem position_spatial_index_sync_witness :
    game_object_create (world_state_init zeroMem) = some (world_one_entity, 0) ∧
    runPositionCalls 4 4 world_one_entity 0 sampleCalls = some world_after_calls ∧
    HasPositionAt world_after_calls 0 0 3 ∧
    (∀ x y, HasPositionAt world_after_calls 0 x y ↔
      (occ world_after_calls 0 x y = 1 ∧
        ∀ a b, (a, b) ≠ (x, y) → occ world_after_calls 0 a b = 0)) :=
  ⟨rfl, rfl, ⟨1, by decide, by decide, by decide⟩,
    (position_spatial_index_sync 4 4 world_one_entity world_after_calls 0 sampleCalls
      ⟨by decide, by decide⟩ (fun _ _ => rfl) (Or.inl rfl) rfl).1⟩

/-! ## The target map -/

theorem PathLen_inMap_and_floor (W H : Nat) (walls : Int → Int → Bool) (tx ty : Int)
    (ht : inMap W H tx ty) (hw : walls tx ty = false) (n : Nat) (x y : Int)
    (h : PathLen W H walls tx ty n x y) : inMap W H x y ∧ walls x y = false := by
  cases h with
  | start => exact ⟨ht, hw⟩
  | step n x y a b _ _ h1 h2 => exact ⟨h1, h2⟩

theorem BorderWalls_interior (W H : Nat) (walls : Int → Int → Bool)
    (hb : BorderWalls W H walls) (x y : Int) (hin : inMap W H x y) (hw : walls x y = false) :
    0 < x ∧ x < (W : Int) - 1 ∧ 0 < y ∧ y < (H : Int) - 1 := by
  have h := hb x y hin
  unfold inMap at hin
  by_contra hc
  have : x = 0 ∨ x = (W : Int) - 1 ∨ y = 0 ∨ y = (H : Int) - 1 := by omega
  rw [h this] at hw
  exact Bool.noConfusion hw

theorem Adjacent_inMap_of_interior (W H : Nat) (x y a b : Int) (hadj : Adjacent x y a b)
    (hi : 0 < x ∧ x < (W : Int) - 1 ∧ 0 < y ∧ y < (H : Int) - 1) : inMap W H a b := by
  unfold Adjacent at hadj
  unfold inMap
  omega

theorem Adjacent_symm (x y a b : Int) (hadj : Adjacent x y a b) : Adjacent a b x y := by
  unfold Adjacent at hadj ⊢
  rcases hadj with ⟨h1, h2⟩ | ⟨h1, h2⟩ | ⟨h1, h2⟩ | ⟨h1, h2⟩
  · right; left; constructor <;> omega
  · left; constructor <;> omega
  · right; right; right; constructor <;> omega
  · right; right; left; constructor <;> omega

theorem Adjacent_ne (x y a b : Int) (hadj : Adjacent x y a b) : ¬ (x = a ∧ y = b) := by
  unfold Adjacent at hadj
  omega

theorem relaxNeighbour_eq (W H : Nat) (lvl : DungeonLevel) (g : Int → Int → Int) (b : Bool)
    (nx ny v : Int) (hin : inMap W H nx ny) :
    relaxNeighbour W H (some lvl) (g, b) nx ny v =
      some (if lvl.mapWalls nx ny = false ∧ g nx ny > v + 1
        then (dmapSet g nx ny (v + 1), true) else (g, b)) := by
  unfold relaxNeighbour is_wall dmapGet
  simp only [hin, if_true]
  cases hw : lvl.mapWalls nx ny with
  | true => simp
  | false =>
    by_cases hgt : g nx ny > v + 1
    · simp [hgt]
    · simp [hgt]

theorem dmapSum_dmapSet_lt (W H : Nat) (g : Int → Int → Int) (nx ny u : Int)
    (hin : inMap W H nx ny) (h0 : 0 ≤ u) (hlt : u < g nx ny) :
    dmapSum W H (dmapSet g nx ny u) < dmapSum W H g := by
  unfold dmapSum
  unfold inMap at hin
  apply Finset.sum_lt_sum
  · intro c _
    unfold dmapSet
    by_cases hc : (c.1 : Int) = nx ∧ (c.2 : Int) = ny
    · simp only [hc, and_self, if_true]
      omega
    · simp only [hc, if_false, le_refl]
  · refine ⟨(nx.toNat, ny.toNat), ?_, ?_⟩
    · simp only [Finset.mem_product, Finset.mem_range]
      omega
    · unfold dmapSet
      have h1 : ((nx.toNat : Nat) : Int) = nx := Int.toNat_of_nonneg hin.1
      have h2 : ((ny.toNat : Nat) : Int) = ny := Int.toNat_of_nonneg hin.2.2.1
      simp only [h1, h2, and_self, if_true]
      omega

theorem TargetInv_dmapSet (W H : Nat) (walls : Int → Int → Bool) (tx ty : Int)
    (g : Int → Int → Int) (hinv : TargetInv W H walls tx ty g)
    (x y nx ny : Int) (hxy : inMap W H x y) (hfin : g x y ≠ TARGET_UNSET)
    (hadj : Adjacent x y nx ny) (hin : inMap W H nx ny) (hw : walls nx ny = false)
    (hgt : g nx ny > g x y + 1) :
    TargetInv W H walls tx ty (dmapSet g nx ny (g x y + 1)) := by
  obtain ⟨n, hn, hpath⟩ := hinv.sound x y hxy hfin
  have hne := Adjacent_ne x y nx ny hadj
  have hself : dmapSet g nx ny (g x y + 1) x y = g x y := by
    unfold dmapSet
    simp only [hne, if_false]
  have hle := hinv.le nx ny hin
  constructor
  · unfold dmapSet
    by_cases hc : tx = nx ∧ ty = ny
    · exfalso
      have := hinv.target
      rw [hc.1, hc.2] at this
      omega
    · simp only [hc, if_false]
      exact hinv.target
  · intro a b hab
    unfold dmapSet
    by_cases hc : a = nx ∧ b = ny
    · simp only [hc, and_self, if_true]
      omega
    · simp only [hc, if_false]
      exact hinv.le a b hab
  · intro a b hab hfin2
    unfold dmapSet at hfin2 ⊢
    by_cases hc : a = nx ∧ b = ny
    · simp only [hc, and_self, if_true]
      refine ⟨n + 1, by rw [hn]; push_cast; ring, ?_⟩
      exact PathLen.step n x y nx ny hpath hadj hin hw
    · simp only [hc, if_false] at hfin2 ⊢
      exact hinv.sound a b hab hfin2
  · intro a b hab hfin2 hnt
    by_cases hc : a = nx ∧ b = ny
    · refine ⟨x, y, ?_, hxy, ?_⟩
      · rw [hc.1, hc.2]
        exact Adjacent_symm x y nx ny hadj
      · rw [hself]
        unfold dmapSet
        simp only [hc, and_self, if_true]
        omega
    · have hfin3 : g a b ≠ TARGET_UNSET := by
        unfold dmapSet at hfin2
        simpa only [hc, if_false] using hfin2
      obtain ⟨a1, b1, hadj1, hin1, hlt1⟩ := hinv.pred a b hab hfin3 hnt
      refine ⟨a1, b1, hadj1, hin1, ?_⟩
      have e1 : dmapSet g nx ny (g x y + 1) a b = g a b := by
        unfold dmapSet
        simp only [hc, if_false]
      rw [e1]
      unfold dmapSet
      by_cases hc1 : a1 = nx ∧ b1 = ny
      · simp only [hc1, and_self, if_true]
        rw [hc1.1, hc1.2] at hlt1
        omega
      · simp only [hc1, if_false]
        exact hlt1

theorem SweepStep_refl (W H : Nat) (s : (Int → Int → Int) × Bool) : SweepStep W H s s :=
  Or.inl rfl

theorem SweepStep_trans (W H : Nat) (s s1 s2 : (Int → Int → Int) × Bool)
    (h1 : SweepStep W H s s1) (h2 : SweepStep W H s1 s2) : SweepStep W H s s2 := by
  unfold SweepStep at *
  rcases h2 with h2 | ⟨h2, h3⟩
  · rw [h2]; exact h1
  · rcases h1 with h1 | ⟨_, h4⟩
    · rw [h1] at h3; exact Or.inr ⟨h2, h3⟩
    · exact Or.inr ⟨h2, lt_trans h3 h4⟩

theorem SweepStep_eq_of_false (W H : Nat) (s s1 : (Int → Int → Int) × Bool)
    (h : SweepStep W H s s1) (hf : s1.2 = false) : s1 = s := by
  rcases h with h | ⟨h, _⟩
  · exact h
  · rw [hf] at h; exact Bool.noConfusion h

/-- One neighbour update from a set cell `(x, y)` whose value is `v` does not
fault, keeps the invariant and the value of `(x, y)`, and is a sweep step. -/
theorem relaxNeighbour_step (W H : Nat) (lvl : DungeonLevel) (tx ty : Int)
    (s : (Int → Int → Int) × Bool) (x y nx ny v : Int)
    (hinv : TargetInv W H lvl.mapWalls tx ty s.1) (hxy : inMap W H x y)
    (hv : s.1 x y = v) (hfin : v ≠ TARGET_UNSET) (hadj : Adjacent x y nx ny)
    (hin : inMap W H nx ny) :
    ∃ s1, relaxNeighbour W H (some lvl) s nx ny v = some s1 ∧
      TargetInv W H lvl.mapWalls tx ty s1.1 ∧ s1.1 x y = v ∧ SweepStep W H s s1 := by
  obtain ⟨g, b⟩ := s
  simp only at hinv hv
  rw [relaxNeighbour_eq W H lvl g b nx ny v hin]
  by_cases hc : lvl.mapWalls nx ny = false ∧ g nx ny > v + 1
  · simp only [hc, and_self, if_true]
    refine ⟨_, rfl, ?_, ?_, ?_⟩
    · have := TargetInv_dmapSet W H lvl.mapWalls tx ty g hinv x y nx ny hxy (by rw [hv]; exact hfin)
        hadj hin hc.1 (by rw [hv]; exact hc.2)
      rw [hv] at this
      exact this
    · have hne := Adjacent_ne x y nx ny hadj
      simp only [dmapSet, hne, if_false]
      exact hv
    · right
      refine ⟨rfl, ?_⟩
      obtain ⟨n, hn, _⟩ := hinv.sound x y hxy (by rw [hv]; exact hfin)
      apply dmapSum_dmapSet_lt W H g nx ny (v + 1) hin
      · rw [← hv, hn]; omega
      · exact hc.2
  · simp only [hc, if_false]
    exact ⟨_, rfl, hinv, hv, SweepStep_refl W H _⟩

/-- The loop body at a cell of the grid does not fault, keeps the invariant
and is a sweep step. -/
theorem sweepCell_step (W H : Nat) (lvl : DungeonLevel) (tx ty : Int)
    (hb : BorderWalls W H lvl.mapWalls) (ht : inMap W H tx ty) (hw : lvl.mapWalls tx ty = false)
    (s : (Int → Int → Int) × Bool) (x y : Int)
    (hinv : TargetInv W H lvl.mapWalls tx ty s.1) (hxy : inMap W H x y) :
    ∃ s1, sweepCell W H (some lvl) s x y = some s1 ∧
      TargetInv W H lvl.mapWalls tx ty s1.1 ∧ SweepStep W H s s1 := by
  unfold sweepCell dmapGet
  simp only [hxy, if_true]
  by_cases hfin : s.1 x y = TARGET_UNSET
  · simp only [hfin, ne_eq, not_true_eq_false, if_false]
    exact ⟨s, rfl, hinv, SweepStep_refl W H s⟩
  · simp only [ne_eq, hfin, not_false_eq_true, if_true]
    obtain ⟨n, _, hpath⟩ := hinv.sound x y hxy hfin
    have hfloor := PathLen_inMap_and_floor W H lvl.mapWalls tx ty ht hw n x y hpath
    have hint := BorderWalls_interior W H lvl.mapWalls hb x y hxy hfloor.2
    have a1 : Adjacent x y (x + 1) y := Or.inl ⟨rfl, rfl⟩
    have a2 : Adjacent x y (x - 1) y := Or.inr (Or.inl ⟨rfl, rfl⟩)
    have a3 : Adjacent x y x (y - 1) := Or.inr (Or.inr (Or.inl ⟨rfl, rfl⟩))
    have a4 : Adjacent x y x (y + 1) := Or.inr (Or.inr (Or.inr ⟨rfl, rfl⟩))
    obtain ⟨s1, e1, i1, v1, d1⟩ := relaxNeighbour_step W H lvl tx ty s x y (x + 1) y (s.1 x y)
      hinv hxy rfl hfin a1 (Adjacent_inMap_of_interior W H x y _ _ a1 hint)
    obtain ⟨s2, e2, i2, v2, d2⟩ := relaxNeighbour_step W H lvl tx ty s1 x y (x - 1) y (s.1 x y)
      i1 hxy v1 hfin a2 (Adjacent_inMap_of_interior W H x y _ _ a2 hint)
    obtain ⟨s3, e3, i3, v3, d3⟩ := relaxNeighbour_step W H lvl tx ty s2 x y x (y - 1) (s.1 x y)
      i2 hxy v2 hfin a3 (Adjacent_inMap_of_interior W H x y _ _ a3 hint)
    obtain ⟨s4, e4, i4, _, d4⟩ := relaxNeighbour_step W H lvl tx ty s3 x y x (y + 1) (s.1 x y)
      i3 hxy v3 hfin a4 (Adjacent_inMap_of_interior W H x y _ _ a4 hint)
    refine ⟨s4, ?_, i4, ?_⟩
    · simp only [e1, e2, e3, e4, Option.some_bind]
    · exact SweepStep_trans W H _ _ _ (SweepStep_trans W H _ _ _
        (SweepStep_trans W H _ _ _ d1 d2) d3) d4

theorem sweepCells_step (W H : Nat) (lvl : DungeonLevel) (tx ty : Int)
    (hb : BorderWalls W H lvl.mapWalls) (ht : inMap W H tx ty)
    (hw : lvl.mapWalls tx ty = false) :
    ∀ (cs : List (Int × Int)) (s : (Int → Int → Int) × Bool),
      (∀ c ∈ cs, inMap W H c.1 c.2) → TargetInv W H lvl.mapWalls tx ty s.1 →
      ∃ s1, sweepCells W H (some lvl) cs s = some s1 ∧
        TargetInv W H lvl.mapWalls tx ty s1.1 ∧ SweepStep W H s s1 := by
  intro cs
  induction cs with
  | nil =>
    intro s _ hinv
    exact ⟨s, rfl, hinv, SweepStep_refl W H s⟩
  | cons c cs ih =>
    intro s hcs hinv
    obtain ⟨s1, e1, i1, d1⟩ := sweepCell_step W H lvl tx ty hb ht hw s c.1 c.2 hinv
      (hcs c (List.mem_cons_self _ _))
    obtain ⟨s2, e2, i2, d2⟩ := ih s1 (fun c1 hc1 => hcs c1 (List.mem_cons_of_mem _ hc1)) i1
    refine ⟨s2, ?_, i2, SweepStep_trans W H _ _ _ d1 d2⟩
    simp only [sweepCells, e1, Option.some_bind, e2]

/-- A run of the loop body over cells that ends with `changesMade` false has
changed nothing, and the body changes nothing at any of the cells. -/
theorem sweepCells_unchanged (W H : Nat) (lvl : DungeonLevel) (tx ty : Int)
    (hb : BorderWalls W H lvl.mapWalls) (ht : inMap W H tx ty)
    (hw : lvl.mapWalls tx ty = false) :
    ∀ (cs : List (Int × Int)) (s s2 : (Int → Int → Int) × Bool),
      (∀ c ∈ cs, inMap W H c.1 c.2) → TargetInv W H lvl.mapWalls tx ty s.1 →
      sweepCells W H (some lvl) cs s = some s2 → s2.2 = false →
      s2 = s ∧ ∀ c ∈ cs, sweepCell W H (some lvl) s c.1 c.2 = some s := by
  intro cs
  induction cs with
  | nil =>
    intro s s2 _ _ h _
    simp only [sweepCells, Option.some.injEq] at h
    exact ⟨h.symm, fun c hc => absurd hc (List.not_mem_nil c)⟩
  | cons c cs ih =>
    intro s s2 hcs hinv h hf
    obtain ⟨s1, e1, i1, d1⟩ := sweepCell_step W H lvl tx ty hb ht hw s c.1 c.2 hinv
      (hcs c (List.mem_cons_self _ _))
    simp only [sweepCells, e1, Option.some_bind] at h
    obtain ⟨h2, h3⟩ := ih s1 s2 (fun c1 hc1 => hcs c1 (List.mem_cons_of_mem _ hc1)) i1 h hf
    have hs1 : s1 = s := SweepStep_eq_of_false W H s s1 d1 (by rw [← h2]; exact hf)
    rw [hs1] at h2 h3 e1
    refine ⟨h2, ?_⟩
    intro c1 hc1
    rcases List.mem_cons.1 hc1 with rfl | hc1
    · exact e1
    · exact h3 c1 hc1

theorem mem_sweepOrder (W H : Nat) (c : Int × Int) :
    c ∈ sweepOrder W H ↔ inMap W H c.1 c.2 := by
  unfold sweepOrder inMap
  simp only [List.mem_flatMap, List.mem_range, List.mem_map]
  constructor
  · rintro ⟨i, hi, j, hj, rfl⟩
    simp only
    refine ⟨?_, ?_, ?_, ?_⟩ <;> omega
  · rintro ⟨h1, h2, h3, h4⟩
    have e1 : ((c.1.toNat : Nat) : Int) = c.1 := Int.toNat_of_nonneg h1
    have e2 : ((c.2.toNat : Nat) : Int) = c.2 := Int.toNat_of_nonneg h3
    refine ⟨c.1.toNat, by omega, c.2.toNat, by omega, ?_⟩
    rw [e1, e2]

/-- With more fuel than the sum of the grid the loop ends, in a grid that
satisfies the invariant and that a further sweep leaves unchanged. -/
theorem sweepLoop_terminates (W H : Nat) (lvl : DungeonLevel) (tx ty : Int)
    (hb : BorderWalls W H lvl.mapWalls) (ht : inMap W H tx ty)
    (hw : lvl.mapWalls tx ty = false) :
    ∀ (fuel : Nat) (g : Int → Int → Int), TargetInv W H lvl.mapWalls tx ty g →
      dmapSum W H g < fuel →
      ∃ g1, sweepLoop W H (some lvl) fuel g = some g1 ∧
        TargetInv W H lvl.mapWalls tx ty g1 ∧ sweep W H (some lvl) g1 = some (g1, false) := by
  intro fuel
  induction fuel with
  | zero => intro g _ h; omega
  | succ fuel ih =>
    intro g hinv hsum
    obtain ⟨s1, e1, i1, d1⟩ := sweepCells_step W H lvl tx ty hb ht hw (sweepOrder W H) (g, false)
      (fun c hc => (mem_sweepOrder W H c).1 hc) hinv
    obtain ⟨g1, b1⟩ := s1
    unfold sweepLoop
    have e2 : sweep W H (some lvl) g = some (g1, b1) := e1
    rw [e2]
    cases b1 with
    | false =>
      have := SweepStep_eq_of_false W H _ _ d1 rfl
      simp only [Prod.mk.injEq, and_true] at this
      subst this
      exact ⟨g1, rfl, hinv, e2⟩
    | true =>
      simp only
      rcases d1 with d1 | ⟨_, d1⟩
      · simp at d1
      · exact ih g1 i1 (by simp only at d1; omega)

theorem relaxNeighbour_false (W H : Nat) (lvl : DungeonLevel)
    (s s1 : (Int → Int → Int) × Bool) (nx ny v : Int) (hin : inMap W H nx ny)
    (h : relaxNeighbour W H (some lvl) s nx ny v = some s1) (hf : s1.2 = false) :
    s1 = s ∧ (lvl.mapWalls nx ny = false → s.1 nx ny ≤ v + 1) := by
  obtain ⟨g, b⟩ := s
  rw [relaxNeighbour_eq W H lvl g b nx ny v hin] at h
  by_cases hc : lvl.mapWalls nx ny = false ∧ g nx ny > v + 1
  · simp only [hc, and_self, if_true, Option.some.injEq] at h
    rw [← h] at hf
    exact Bool.noConfusion hf
  · simp only [hc, if_false, Option.some.injEq] at h
    refine ⟨h.symm, ?_⟩
    intro hwall
    simp only
    by_contra hgt
    exact hc ⟨hwall, by omega⟩

/-- When the loop body changes nothing at a set interior cell, none of its
non-wall neighbours exceeds the cell's value plus one. -/
theorem sweepCell_settled (W H : Nat) (lvl : DungeonLevel) (g : Int → Int → Int) (x y : Int)
    (hxy : inMap W H x y) (hfin : g x y ≠ TARGET_UNSET)
    (hint : 0 < x ∧ x < (W : Int) - 1 ∧ 0 < y ∧ y < (H : Int) - 1)
    (h : sweepCell W H (some lvl) (g, false) x y = some (g, false)) :
    ∀ a b, Adjacent x y a b → lvl.mapWalls a b = false → g a b ≤ g x y + 1 := by
  unfold sweepCell dmapGet at h
  simp only [hxy, if_true, ne_eq, hfin, not_false_eq_true, Option.bind_eq_some] at h
  obtain ⟨s1, e1, s2, e2, s3, e3, e4⟩ := h
  have a1 : Adjacent x y (x + 1) y := Or.inl ⟨rfl, rfl⟩
  have a2 : Adjacent x y (x - 1) y := Or.inr (Or.inl ⟨rfl, rfl⟩)
  have a3 : Adjacent x y x (y - 1) := Or.inr (Or.inr (Or.inl ⟨rfl, rfl⟩))
  have a4 : Adjacent x y x (y + 1) := Or.inr (Or.inr (Or.inr ⟨rfl, rfl⟩))
  obtain ⟨q4, c4⟩ := relaxNeighbour_false W H lvl s3 _ _ _ _
    (Adjacent_inMap_of_interior W H x y _ _ a4 hint) e4 rfl
  rw [← q4] at e3 c4
  obtain ⟨q3, c3⟩ := relaxNeighbour_false W H lvl s2 _ _ _ _
    (Adjacent_inMap_of_interior W H x y _ _ a3 hint) e3 rfl
  rw [← q3] at e2 c3
  obtain ⟨q2, c2⟩ := relaxNeighbour_false W H lvl s1 _ _ _ _
    (Adjacent_inMap_of_interior W H x y _ _ a2 hint) e2 rfl
  rw [← q2] at e1 c2
  obtain ⟨_, c1⟩ := relaxNeighbour_false W H lvl _ _ _ _ _
    (Adjacent_inMap_of_interior W H x y _ _ a1 hint) e1 rfl
  intro a b hadj hwall
  rcases hadj with ⟨h1, h2⟩ | ⟨h1, h2⟩ | ⟨h1, h2⟩ | ⟨h1, h2⟩
  · subst h1; subst h2; exact c1 hwall
  · subst h1; subst h2; exact c2 hwall
  · subst h1; subst h2; exact c3 hwall
  · subst h1; subst h2; exact c4 hwall

/-- A grid that satisfies the invariant and that a sweep leaves unchanged is
settled. -/
theorem sweep_fixpoint_settled (W H : Nat) (lvl : DungeonLevel) (tx ty : Int)
    (hb : BorderWalls W H lvl.mapWalls) (ht : inMap W H tx ty)
    (hw : lvl.mapWalls tx ty = false) (g : Int → Int → Int)
    (hinv : TargetInv W H lvl.mapWalls tx ty g)
    (hfix : sweep W H (some lvl) g = some (g, false)) :
    Settled W H lvl.mapWalls g := by
  intro x y hxy hfin a b hadj _ hwall
  obtain ⟨_, hall⟩ := sweepCells_unchanged W H lvl tx ty hb ht hw (sweepOrder W H) (g, false)
    (g, false) (fun c hc => (mem_sweepOrder W H c).1 hc) hinv hfix rfl
  have hcell := hall (x, y) ((mem_sweepOrder W H (x, y)).2 hxy)
  obtain ⟨n, _, hpath⟩ := hinv.sound x y hxy hfin
  have hfloor := PathLen_inMap_and_floor W H lvl.mapWalls tx ty ht hw n x y hpath
  have hint := BorderWalls_interior W H lvl.mapWalls hb x y hxy hfloor.2
  exact sweepCell_settled W H lvl g x y hxy hfin hint hcell a b hadj hwall

/-- In a settled grid a set cell other than the target has a neighbour whose
value is smaller by exactly one. -/
theorem settled_pred_exact (W H : Nat) (walls : Int → Int → Bool) (tx ty : Int)
    (ht : inMap W H tx ty) (hw : walls tx ty = false) (g : Int → Int → Int)
    (hinv : TargetInv W H walls tx ty g) (hset : Settled W H walls g)
    (x y : Int) (hxy : inMap W H x y) (hfin : g x y ≠ TARGET_UNSET)
    (hnt : ¬ (x = tx ∧ y = ty)) :
    ∃ a b, Adjacent x y a b ∧ inMap W H a b ∧ g a b ≠ TARGET_UNSET ∧ g a b = g x y - 1 := by
  obtain ⟨a, b, hadj, hab, hlt⟩ := hinv.pred x y hxy hfin hnt
  have hle := hinv.le x y hxy
  have hfin2 : g a b ≠ TARGET_UNSET := by omega
  obtain ⟨n, _, hpath⟩ := hinv.sound x y hxy hfin
  have hfloor := PathLen_inMap_and_floor W H walls tx ty ht hw n x y hpath
  have := hset a b hab hfin2 x y (Adjacent_symm x y a b hadj) hxy hfloor.2
  exact ⟨a, b, hadj, hab, hfin2, by omega⟩

theorem settled_values_below (W H : Nat) (walls : Int → Int → Bool) (tx ty : Int)
    (ht : inMap W H tx ty) (hw : walls tx ty = false) (g : Int → Int → Int)
    (hinv : TargetInv W H walls tx ty g) (hset : Settled W H walls g) :
    ∀ (n : Nat) (x y : Int), inMap W H x y → g x y ≠ TARGET_UNSET → g x y = (n : Int) →
      ∀ k : Nat, k ≤ n → ∃ a b, inMap W H a b ∧ g a b = (k : Int) := by
  intro n
  induction n with
  | zero =>
    intro x y hxy _ hv k hk
    have : k = 0 := by omega
    subst this
    exact ⟨x, y, hxy, hv⟩
  | succ n ih =>
    intro x y hxy hfin hv k hk
    by_cases hkn : k = n + 1
    · subst hkn
      exact ⟨x, y, hxy, hv⟩
    · have hnt : ¬ (x = tx ∧ y = ty) := by
        rintro ⟨h1, h2⟩
        have := hinv.target
        rw [h1, h2] at hv
        omega
      obtain ⟨a, b, _, hab, hfin2, hval⟩ :=
        settled_pred_exact W H walls tx ty ht hw g hinv hset x y hxy hfin hnt
      exact ih a b hab hfin2 (by rw [hval, hv]; push_cast; ring) k (by omega)

/-- In a settled grid every set value is below the number of cells. -/
theorem settled_value_lt_cells (W H : Nat) (walls : Int → Int → Bool) (tx ty : Int)
    (ht : inMap W H tx ty) (hw : walls tx ty = false) (g : Int → Int → Int)
    (hinv : TargetInv W H walls tx ty g) (hset : Settled W H walls g)
    (x y : Int) (hxy : inMap W H x y) (hfin : g x y ≠ TARGET_UNSET) :
    g x y < ((W * H : Nat) : Int) := by
  obtain ⟨n, hn, _⟩ := hinv.sound x y hxy hfin
  have hall := settled_values_below W H walls tx ty ht hw g hinv hset n x y hxy hfin hn
  have hsub : Finset.range (n + 1) ⊆
      (Finset.range W ×ˢ Finset.range H).image
        (fun c : Nat × Nat => (g (c.1 : Int) (c.2 : Int)).toNat) := by
    intro k hk
    obtain ⟨a, b, hab, hval⟩ := hall k (by simpa [Nat.lt_succ_iff] using hk)
    unfold inMap at hab
    rw [Finset.mem_image]
    refine ⟨(a.toNat, b.toNat), ?_, ?_⟩
    · simp only [Finset.mem_product, Finset.mem_range]
      omega
    · have h1 : ((a.toNat : Nat) : Int) = a := Int.toNat_of_nonneg hab.1
      have h2 : ((b.toNat : Nat) : Int) = b := Int.toNat_of_nonneg hab.2.2.1
      simp only [h1, h2, hval, Int.toNat_ofNat]
  have hcard := Finset.card_le_card hsub
  have himg := Finset.card_image_le (s := Finset.range W ×ˢ Finset.range H)
    (f := fun c : Nat × Nat => (g (c.1 : Int) (c.2 : Int)).toNat)
  rw [Finset.card_product, Finset.card_range, Finset.card_range] at himg
  rw [Finset.card_range] at hcard
  rw [hn]
  have : n + 1 ≤ W * H := le_trans hcard himg
  exact_mod_cast this

/-- In a settled grid the value of every cell that a path reaches is set and
is at most the length of the path. -/
theorem settled_le_path (W H : Nat) (walls : Int → Int → Bool) (tx ty : Int)
    (ht : inMap W H tx ty) (hw : walls tx ty = false) (g : Int → Int → Int)
    (hinv : TargetInv W H walls tx ty g) (hset : Settled W H walls g)
    (hsize : W * H < 9999) (n : Nat) (x y : Int)
    (hpath : PathLen W H walls tx ty n x y) :
    g x y ≠ TARGET_UNSET ∧ g x y ≤ (n : Int) := by
  induction hpath with
  | start =>
    rw [hinv.target]
    exact ⟨by decide, le_refl _⟩
  | step n x y a b hp hadj hab hwall ih =>
    have hxy := (PathLen_inMap_and_floor W H walls tx ty ht hw n x y hp).1
    have hlt := settled_value_lt_cells W H walls tx ty ht hw g hinv hset x y hxy ih.1
    have hstep := hset x y hxy ih.1 a b hadj hab hwall
    have h9 : ((W * H : Nat) : Int) < 9999 := by exact_mod_cast hsize
    unfold TARGET_UNSET
    constructor
    · omega
    · push_cast; omega

theorem TargetInv_initial (W H : Nat) (walls : Int → Int → Bool) (tx ty : Int) :
    TargetInv W H walls tx ty (dmapSet (fun _ _ => TARGET_UNSET) tx ty 0) := by
  constructor
  · simp [dmapSet]
  · intro x y _
    unfold dmapSet TARGET_UNSET
    by_cases hc : x = tx ∧ y = ty
    · simp [hc]
    · simp [hc]
  · intro x y _ hfin
    unfold dmapSet at hfin ⊢
    by_cases hc : x = tx ∧ y = ty
    · simp only [hc, and_self, if_true]
      exact ⟨0, rfl, PathLen.start⟩
    · simp [hc] at hfin
  · intro x y _ hfin hnt
    unfold dmapSet at hfin
    simp [hnt] at hfin

theorem dmapSum_initial_le (W H : Nat) (tx ty : Int) :
    dmapSum W H (dmapSet (fun _ _ => TARGET_UNSET) tx ty 0) ≤ 9999 * (W * H) := by
  unfold dmapSum
  have h := Finset.sum_le_card_nsmul (Finset.range W ×ˢ Finset.range H)
    (fun c : Nat × Nat => (dmapSet (fun _ _ => TARGET_UNSET) tx ty 0 (c.1 : Int) (c.2 : Int)).toNat)
    9999 (by
      intro c _
      unfold dmapSet TARGET_UNSET
      by_cases hc : (c.1 : Int) = tx ∧ (c.2 : Int) = ty
      · simp [hc]
      · simp [hc])
  rw [Finset.card_product, Finset.card_range, Finset.card_range, smul_eq_mul] at h
  rw [Nat.mul_comm]
  exact h

/-- C9: when every border cell of the wall grid is a wall, the target is a
non-wall cell of the grid (hence an interior cell) and the grid has fewer than
9999 cells, `generate_target_map` returns (with any bound on the number of
sweeps above `9999 * MAP_WIDTH * MAP_HEIGHT`), and in the target map it leaves
every cell that a 4-connected path of non-wall cells reaches from the target
holds the length of a shortest such path (0 at the target), and every other
cell, in particular every wall cell, holds `UNSET = 9999`. -/
theorem generate_target_map_shortest_path (MAP_WIDTH MAP_HEIGHT : Nat) (w : World)
    (lvl : DungeonLevel) (targetX targetY : Int) (fuel : Nat)
    (hlvl : w.currentLevel = some lvl)
    (hborder : BorderWalls MAP_WIDTH MAP_HEIGHT lvl.mapWalls)
    (htarget : inMap MAP_WIDTH MAP_HEIGHT targetX targetY)
    (hfloor : lvl.mapWalls targetX targetY = false)
    (hsize : MAP_WIDTH * MAP_HEIGHT < 9999)
    (hfuel : 9999 * (MAP_WIDTH * MAP_HEIGHT) < fuel) :
    ∃ w1 g, generate_target_map MAP_WIDTH MAP_HEIGHT w targetX targetY fuel = some w1 ∧
      w1.targetMap = some g ∧ g targetX targetY = 0 ∧
      ∀ x y, inMap MAP_WIDTH MAP_HEIGHT x y →
        ((∃ n, PathLen MAP_WIDTH MAP_HEIGHT lvl.mapWalls targetX targetY n x y) →
          ∃ d : Nat, g x y = (d : Int) ∧
            PathLen MAP_WIDTH MAP_HEIGHT lvl.mapWalls targetX targetY d x y ∧
            ∀ m, PathLen MAP_WIDTH MAP_HEIGHT lvl.mapWalls targetX targetY m x y → d ≤ m) ∧
        ((¬ ∃ n, PathLen MAP_WIDTH MAP_HEIGHT lvl.mapWalls targetX targetY n x y) →
          g x y = TARGET_UNSET) ∧
        (lvl.mapWalls x y = true → g x y = TARGET_UNSET) := by
  have hinit := TargetInv_initial MAP_WIDTH MAP_HEIGHT lvl.mapWalls targetX targetY
  have hsum := dmapSum_initial_le MAP_WIDTH MAP_HEIGHT targetX targetY
  obtain ⟨g, hloop, hinv, hfix⟩ := sweepLoop_terminates MAP_WIDTH MAP_HEIGHT lvl targetX targetY
    hborder htarget hfloor fuel _ hinit (lt_of_le_of_lt hsum hfuel)
  have hset := sweep_fixpoint_settled MAP_WIDTH MAP_HEIGHT lvl targetX targetY hborder htarget
    hfloor g hinv hfix
  have hunreach : ∀ x y, inMap MAP_WIDTH MAP_HEIGHT x y →
      (¬ ∃ n, PathLen MAP_WIDTH MAP_HEIGHT lvl.mapWalls targetX targetY n x y) →
      g x y = TARGET_UNSET := by
    intro x y hxy hno
    by_contra hfin
    obtain ⟨n, _, hpath⟩ := hinv.sound x y hxy hfin
    exact hno ⟨n, hpath⟩
  refine ⟨{ w with targetMap := some g }, g, ?_, rfl, hinv.target, ?_⟩
  · unfold generate_target_map
    simp only [htarget, if_true, hlvl, hloop]
  · intro x y hxy
    refine ⟨?_, hunreach x y hxy, ?_⟩
    · rintro ⟨n, hpath⟩
      obtain ⟨hfin, _⟩ := settled_le_path MAP_WIDTH MAP_HEIGHT lvl.mapWalls targetX targetY
        htarget hfloor g hinv hset hsize n x y hpath
      obtain ⟨d, hd, hdpath⟩ := hinv.sound x y hxy hfin
      refine ⟨d, hd, hdpath, ?_⟩
      intro m hm
      have := (settled_le_path MAP_WIDTH MAP_HEIGHT lvl.mapWalls targetX targetY
        htarget hfloor g hinv hset hsize m x y hm).2
      rw [hd] at this
      exact_mod_cast this
    · intro hwall
      apply hunreach x y hxy
      rintro ⟨n, hpath⟩
      have := (PathLen_inMap_and_floor MAP_WIDTH MAP_HEIGHT lvl.mapWalls targetX targetY
        htarget hfloor n x y hpath).2
      rw [hwall] at this
      exact Bool.noConfusion this

/-- Witness for C9: the 5 x 5 sample level with the target at `(1, 1)`. -/
theorem generate_target_map_shortest_path_witness :
    BorderWalls 5 5 sampleLevel.mapWalls ∧ sampleLevel.mapWalls 1 1 = false ∧
    ((generate_target_map 5 5 sampleLevelWorld 1 1 1000000).bind fun w1 =>
      w1.targetMap.map fun g => (g 1 1, g 3 3, g 2 2, g 0 0)) = some (0, 4, 9999, 9999) ∧
    ∃ w1 g, generate_target_map 5 5 sampleLevelWorld 1 1 1000000 = some w1 ∧
      w1.targetMap = some g ∧ g 1 1 = 0 ∧
      ∀ x y, inMap 5 5 x y →
        ((∃ n, PathLen 5 5 sampleLevel.mapWalls 1 1 n x y) →
          ∃ d : Nat, g x y = (d : Int) ∧ PathLen 5 5 sampleLevel.mapWalls 1 1 d x y ∧
            ∀ m, PathLen 5 5 sampleLevel.mapWalls 1 1 m x y → d ≤ m) ∧
        ((¬ ∃ n, PathLen 5 5 sampleLevel.mapWalls 1 1 n x y) → g x y = TARGET_UNSET) ∧
        (sampleLevel.mapWalls x y = true → g x y = TARGET_UNSET) := by
  have hb : BorderWalls 5 5 sampleLevel.mapWalls := by
    intro x y hxy hedge
    unfold inMap at hxy
    simp only [sampleLevel, decide_eq_true_eq]
    omega
  refine ⟨hb, by decide, by decide, ?_⟩
  exact generate_target_map_shortest_path 5 5 sampleLevelWorld sampleLevel 1 1 1000000 rfl hb
    (by decide) (by decide) (by decide) (by decide)

/-! ## The movement pass -/

theorem goPositions_remove_eq (W H : Nat) (w w1 : World) (x y obj : Nat)
    (h : goPositions_remove W H w x y obj = some w1) :
    w1 = { w with goPositions := w1.goPositions } := by
  unfold goPositions_remove at h
  by_cases hb : x < W ∧ y < H
  · simp only [hb, and_self, if_true] at h
    cases hc : w.goPositions x y with
    | none => simp [hc] at h
    | some ls =>
      simp only [hc, Option.some.injEq] at h
      subst h
      rfl
  · simp [hb] at h

theorem goPositions_insert_eq (W H : Nat) (w w1 : World) (x y obj : Nat)
    (h : goPositions_insert W H w x y obj = some w1) :
    w1 = { w with goPositions := w1.goPositions } := by
  unfold goPositions_insert at h
  by_cases hb : x < W ∧ y < H
  · simp only [hb, and_self, if_true, Option.some.injEq] at h
    subst h
    rfl
  · simp [hb] at h

/-- What a Position update of an entity that already has a Position leaves
alone: ids, links, the Physical and Movement heaps, the Movement store; the
record at the entity's Position address is rewritten and that address is
inserted into the Position store once more. -/
theorem update_position_existing_frame (W H : Nat) (w w2 : World) (e p : Nat) (d : Position)
    (hl : game_object_get_component w e COMP_POSITION = some p)
    (h : game_object_update_component W H w e COMP_POSITION (some d) = some w2) :
    (∀ j, (w2.gameObjects j).id = (w.gameObjects j).id) ∧
    (∀ j c, (w2.gameObjects j).components c = (w.gameObjects j).components c) ∧
    w2.posHeap = (fun a => if a = p then
      ({ objectId := (w.gameObjects e).id, x := d.x, y := d.y, layer := d.layer } : Position)
      else w.posHeap a) ∧
    w2.positionComps = p :: w.positionComps ∧
    w2.physHeap = w.physHeap ∧ w2.mvHeap = w.mvHeap ∧ w2.movementComps = w.movementComps ∧
    (w.gameObjects e).id ≠ UNUSED := by
  unfold game_object_get_component at hl
  unfold game_object_update_component at h
  by_cases hid : (w.gameObjects e).id = UNUSED
  · simp [hid] at h
  simp only [hid, if_false, hl] at h
  cases hr : goPositions_remove W H w (w.posHeap p).x (w.posHeap p).y e with
  | none => simp [hr] at h
  | some w1 =>
    simp only [hr, Option.map_some'] at h
    have e1 := goPositions_remove_eq _ _ _ _ _ _ _ hr
    have e2 := goPositions_insert_eq _ _ _ _ _ _ _ h
    have g1 : w1.gameObjects = w.gameObjects := by rw [e1]
    have g2 : w1.posHeap = w.posHeap := by rw [e1]
    have g3 : w1.positionComps = w.positionComps := by rw [e1]
    have g4 : w1.physHeap = w.physHeap := by rw [e1]
    have g5 : w1.mvHeap = w.mvHeap := by rw [e1]
    have g6 : w1.movementComps = w.movementComps := by rw [e1]
    refine ⟨?_, ?_, ?_, ?_, ?_, ?_, ?_, hid⟩
    · intro j
      rw [e2]
      simp only [setLink, g1]
      by_cases hj : j = e
      · subst hj; simp
      · simp [hj]
    · intro j c
      rw [e2]
      simp only [setLink, g1]
      by_cases hj : j = e
      · subst hj
        by_cases hc : c = COMP_POSITION
        · subst hc; simp [hl]
        · simp [hc]
      · simp [hj]
    · rw [e2]
      simp only [setLink, g2]
    · rw [e2]
      simp only [setLink, g3, list_insert_after]
    · rw [e2]
      simp only [setLink, g4]
    · rw [e2]
      simp only [setLink, g5]
    · rw [e2]
      simp only [setLink, g6]

theorem gameObjectAt_cast (i : Nat) (h : i < MAX_GO) : gameObjectAt (i : Int) = some i := by
  unfold gameObjectAt
  have : 0 ≤ (i : Int) ∧ (i : Int) < (MAX_GO : Int) := by omega
  simp [this]

/-- When the loop of `can_move` allows the move, no Position of the list on
the cell of `pos` belongs to an owner that blocks movement. -/
theorem can_move_loop_true (w : World) (pos : Position) :
    ∀ (l : List Nat), can_move_loop w pos l = some true →
      ∀ p, p ∈ l → (w.posHeap p).x = pos.x → (w.posHeap p).y = pos.y →
        ∀ o, gameObjectAt (w.posHeap p).objectId = some o → ¬ Blocks w o := by
  intro l
  induction l with
  | nil => intro _ p hp; exact absurd hp (List.not_mem_nil p)
  | cons e es ih =>
    intro h p hp hx hy o ho
    unfold can_move_loop at h
    by_cases hc : (w.posHeap e).x = pos.x ∧ (w.posHeap e).y = pos.y
    · simp only [hc, and_self, if_true] at h
      cases hg : gameObjectAt (w.posHeap e).objectId with
      | none => simp [hg] at h
      | some o1 =>
        simp only [hg] at h
        cases hph : game_object_get_component w o1 COMP_PHYSICAL with
        | none => simp [hph] at h
        | some ph =>
          simp only [hph] at h
          by_cases hbl : (w.physHeap ph).blocksMovement = true
          · simp [hbl] at h
          · simp only [hbl, if_false] at h
            rcases List.mem_cons.1 hp with rfl | hp
            · rw [hg] at ho
              simp only [Option.some.injEq] at ho
              subst ho
              rintro ⟨ph2, h1, h2⟩
              rw [hph] at h1
              simp only [Option.some.injEq] at h1
              subst h1
              exact hbl h2
            · exact ih h p hp hx hy o ho
    · simp only [hc, if_false] at h
      rcases List.mem_cons.1 hp with rfl | hp
      · exact absurd ⟨hx, hy⟩ hc
      · exact ih h p hp hx hy o ho

/-- When `can_move` allows the move in a world with a consistent Position
store, no live entity on the destination cell blocks movement. -/
theorem can_move_true_no_blocker (C R : Nat) (w : World) (pos : Position)
    (hwf : StoreConsistent w) (h : can_move C R w pos = some true) :
    ∀ j, Live w j → HasPositionAt w j pos.x pos.y → ¬ Blocks w j := by
  intro j hj ⟨p, hp, hx, hy⟩
  unfold can_move at h
  by_cases hc : pos.x < C ∧ pos.y < R
  · simp only [hc, and_self, if_true] at h
    obtain ⟨hmem, hobj, _⟩ := hwf j p hj hp
    apply can_move_loop_true w pos w.positionComps h p hmem hx hy j
    rw [hobj]
    exact gameObjectAt_cast j hj.1
  · simp [hc] at h

/-- C11 (evaluation of the code at the failing input): the monster of
`world_chaser` is out of view, has `chasingPlayer` set and
`turnsSincePlayerSeen = 5`. The pass raises the counter to 6 and clears
`chasingPlayer`, yet it takes the chase branch: the monster steps down the
target map from `(2, 1)` to `(1, 1)`, although the random branch, with the
roll 2, would have taken it to the free cell `(3, 1)`. The branch is decided
by `chasingPlayer` as it was before the update. -/
theorem movement_update_chases_after_clearing :
    scenario_chaser = some world_chaser ∧
    game_object_get_component world_chaser 0 COMP_MOVEMENT = some 2 ∧
    (world_chaser.mvHeap 2).chasingPlayer = true ∧
    (world_chaser.mvHeap 2).turnsSincePlayerSeen = 5 ∧
    HasPositionAt world_chaser 0 2 1 ∧ world_chaser.fovMap 2 1 = 0 ∧
    movement_update 5 5 5 5 randTwo world_chaser 0 = some (world_chaser_after, 1) ∧
    (world_chaser_after.mvHeap 2).turnsSincePlayerSeen = 6 ∧
    (world_chaser_after.mvHeap 2).chasingPlayer = false ∧
    HasPositionAt world_chaser_after 0 1 1 ∧
    (randomStep ⟨0, 2, 1, LAYER_TOP⟩ (randTwo 0 % 4)).x = 3 ∧
    (randomStep ⟨0, 2, 1, LAYER_TOP⟩ (randTwo 0 % 4)).y = 1 ∧
    can_move 5 5 world_chaser (randomStep ⟨0, 2, 1, LAYER_TOP⟩ (randTwo 0 % 4)) = some true :=
  ⟨rfl, by decide, by decide, by decide, ⟨0, by decide, by decide, by decide⟩, by decide, rfl,
    by decide, by decide, ⟨0, by decide, by decide, by decide⟩, by decide, by decide,
    by decide⟩

/-- C13 (evaluation of the code at the failing input): the monster of
`world_dead_monster_twice` has `currentHP = 0` and a Movement that was
attached and updated once, so that `movementComps` holds its address twice.
`health_check_death` marks the corpse, clears the two Physical flags, clears
the Movement link and sets `ticksUntilRemoval` to 5, but `movementComps`
still holds the Movement component of the monster. -/
theorem health_check_death_leaves_movement_in_store :
    scenario_dead_monster_twice = some world_dead_monster_twice ∧
    world_dead_monster_twice.player ≠ some 0 ∧
    game_object_get_component world_dead_monster_twice 0 COMP_MOVEMENT = some 2 ∧
    world_dead_monster_twice.movementComps = [2, 2] ∧
    ∃ w, health_check_death 5 5 world_dead_monster_twice 0 = some w ∧
      game_object_get_component w 0 COMP_MOVEMENT = none ∧
      (w.visHeap 0).glyph = CORPSE_GLYPH ∧
      (w.physHeap 1).blocksMovement = false ∧ (w.physHeap 1).blocksSight = false ∧
      (w.hlthHeap 3).ticksUntilRemoval = 5 ∧
      2 ∈ w.movementComps ∧ (w.mvHeap 2).objectId = (w.gameObjects 0).id := by
  refine ⟨rfl, by decide, by decide, by decide, _, rfl, by decide, by decide, by decide,
    by decide, by decide, by decide, by decide⟩

/-- C14 (evaluation of the code at the failing input): the monster of
`world_dead_monster` has `currentHP = 0` and `ticksUntilRemoval = 0`. One
sweep of `health_removal_update` takes its components out of the stores, but
the pool slot keeps its id and all its component links: the destroy acted on
a copy of the slot. -/
theorem health_removal_update_destroys_a_copy :
    scenario_dead_monster = some world_dead_monster ∧
    game_object_get_component world_dead_monster 0 COMP_HEALTH = some 4 ∧
    4 ∈ world_dead_monster.healthComps ∧
    (world_dead_monster.hlthHeap 4).currentHP = 0 ∧
    (world_dead_monster.hlthHeap 4).ticksUntilRemoval = 0 ∧
    (world_dead_monster.hlthHeap 4).objectId = 0 ∧
    ∃ w, health_removal_update world_dead_monster = some w ∧
      w.healthComps = [] ∧ w.positionComps = [] ∧
      (w.gameObjects 0).id = 0 ∧ (w.gameObjects 0).id ≠ UNUSED ∧
      game_object_get_component w 0 COMP_HEALTH = some 4 ∧
      game_object_get_component w 0 COMP_POSITION = some 0 := by
  refine ⟨rfl, by decide, by decide, by decide, by decide, by decide, _, rfl, by decide,
    by decide, by decide, by decide, by decide, by decide⟩

/-- C15 (evaluation of the code at the failing input): `health_check_death`
runs on the monster of `world_dead_monster`, which takes its Movement out of
`movementComps`. After 5 sweeps of `health_removal_update` the countdown has
only reached 0 and the monster is live with its Health in the store. The 6th
sweep is the one that calls the destroy, on a copy: the stores lose the
components, the slot stays live with its links, also after 9 sweeps. -/
theorem removal_countdown_never_frees_slot :
    health_check_death 5 5 world_dead_monster 0 = some world_corpse ∧
    world_corpse.movementComps = [] ∧
    (world_corpse.hlthHeap 4).ticksUntilRemoval = 5 ∧
    (∃ w, removal_sweeps 5 world_corpse = some w ∧ (w.gameObjects 0).id ≠ UNUSED ∧
      (w.hlthHeap 4).ticksUntilRemoval = 0 ∧ w.healthComps = [4] ∧ w.positionComps = [0]) ∧
    (∃ w, removal_sweeps 6 world_corpse = some w ∧ (w.gameObjects 0).id ≠ UNUSED ∧
      w.healthComps = [] ∧ game_object_get_component w 0 COMP_HEALTH = some 4) ∧
    (∃ w, removal_sweeps 9 world_corpse = some w ∧ (w.gameObjects 0).id ≠ UNUSED ∧
      game_object_get_component w 0 COMP_HEALTH = some 4) := by
  refine ⟨rfl, by decide, by decide, ⟨_, rfl, by decide, by decide, by decide, by decide⟩,
    ⟨_, rfl, by decide, by decide, by decide⟩, ⟨_, rfl, by decide, by decide⟩⟩

/-- C17 (evaluation of the code at the failing input): in `world_fighters`
the defender of slot 1 has `dodgeModifier = 0`, and a hit by slot 0 costs it
10 hit points. With the roll 99, which is below `100 - 0`, `combat_attack`
is a miss and returns the world unchanged. In `world_fighters_dodge` the
defender has `dodgeModifier = 100`; with the roll 0, which is not below
`100 - 100`, `combat_attack` is a hit. -/
theorem combat_attack_hit_window_off :
    (world_fighters.comHeap 7).dodgeModifier = 0 ∧
    game_object_get_component world_fighters 1 COMP_COMBAT = some 7 ∧
    ((combat_deal_damage 5 5 world_fighters 0 1).map fun w => (w.hlthHeap 6).currentHP)
      = some 10 ∧
    (world_fighters.hlthHeap 6).currentHP = 20 ∧
    ((randNinetyNine 0 % 100 : Nat) : Int) < 100 - (world_fighters.comHeap 7).dodgeModifier ∧
    combat_attack 5 5 randNinetyNine world_fighters 0 0 1 = some (world_fighters, 1) ∧
    (world_fighters_dodge.comHeap 7).dodgeModifier = 100 ∧
    ¬ (((randZero 0 % 100 : Nat) : Int) < 100 - (world_fighters_dodge.comHeap 7).dodgeModifier) ∧
    combat_attack 5 5 randZero world_fighters_dodge 0 0 1 =
      (combat_deal_damage 5 5 world_fighters_dodge 0 1).map (fun w => (w, 1)) ∧
    ((combat_attack 5 5 randZero world_fighters_dodge 0 0 1).map fun r =>
      (r.1.hlthHeap 6).currentHP) = some 10 :=
  ⟨by decide, by decide, by decide, by decide, by decide, rfl, by decide, by decide, rfl,
    by decide⟩

set_option maxRecDepth 100000 in
/-- C18 (counterexample): the weights of level 1 are non-negative and sum to
40, all on type 2. For the roll 40 `monster_for_level` returns type 2, not
the default type 1: the loop stops as soon as the accumulated weight is `>=`
the roll. For the roll 41 it returns type 1. -/
theorem monster_for_level_roll_forty :
    (∀ i, 0 ≤ probForty i 0) ∧
    ((List.range MONSTER_TYPE_COUNT).map fun i => probForty i 0).sum = 40 ∧
    monster_for_level probForty 1 40 = some 2 ∧
    monster_for_level probForty 1 41 = some 1 := by
  refine ⟨?_, by rfl, by decide, by decide⟩
  intro i
  unfold probForty
  split <;> decide

set_option maxRecDepth 100000 in
/-- C19 (counterexample): the weights of level 1 are non-negative and sum to
100, all on type 2. Type 1, whose weight is 0, is returned for the roll 0,
and type 2 is returned for 99 of the 100 rolls, not for 100. -/
theorem monster_for_level_distribution_off :
    (∀ i, 0 ≤ probHundred i 0) ∧
    ((List.range MONSTER_TYPE_COUNT).map fun i => probHundred i 0).sum = 100 ∧
    probHundred 0 0 = 0 ∧ monster_for_level probHundred 1 0 = some 1 ∧
    rollCount probHundred 1 1 = 1 ∧
    probHundred 1 0 = 100 ∧ rollCount probHundred 1 2 = 99 := by
  refine ⟨?_, by rfl, by decide, by decide, by decide, by decide, by decide⟩
  intro i
  unfold probHundred
  split <;> decide

theorem wrap32_of_inI32 (v : Int) (h : InI32 v) : wrap32 v = v := by
  unfold InI32 at h
  unfold wrap32
  omega

theorem health_recover_step_other (w : World) (h a : Nat) (ha : a ≠ h) :
    (health_recover_step w h).hlthHeap a = w.hlthHeap a := by
  unfold health_recover_step
  split
  · simp [ha]
  · rfl

theorem health_recover_step_maxHP (w : World) (h a : Nat) :
    ((health_recover_step w h).hlthHeap a).maxHP = (w.hlthHeap a).maxHP := by
  unfold health_recover_step
  split
  · by_cases ha : a = h
    · subst ha; simp
    · simp [ha]
  · rfl

theorem health_recover_step_dead (w : World) (h a : Nat)
    (hd : (w.hlthHeap a).currentHP ≤ 0) :
    (health_recover_step w h).hlthHeap a = w.hlthHeap a := by
  by_cases ha : a = h
  · subst ha
    unfold health_recover_step
    have : ¬ (w.hlthHeap a).currentHP > 0 := by omega
    simp [this]
  · exact health_recover_step_other w h a ha

theorem health_recover_step_self (w : World) (h : Nat) (hpos : (w.hlthHeap h).currentHP > 0) :
    ((health_recover_step w h).hlthHeap h).currentHP ≤ (w.hlthHeap h).maxHP := by
  unfold health_recover_step
  simp only [hpos, if_true]
  split
  · exact le_refl _
  · omega

theorem health_recover_step_le (w : World) (h a : Nat)
    (hle : (w.hlthHeap a).currentHP ≤ (w.hlthHeap a).maxHP) :
    ((health_recover_step w h).hlthHeap a).currentHP ≤ (w.hlthHeap a).maxHP := by
  by_cases ha : a = h
  · subst ha
    by_cases hpos : (w.hlthHeap a).currentHP > 0
    · exact health_recover_step_self w a hpos
    · rw [health_recover_step_dead w a a (by omega)]
      exact hle
  · rw [health_recover_step_other w h a ha]
    exact hle

theorem health_recover_step_stores (w : World) (h : Nat) :
    (health_recover_step w h).healthComps = w.healthComps ∧
    (health_recover_step w h).gameObjects = w.gameObjects := by
  unfold health_recover_step
  split <;> exact ⟨rfl, rfl⟩

theorem health_recover_fold_maxHP (l : List Nat) : ∀ (w : World) (a : Nat),
    ((l.foldl health_recover_step w).hlthHeap a).maxHP = (w.hlthHeap a).maxHP := by
  induction l with
  | nil => intro w a; rfl
  | cons x xs ih =>
    intro w a
    rw [List.foldl_cons, ih, health_recover_step_maxHP]

theorem health_recover_fold_dead (l : List Nat) : ∀ (w : World) (a : Nat),
    (w.hlthHeap a).currentHP ≤ 0 →
    (l.foldl health_recover_step w).hlthHeap a = w.hlthHeap a := by
  induction l with
  | nil => intro w a _; rfl
  | cons x xs ih =>
    intro w a hd
    have h1 := health_recover_step_dead w x a hd
    rw [List.foldl_cons, ih _ a (by rw [h1]; exact hd), h1]

theorem health_recover_fold_not_mem (l : List Nat) : ∀ (w : World) (a : Nat), a ∉ l →
    (l.foldl health_recover_step w).hlthHeap a = w.hlthHeap a := by
  induction l with
  | nil => intro w a _; rfl
  | cons x xs ih =>
    intro w a hn
    have hax : a ≠ x := fun h => hn (by rw [h]; exact List.mem_cons_self _ _)
    have hxs : a ∉ xs := fun h => hn (List.mem_cons_of_mem _ h)
    rw [List.foldl_cons, ih _ a hxs, health_recover_step_other w x a hax]

theorem health_recover_fold_le (l : List Nat) : ∀ (w : World) (a : Nat),
    (w.hlthHeap a).currentHP ≤ (w.hlthHeap a).maxHP →
    ((l.foldl health_recover_step w).hlthHeap a).currentHP ≤ (w.hlthHeap a).maxHP := by
  induction l with
  | nil => intro w a h; exact h
  | cons x xs ih =>
    intro w a hle
    have h1 := health_recover_step_le w x a hle
    have h2 := ih (health_recover_step w x) a (by rw [health_recover_step_maxHP]; exact h1)
    rw [health_recover_step_maxHP] at h2
    exact h2

theorem health_recover_fold_mem (l : List Nat) : ∀ (w : World) (a : Nat), a ∈ l →
    (w.hlthHeap a).currentHP > 0 →
    ((l.foldl health_recover_step w).hlthHeap a).currentHP ≤ (w.hlthHeap a).maxHP := by
  induction l with
  | nil => intro w a h; exact absurd h (List.not_mem_nil a)
  | cons x xs ih =>
    intro w a hmem hpos
    rw [List.foldl_cons]
    by_cases hax : a = x
    · subst hax
      have h1 := health_recover_step_self w a hpos
      have h2 := health_recover_fold_le xs (health_recover_step w a) a
        (by rw [health_recover_step_maxHP]; exact h1)
      rw [health_recover_step_maxHP] at h2
      exact h2
    · have hxs : a ∈ xs := by
        rcases List.mem_cons.1 hmem with h | h
        · exact absurd h hax
        · exact h
      have h1 := health_recover_step_other w x a hax
      have h2 := ih (health_recover_step w x) a hxs (by rw [h1]; exact hpos)
      rw [h1] at h2
      exact h2

theorem health_recover_fold_once (l : List Nat) : ∀ (w : World) (a : Nat), l.count a = 1 →
    (w.hlthHeap a).currentHP > 0 →
    InI32 ((w.hlthHeap a).currentHP + (w.hlthHeap a).recoveryRate) →
    ((l.foldl health_recover_step w).hlthHeap a).currentHP =
      min ((w.hlthHeap a).currentHP + (w.hlthHeap a).recoveryRate) (w.hlthHeap a).maxHP := by
  induction l with
  | nil => intro w a h; simp at h
  | cons x xs ih =>
    intro w a hc hpos hin
    rw [List.foldl_cons]
    by_cases hax : a = x
    · subst hax
      have hxs : a ∉ xs := by
        intro hm
        have := List.count_pos_iff.2 hm
        rw [List.count_cons_self] at hc
        omega
      rw [health_recover_fold_not_mem xs _ a hxs]
      unfold health_recover_step
      simp only [hpos, if_true, wrap32_of_inI32 _ hin]
      split
      · rw [min_eq_right]; omega
      · rw [min_eq_left]; omega
    · have hc2 : xs.count a = 1 := by
        rw [List.count_cons] at hc
        have hne : (x == a) = false := by simpa using (Ne.symm hax)
        simpa [hne] using hc
      have h1 := health_recover_step_other w x a hax
      have h2 := ih (health_recover_step w x) a hc2 (by rw [h1]; exact hpos)
        (by rw [h1]; exact hin)
      rw [h1] at h2
      exact h2

/-- C12: after `health_recover` every Health component of `healthComps`
whose `currentHP` was positive has `currentHP <= maxHP` (with `maxHP` as
before, and also when the `i32` addition wraps around); when the component is
in the store once and `currentHP + recoveryRate` does not overflow, its
`currentHP` is that sum clamped to `maxHP`; every Health component whose
`currentHP` was `<= 0` is unchanged; the pool and the store are unchanged. -/
theorem health_recover_clamps (w : World) :
    (∀ h, h ∈ w.healthComps → (w.hlthHeap h).currentHP > 0 →
      ((health_recover w).hlthHeap h).currentHP ≤ ((health_recover w).hlthHeap h).maxHP ∧
      ((health_recover w).hlthHeap h).maxHP = (w.hlthHeap h).maxHP) ∧
    (∀ h, w.healthComps.count h = 1 → (w.hlthHeap h).currentHP > 0 →
      InI32 ((w.hlthHeap h).currentHP + (w.hlthHeap h).recoveryRate) →
      ((health_recover w).hlthHeap h).currentHP =
        min ((w.hlthHeap h).currentHP + (w.hlthHeap h).recoveryRate) (w.hlthHeap h).maxHP) ∧
    (∀ h, (w.hlthHeap h).currentHP ≤ 0 → (health_recover w).hlthHeap h = w.hlthHeap h) := by
  unfold health_recover
  refine ⟨?_, ?_, ?_⟩
  · intro h hmem hpos
    rw [health_recover_fold_maxHP]
    exact ⟨health_recover_fold_mem _ w h hmem hpos, rfl⟩
  · intro h hc hpos hin
    exact health_recover_fold_once _ w h hc hpos hin
  · intro h hd
    exact health_recover_fold_dead _ w h hd

/-- The detach of a Movement component leaves every heap alone. -/
theorem update_movement_none_heaps (W H : Nat) (w w1 : World) (go : Nat)
    (h : game_object_update_component W H w go COMP_MOVEMENT none = some w1) :
    w1.hlthHeap = w.hlthHeap ∧ w1.visHeap = w.visHeap ∧ w1.physHeap = w.physHeap ∧
    w1.posHeap = w.posHeap ∧ w1.comHeap = w.comHeap ∧ w1.player = w.player := by
  unfold game_object_update_component at h
  by_cases hid : (w.gameObjects go).id = UNUSED
  · simp [hid] at h
  · simp only [hid, if_false, Option.some.injEq] at h
    subst h
    cases hl : (w.gameObjects go).components COMP_MOVEMENT <;>
      exact ⟨rfl, rfl, rfl, rfl, rfl, rfl⟩

/-- What `health_check_death` never changes: `currentHP` of every Health
record. -/
theorem health_check_death_currentHP (W H : Nat) (w w1 : World) (go : Nat)
    (h : health_check_death W H w go = some w1) (a : Nat) :
    (w1.hlthHeap a).currentHP = (w.hlthHeap a).currentHP := by
  unfold health_check_death at h
  split at h
  · exact absurd h (by simp)
  · rename_i hp hhp
    split at h
    · split at h
      · simp only [Option.some.injEq] at h
        rw [← h]
      · split at h
        · exact absurd h (by simp)
        · dsimp only at h
          split at h
          · exact absurd h (by simp)
          · split at h
            · exact absurd h (by simp)
            · rename_i w3 hw3
              simp only [Option.some.injEq] at h
              rw [← h]
              have hh := (update_movement_none_heaps W H _ w3 go hw3).1
              by_cases ha : a = hp
              · subst ha
                simp only [if_true, hh]
              · simp only [ha, if_false, hh]
    · simp only [Option.some.injEq] at h
      rw [← h]

/-- C16: with `totAtt = attack + attackModifier` of the attacker and
`totDef = defense + defenseModifier` of the defender (no `i32` overflow): if
`totDef >= totAtt`, `combat_deal_damage` returns the world unchanged;
otherwise it is `health_check_death` of the defender applied to the world in
which the defender's `currentHP` is lower by exactly `totAtt - totDef`, and
in the world it returns that `currentHP` is still lower by exactly
`totAtt - totDef`. -/
theorem combat_deal_damage_spec (MAP_WIDTH MAP_HEIGHT : Nat) (w : World)
    (attacker defender att df dh : Nat)
    (hatt : game_object_get_component w attacker COMP_COMBAT = some att)
    (hdf : game_object_get_component w defender COMP_COMBAT = some df)
    (hdh : game_object_get_component w defender COMP_HEALTH = some dh)
    (hA : InI32 ((w.comHeap att).attack + (w.comHeap att).attackModifier))
    (hD : InI32 ((w.comHeap df).defense + (w.comHeap df).defenseModifier))
    (hdiff : InI32 ((w.comHeap att).attack + (w.comHeap att).attackModifier -
      ((w.comHeap df).defense + (w.comHeap df).defenseModifier)))
    (hhp : InI32 ((w.hlthHeap dh).currentHP -
      ((w.comHeap att).attack + (w.comHeap att).attackModifier -
        ((w.comHeap df).defense + (w.comHeap df).defenseModifier)))) :
    ((w.comHeap df).defense + (w.comHeap df).defenseModifier ≥
        (w.comHeap att).attack + (w.comHeap att).attackModifier →
      combat_deal_damage MAP_WIDTH MAP_HEIGHT w attacker defender = some w) ∧
    ((w.comHeap df).defense + (w.comHeap df).defenseModifier <
        (w.comHeap att).attack + (w.comHeap att).attackModifier →
      combat_deal_damage MAP_WIDTH MAP_HEIGHT w attacker defender =
        health_check_death MAP_WIDTH MAP_HEIGHT
          { w with
            hlthHeap := fun a =>
              if a = dh then
                { w.hlthHeap dh with
                  currentHP := (w.hlthHeap dh).currentHP -
                    ((w.comHeap att).attack + (w.comHeap att).attackModifier -
                      ((w.comHeap df).defense + (w.comHeap df).defenseModifier)) }
              else w.hlthHeap a }
          defender ∧
      ∀ w1, combat_deal_damage MAP_WIDTH MAP_HEIGHT w attacker defender = some w1 →
        (w1.hlthHeap dh).currentHP = (w.hlthHeap dh).currentHP -
          ((w.comHeap att).attack + (w.comHeap att).attackModifier -
            ((w.comHeap df).defense + (w.comHeap df).defenseModifier))) := by
  have hunf : combat_deal_damage MAP_WIDTH MAP_HEIGHT w attacker defender =
      if (w.comHeap df).defense + (w.comHeap df).defenseModifier ≥
          (w.comHeap att).attack + (w.comHeap att).attackModifier then some w
      else
        health_check_death MAP_WIDTH MAP_HEIGHT
          { w with
            hlthHeap := fun a =>
              if a = dh then
                { w.hlthHeap dh with
                  currentHP := (w.hlthHeap dh).currentHP -
                    ((w.comHeap att).attack + (w.comHeap att).attackModifier -
                      ((w.comHeap df).defense + (w.comHeap df).defenseModifier)) }
              else w.hlthHeap a }
          defender := by
    unfold combat_deal_damage
    simp only [hatt, hdf, hdh, wrap32_of_inI32 _ hA, wrap32_of_inI32 _ hD,
      wrap32_of_inI32 _ hdiff, wrap32_of_inI32 _ hhp]
  constructor
  · intro hge
    rw [hunf, if_pos hge]
  · intro hlt
    have hng : ¬ ((w.comHeap df).defense + (w.comHeap df).defenseModifier ≥
        (w.comHeap att).attack + (w.comHeap att).attackModifier) := by omega
    rw [hunf, if_neg hng]
    refine ⟨rfl, ?_⟩
    intro w1 hw1
    rw [health_check_death_currentHP _ _ _ w1 defender hw1 dh]
    simp

/-- Witness for C16: in `world_fighters` attack 10 against defense 10 deals
no damage, and attack 15 against defense 5 deals exactly 10. -/
theorem combat_deal_damage_spec_witness :
    (world_fighters.comHeap 7).attack = 10 ∧ (world_fighters.comHeap 3).defense = 10 ∧
    combat_deal_damage 5 5 world_fighters 1 0 = some world_fighters ∧
    (world_fighters.comHeap 3).attack = 15 ∧ (world_fighters.comHeap 7).defense = 5 ∧
    (world_fighters.hlthHeap 6).currentHP = 20 ∧
    (∃ w1, combat_deal_damage 5 5 world_fighters 0 1 = some w1) ∧
    ∀ w1, combat_deal_damage 5 5 world_fighters 0 1 = some w1 →
      (w1.hlthHeap 6).currentHP = 20 - (15 + 0 - (5 + 0)) :=
  ⟨by decide, by decide,
    (combat_deal_damage_spec 5 5 world_fighters 1 0 7 3 2 (by decide) (by decide) (by decide)
      (by decide) (by decide) (by decide) (by decide)).1 (by decide),
    by decide, by decide, by decide, ⟨_, rfl⟩,
    ((combat_deal_damage_spec 5 5 world_fighters 0 1 3 7 6 (by decide) (by decide) (by decide)
      (by decide) (by decide) (by decide) (by decide)).2 (by decide)).2⟩

/-! ## Level generation -/

/-- What the attach of a component of any kind to an entity that has none of
this kind does to the pool, the allocation mark and the Position and
Physical heaps. -/
theorem attach_fresh_frame (W H : Nat) (w w1 : World) (j : Nat) (c : GameComponentType)
    (d : CompData c) (hl : (w.gameObjects j).components c = none)
    (h : game_object_update_component W H w j c (some d) = some w1) :
    (w.gameObjects j).id ≠ UNUSED ∧ w1.brk = w.brk + 1 ∧
    (∀ i, i ≠ j → w1.gameObjects i = w.gameObjects i) ∧
    (w1.gameObjects j).id = (w.gameObjects j).id ∧
    (∀ c1, c1 ≠ c → (w1.gameObjects j).components c1 = (w.gameObjects j).components c1) ∧
    (w1.gameObjects j).components c = some w.brk ∧
    (∀ a, a ≠ w.brk → w1.posHeap a = w.posHeap a) ∧
    (∀ a, a ≠ w.brk → w1.physHeap a = w.physHeap a) ∧
    w1.player = w.player := by
  unfold game_object_update_component at h
  by_cases hid : (w.gameObjects j).id = UNUSED
  · simp [hid] at h
  simp only [hid, if_false] at h
  cases c with
  | COMP_POSITION =>
    simp only [hl] at h
    have e := goPositions_insert_eq _ _ _ _ _ _ _ h
    rw [e]
    refine ⟨hid, rfl, ?_, ?_, ?_, ?_, ?_, ?_, rfl⟩
    · intro i hi; simp [setLink, hi]
    · simp [setLink]
    · intro c1 hc1; simp [setLink, hc1]
    · simp [setLink]
    · intro a ha; simp [setLink, ha]
    · intro a _; simp [setLink]
  | COMP_VISIBILITY =>
    simp only [hl, Option.some.injEq] at h
    subst h
    refine ⟨hid, rfl, ?_, ?_, ?_, ?_, ?_, ?_, rfl⟩
    · intro i hi; simp [setLink, hi]
    · simp [setLink]
    · intro c1 hc1; simp [setLink, hc1]
    · simp [setLink]
    · intro a _; simp [setLink]
    · intro a _; simp [setLink]
  | COMP_PHYSICAL =>
    simp only [hl, Option.some.injEq] at h
    subst h
    refine ⟨hid, rfl, ?_, ?_, ?_, ?_, ?_, ?_, rfl⟩
    · intro i hi; simp [setLink, hi]
    · simp [setLink]
    · intro c1 hc1; simp [setLink, hc1]
    · simp [setLink]
    · intro a _; simp [setLink]
    · intro a ha; simp [setLink, ha]
  | COMP_HEALTH =>
    simp only [hl, Option.some.injEq] at h
    subst h
    refine ⟨hid, rfl, ?_, ?_, ?_, ?_, ?_, ?_, rfl⟩
    · intro i hi; simp [setLink, hi]
    · simp [setLink]
    · intro c1 hc1; simp [setLink, hc1]
    · simp [setLink]
    · intro a _; simp [setLink]
    · intro a _; simp [setLink]
  | COMP_MOVEMENT =>
    simp only [hl, Option.some.injEq] at h
    subst h
    refine ⟨hid, rfl, ?_, ?_, ?_, ?_, ?_, ?_, rfl⟩
    · intro i hi; simp [setLink, hi]
    · simp [setLink]
    · intro c1 hc1; simp [setLink, hc1]
    · simp [setLink]
    · intro a _; simp [setLink]
    · intro a _; simp [setLink]
  | COMP_COMBAT =>
    simp only [hl, Option.some.injEq] at h
    subst h
    refine ⟨hid, rfl, ?_, ?_, ?_, ?_, ?_, ?_, rfl⟩
    · intro i hi; simp [setLink, hi]
    · simp [setLink]
    · intro c1 hc1; simp [setLink, hc1]
    · simp [setLink]
    · intro a _; simp [setLink]
    · intro a _; simp [setLink]

/-- The record that the attach of a Position writes at the new address. -/
theorem attach_fresh_position (W H : Nat) (w w1 : World) (j : Nat) (d : Position)
    (hl : (w.gameObjects j).components COMP_POSITION = none)
    (h : game_object_update_component W H w j COMP_POSITION (some d) = some w1) :
    (w1.posHeap w.brk).x = d.x ∧ (w1.posHeap w.brk).y = d.y ∧
    (w1.posHeap w.brk).layer = d.layer ∧ d.x < W ∧ d.y < H := by
  obtain ⟨_, _, hx, hy, ⟨p, hp, hpx, hpy, hpl, _⟩, _⟩ := update_position_some_spec W H w w1 j d h
  have hlink := (attach_fresh_frame W H w w1 j COMP_POSITION d hl h).2.2.2.2.2.1
  rw [hlink] at hp
  simp only [Option.some.injEq] at hp
  subst hp
  exact ⟨hpx, hpy, hpl, hx, hy⟩

/-- The record that the attach of a Physical writes at the new address. -/
theorem attach_fresh_physical (W H : Nat) (w w1 : World) (j : Nat) (d : Physical)
    (hl : (w.gameObjects j).components COMP_PHYSICAL = none)
    (h : game_object_update_component W H w j COMP_PHYSICAL (some d) = some w1) :
    (w1.physHeap w.brk).blocksMovement = d.blocksMovement ∧
    (w1.physHeap w.brk).blocksSight = d.blocksSight := by
  unfold game_object_update_component at h
  by_cases hid : (w.gameObjects j).id = UNUSED
  · simp [hid] at h
  simp only [hid, if_false, hl, Option.some.injEq] at h
  subst h
  simp [setLink]

theorem game_object_create_eq (w w1 : World) (i : Nat)
    (h : game_object_create w = some (w1, i)) :
    findUnused w.gameObjects MAX_GO 0 = some i ∧
    w1 = { w with
           gameObjects := fun j =>
             if j = i then { id := (i : Int), components := fun _ => none }
             else w.gameObjects j } := by
  unfold game_object_create at h
  cases hf : findUnused w.gameObjects MAX_GO 0 with
  | none => simp [hf] at h
  | some k =>
    simp only [hf, Option.some.injEq, Prod.mk.injEq] at h
    obtain ⟨h1, h2⟩ := h
    subst h2
    exact ⟨rfl, h1.symm⟩

theorem Building_create (w w1 : World) (j : Nat) (h : game_object_create w = some (w1, j)) :
    Building w w1 j ∧ ∀ c, (w1.gameObjects j).components c = none := by
  obtain ⟨hf, hw⟩ := game_object_create_eq w w1 j h
  obtain ⟨_, h2, h3, _⟩ := findUnused_some _ _ _ _ hf
  subst hw
  refine ⟨⟨by omega, h3, by simp, ?_, le_refl _, ?_, fun _ _ => rfl, fun _ _ => rfl, rfl⟩, ?_⟩
  · intro i hi; simp [hi]
  · intro c p hp; simp at hp
  · intro c; simp

theorem Building_attach (W H : Nat) (w0 w w1 : World) (j : Nat) (c : GameComponentType)
    (d : CompData c) (hb : Building w0 w j) (hl : (w.gameObjects j).components c = none)
    (h : game_object_update_component W H w j c (some d) = some w1) :
    Building w0 w1 j ∧ w1.brk = w.brk + 1 ∧
    (∀ c1, c1 ≠ c → (w1.gameObjects j).components c1 = (w.gameObjects j).components c1) ∧
    (w1.gameObjects j).components c = some w.brk ∧
    (∀ a, a ≠ w.brk → w1.posHeap a = w.posHeap a) ∧
    (∀ a, a ≠ w.brk → w1.physHeap a = w.physHeap a) := by
  obtain ⟨_, hbrk, hothers, hid, hlinks, hlink, hpos, hphys, hpl⟩ :=
    attach_fresh_frame W H w w1 j c d hl h
  obtain ⟨b1, b2, b3, b4, b5, b6, b7, b8, b9⟩ := hb
  refine ⟨⟨b1, b2, by rw [hid]; exact b3, ?_, by omega, ?_, ?_, ?_, by rw [hpl]; exact b9⟩,
    hbrk, hlinks, hlink, hpos, hphys⟩
  · intro i hi; rw [hothers i hi]; exact b4 i hi
  · intro c1 p hp
    by_cases hc : c1 = c
    · subst hc
      rw [hlink] at hp
      simp only [Option.some.injEq] at hp
      omega
    · rw [hlinks c1 hc] at hp
      have := b6 c1 p hp
      omega
  · intro a ha; rw [hpos a (by omega)]; exact b7 a ha
  · intro a ha; rw [hphys a (by omega)]; exact b8 a ha

theorem PosFact_attach (W H : Nat) (w0 w w1 : World) (j x y layer : Nat)
    (c : GameComponentType) (d : CompData c) (hc : c ≠ COMP_POSITION)
    (hb : Building w0 w j) (hl : (w.gameObjects j).components c = none)
    (h : game_object_update_component W H w j c (some d) = some w1)
    (hf : PosFact w j x y layer) : PosFact w1 j x y layer := by
  obtain ⟨_, hbrk, hlinks, _, hpos, _⟩ := Building_attach W H w0 w w1 j c d hb hl h
  obtain ⟨p, hp, hlk, hx, hy, hlay⟩ := hf
  refine ⟨p, by omega, ?_, ?_, ?_, ?_⟩
  · rw [hlinks COMP_POSITION (Ne.symm hc)]; exact hlk
  · rw [hpos p (by omega)]; exact hx
  · rw [hpos p (by omega)]; exact hy
  · rw [hpos p (by omega)]; exact hlay

theorem PhysFact_attach (W H : Nat) (w0 w w1 : World) (j : Nat) (bm bs : Bool)
    (c : GameComponentType) (d : CompData c) (hc : c ≠ COMP_PHYSICAL)
    (hb : Building w0 w j) (hl : (w.gameObjects j).components c = none)
    (h : game_object_update_component W H w j c (some d) = some w1)
    (hf : PhysFact w j bm bs) : PhysFact w1 j bm bs := by
  obtain ⟨_, hbrk, hlinks, _, _, hphys⟩ := Building_attach W H w0 w w1 j c d hb hl h
  obtain ⟨p, hp, hlk, h1, h2⟩ := hf
  refine ⟨p, by omega, ?_, ?_, ?_⟩
  · rw [hlinks COMP_PHYSICAL (Ne.symm hc)]; exact hlk
  · rw [hphys p (by omega)]; exact h1
  · rw [hphys p (by omega)]; exact h2

theorem PosFact_of_attach (W H : Nat) (w0 w w1 : World) (j : Nat) (d : Position)
    (hb : Building w0 w j) (hl : (w.gameObjects j).components COMP_POSITION = none)
    (h : game_object_update_component W H w j COMP_POSITION (some d) = some w1) :
    PosFact w1 j d.x d.y d.layer ∧ d.x < W ∧ d.y < H := by
  obtain ⟨_, hbrk, _, hlink, _, _⟩ := Building_attach W H w0 w w1 j COMP_POSITION d hb hl h
  obtain ⟨hx, hy, hlay, hxw, hyh⟩ := attach_fresh_position W H w w1 j d hl h
  exact ⟨⟨w.brk, by omega, hlink, hx, hy, hlay⟩, hxw, hyh⟩

theorem PhysFact_of_attach (W H : Nat) (w0 w w1 : World) (j : Nat) (d : Physical)
    (hb : Building w0 w j) (hl : (w.gameObjects j).components COMP_PHYSICAL = none)
    (h : game_object_update_component W H w j COMP_PHYSICAL (some d) = some w1) :
    PhysFact w1 j d.blocksMovement d.blocksSight := by
  obtain ⟨_, hbrk, _, hlink, _, _⟩ := Building_attach W H w0 w w1 j COMP_PHYSICAL d hb hl h
  obtain ⟨h1, h2⟩ := attach_fresh_physical W H w w1 j d hl h
  exact ⟨w.brk, by omega, hlink, h1, h2⟩

/-- The three calls that `floor_add` and `wall_add` make after
`game_object_create` add one entity with the Position and the Physical of the
data. -/
theorem terrain_entity_adds (W H : Nat) (w wc w1 w2 w3 : World) (j : Nat)
    (dp : Position) (dv : Visibility) (dph : Physical)
    (hc : game_object_create w = some (wc, j))
    (h1 : game_object_update_component W H wc j COMP_POSITION (some dp) = some w1)
    (h2 : game_object_update_component W H w1 j COMP_VISIBILITY (some dv) = some w2)
    (h3 : game_object_update_component W H w2 j COMP_PHYSICAL (some dph) = some w3) :
    Adds w w3 j dp.x dp.y dp.layer dph.blocksMovement dph.blocksSight ∧ dp.x < W ∧ dp.y < H := by
  obtain ⟨b0, hnone⟩ := Building_create w wc j hc
  obtain ⟨b1, _, l1, _, _, _⟩ :=
    Building_attach W H w wc w1 j COMP_POSITION dp b0 (hnone _) h1
  obtain ⟨pf1, hx, hy⟩ := PosFact_of_attach W H w wc w1 j dp b0 (hnone _) h1
  have n1 : (w1.gameObjects j).components COMP_VISIBILITY = none := by
    rw [l1 _ (by decide)]; exact hnone _
  obtain ⟨b2, _, l2, _, _, _⟩ := Building_attach W H w w1 w2 j COMP_VISIBILITY dv b1 n1 h2
  have pf2 := PosFact_attach W H w w1 w2 j _ _ _ COMP_VISIBILITY dv (by decide) b1 n1 h2 pf1
  have n2 : (w2.gameObjects j).components COMP_PHYSICAL = none := by
    rw [l2 _ (by decide), l1 _ (by decide)]; exact hnone _
  obtain ⟨b3, _, _, _, _, _⟩ := Building_attach W H w w2 w3 j COMP_PHYSICAL dph b2 n2 h3
  have pf3 := PosFact_attach W H w w2 w3 j _ _ _ COMP_PHYSICAL dph (by decide) b2 n2 h3 pf2
  have ph3 := PhysFact_of_attach W H w w2 w3 j dph b2 n2 h3
  exact ⟨⟨b3, pf3, ph3⟩, hx, hy⟩

theorem floor_add_adds (W H : Nat) (w w1 : World) (x y : Nat)
    (h : floor_add W H w x y = some w1) :
    ∃ j, Adds w w1 j x y LAYER_GROUND false false ∧ x < W ∧ y < H := by
  unfold floor_add at h
  simp only [Option.bind_eq_some] at h
  obtain ⟨⟨wc, j⟩, hc, wa, h1, wb, h2, h3⟩ := h
  exact ⟨j, terrain_entity_adds W H w wc wa wb w1 j _ _ _ hc h1 h2 h3⟩

theorem wall_add_adds (W H : Nat) (w w1 : World) (x y : Nat)
    (h : wall_add W H w x y = some w1) :
    ∃ j, Adds w w1 j x y LAYER_GROUND true true ∧ x < W ∧ y < H := by
  unfold wall_add at h
  simp only [Option.bind_eq_some] at h
  obtain ⟨⟨wc, j⟩, hc, wa, h1, wb, h2, h3⟩ := h
  exact ⟨j, terrain_entity_adds W H w wc wa wb w1 j _ _ _ hc h1 h2 h3⟩

theorem npc_add_adds (W H : Nat) (w w1 : World) (x y layer : Nat) (t : NpcTemplate)
    (h : npc_add W H w x y layer t = some w1) :
    ∃ j, Adds w w1 j x y layer true false ∧ x < W ∧ y < H := by
  unfold npc_add at h
  simp only [Option.bind_eq_some] at h
  obtain ⟨⟨wc, j⟩, hc, wa, h1, wb, h2, w3, h3, w4, h4, w5, h5, h6⟩ := h
  obtain ⟨⟨b3, pf3, ph3⟩, hx, hy⟩ := terrain_entity_adds W H w wc wa wb w3 j _ _ _ hc h1 h2 h3
  obtain ⟨b0, hnone⟩ := Building_create w wc j hc
  obtain ⟨_, _, l1, _, _, _⟩ := Building_attach W H w wc wa j COMP_POSITION _ b0 (hnone _) h1
  have n1 : (wa.gameObjects j).components COMP_VISIBILITY = none := by
    rw [l1 _ (by decide)]; exact hnone _
  obtain ⟨b1, _, _, _, _, _⟩ := Building_attach W H w wc wa j COMP_POSITION _ b0 (hnone _) h1
  obtain ⟨b2, _, l2, _, _, _⟩ := Building_attach W H w wa wb j COMP_VISIBILITY _ b1 n1 h2
  have n2 : (wb.gameObjects j).components COMP_PHYSICAL = none := by
    rw [l2 _ (by decide), l1 _ (by decide)]; exact hnone _
  obtain ⟨_, _, l3, _, _, _⟩ := Building_attach W H w wb w3 j COMP_PHYSICAL _ b2 n2 h3
  have n3 : (w3.gameObjects j).components COMP_MOVEMENT = none := by
    rw [l3 _ (by decide), l2 _ (by decide), l1 _ (by decide)]; exact hnone _
  obtain ⟨b4, _, l4, _, _, _⟩ := Building_attach W H w w3 w4 j COMP_MOVEMENT _ b3 n3 h4
  have pf4 := PosFact_attach W H w w3 w4 j _ _ _ COMP_MOVEMENT _ (by decide) b3 n3 h4 pf3
  have ph4 := PhysFact_attach W H w w3 w4 j _ _ COMP_MOVEMENT _ (by decide) b3 n3 h4 ph3
  have n4 : (w4.gameObjects j).components COMP_HEALTH = none := by
    rw [l4 _ (by decide), l3 _ (by decide), l2 _ (by decide), l1 _ (by decide)]
    exact hnone _
  obtain ⟨b5, _, l5, _, _, _⟩ := Building_attach W H w w4 w5 j COMP_HEALTH _ b4 n4 h5
  have pf5 := PosFact_attach W H w w4 w5 j _ _ _ COMP_HEALTH _ (by decide) b4 n4 h5 pf4
  have ph5 := PhysFact_attach W H w w4 w5 j _ _ COMP_HEALTH _ (by decide) b4 n4 h5 ph4
  have n5 : (w5.gameObjects j).components COMP_COMBAT = none := by
    rw [l5 _ (by decide), l4 _ (by decide), l3 _ (by decide), l2 _ (by decide),
      l1 _ (by decide)]
    exact hnone _
  obtain ⟨b6, _, _, _, _, _⟩ := Building_attach W H w w5 w1 j COMP_COMBAT _ b5 n5 h6
  have pf6 := PosFact_attach W H w w5 w1 j _ _ _ COMP_COMBAT _ (by decide) b5 n5 h6 pf5
  have ph6 := PhysFact_attach W H w w5 w1 j _ _ COMP_COMBAT _ (by decide) b5 n5 h6 ph5
  exact ⟨j, ⟨b6, pf6, ph6⟩, hx, hy⟩

/-- What adding an entity does to the entities that were there. -/
theorem Adds_old_entities (b0 : Nat) (mapCells : Nat → Nat → Bool) (L : List (Nat × Nat))
    (w w1 : World) (j : Nat) (hinv : LevelInv b0 mapCells L w) (hb : Building w w1 j) :
    j ≠ 0 ∧ Live w1 j ∧
    (∀ i, i ≠ j → (Live w1 i ↔ Live w i)) ∧
    (∀ i x y, i ≠ j → i ≠ 0 → (IsTerrainAt w1 i x y ↔ IsTerrainAt w i x y)) ∧
    (∀ i b, i ≠ j → i ≠ 0 → Live w i → HasFlags w i b → HasFlags w1 i b) := by
  obtain ⟨b1, b2, b3, b4, b5, b6, b7, b8, _⟩ := hb
  have hj0 : j ≠ 0 := by
    intro h
    subst h
    exact hinv.player_live b2
  have hlive : ∀ i, i ≠ j → (Live w1 i ↔ Live w i) := by
    intro i hi
    unfold Live
    rw [b4 i hi]
  refine ⟨hj0, ⟨b1, ?_⟩, hlive, ?_, ?_⟩
  · rw [b3]
    unfold UNUSED
    omega
  · intro i x y hij hi0
    unfold IsTerrainAt game_object_get_component
    rw [hlive i hij, b4 i hij]
    constructor
    · rintro ⟨hl, p, hp, hx, hy, hlay⟩
      have hlt := (hinv.fresh i hl hi0 _ p hp).2
      rw [b7 p hlt] at hx hy hlay
      exact ⟨hl, p, hp, hx, hy, hlay⟩
    · rintro ⟨hl, p, hp, hx, hy, hlay⟩
      have hlt := (hinv.fresh i hl hi0 _ p hp).2
      refine ⟨hl, p, hp, ?_, ?_, ?_⟩
      · rw [b7 p hlt]; exact hx
      · rw [b7 p hlt]; exact hy
      · rw [b7 p hlt]; exact hlay
  · rintro i b hij hi0 hl ⟨ph, hph, h1, h2⟩
    unfold HasFlags game_object_get_component at *
    have hlt := (hinv.fresh i hl hi0 _ ph hph).2
    refine ⟨ph, by rw [b4 i hij]; exact hph, ?_, ?_⟩
    · rw [b8 ph hlt]; exact h1
    · rw [b8 ph hlt]; exact h2

theorem LevelInv_adds_base (b0 : Nat) (mapCells : Nat → Nat → Bool) (L : List (Nat × Nat))
    (w w1 : World) (j : Nat) (hinv : LevelInv b0 mapCells L w) (hb : Building w w1 j) :
    (w1.gameObjects 0).id ≠ UNUSED ∧
    (∀ c p, (w1.gameObjects 0).components c = some p → p < b0) ∧ b0 ≤ w1.brk ∧
    (∀ i, Live w1 i → i ≠ 0 → ∀ c p, (w1.gameObjects i).components c = some p →
      b0 ≤ p ∧ p < w1.brk) := by
  obtain ⟨hj0, _, hlive, _, _⟩ := Adds_old_entities b0 mapCells L w w1 j hinv hb
  obtain ⟨b1, b2, b3, b4, b5, b6, b7, b8, _⟩ := hb
  have h0 : w1.gameObjects 0 = w.gameObjects 0 := b4 0 (Ne.symm hj0)
  have hbrk := hinv.brk_le
  refine ⟨by rw [h0]; exact hinv.player_live, by rw [h0]; exact hinv.player_alloc,
    by omega, ?_⟩
  intro i hl hi0 c p hp
  by_cases hij : i = j
  · subst hij
    have := b6 c p hp
    omega
  · rw [b4 i hij] at hp
    have := hinv.fresh i ((hlive i hij).1 hl) hi0 c p hp
    omega

/-- Adding a terrain entity on a cell that has none keeps the invariant,
with the cell added. -/
theorem LevelInv_adds_ground (b0 : Nat) (mapCells : Nat → Nat → Bool) (L : List (Nat × Nat))
    (w w1 : World) (j x y : Nat) (b : Bool) (hinv : LevelInv b0 mapCells L w)
    (hadd : Adds w w1 j x y LAYER_GROUND b b) (hb : mapCells x y = b) (hnew : (x, y) ∉ L) :
    LevelInv b0 mapCells ((x, y) :: L) w1 := by
  obtain ⟨hbuild, ⟨p, _, hp, hpx, hpy, hpl⟩, ⟨ph, _, hph, hf1, hf2⟩⟩ := hadd
  obtain ⟨hj0, hlj, hlive, hterr, hflags⟩ :=
    Adds_old_entities b0 mapCells L w w1 j hinv hbuild
  obtain ⟨c1, c2, c3, c4⟩ := LevelInv_adds_base b0 mapCells L w w1 j hinv hbuild
  have hjt : IsTerrainAt w1 j x y := ⟨hlj, p, hp, hpx, hpy, hpl⟩
  have hjonly : ∀ x1 y1, IsTerrainAt w1 j x1 y1 → x1 = x ∧ y1 = y := by
    rintro x1 y1 ⟨_, q, hq, hx, hy, _⟩
    unfold game_object_get_component at hq
    rw [hp] at hq
    simp only [Option.some.injEq] at hq
    subst hq
    exact ⟨by rw [← hx, hpx], by rw [← hy, hpy]⟩
  refine ⟨c1, c2, c3, c4, ?_, ?_, ?_⟩
  · intro x1 y1 hmem
    rcases List.mem_cons.1 hmem with heq | hmem
    · simp only [Prod.mk.injEq] at heq
      obtain ⟨rfl, rfl⟩ := heq
      exact ⟨j, hj0, hjt, ph, hph, by rw [hf1, hb], by rw [hf2, hb]⟩
    · obtain ⟨i, hi0, hit, hif⟩ := hinv.terrain x1 y1 hmem
      have hij : i ≠ j := by
        intro h
        subst h
        exact hbuild.2.1 ▸ hit.1.2 <| rfl
      exact ⟨i, hi0, (hterr i x1 y1 hij hi0).2 hit, hflags i _ hij hi0 hit.1 hif⟩
  · intro i x1 y1 hi0 hit
    by_cases hij : i = j
    · subst hij
      obtain ⟨rfl, rfl⟩ := hjonly x1 y1 hit
      exact List.mem_cons_self _ _
    · exact List.mem_cons_of_mem _ (hinv.only i x1 y1 hi0 ((hterr i x1 y1 hij hi0).1 hit))
  · intro i i1 x1 y1 hi0 hi10 hit hit1
    by_cases hij : i = j
    · by_cases hi1j : i1 = j
      · rw [hij, hi1j]
      · exfalso
        subst hij
        obtain ⟨rfl, rfl⟩ := hjonly x1 y1 hit
        exact hnew (hinv.only i1 _ _ hi10 ((hterr i1 _ _ hi1j hi10).1 hit1))
    · by_cases hi1j : i1 = j
      · exfalso
        subst hi1j
        obtain ⟨rfl, rfl⟩ := hjonly x1 y1 hit1
        exact hnew (hinv.only i _ _ hi0 ((hterr i _ _ hij hi0).1 hit))
      · exact hinv.uniq i i1 x1 y1 hi0 hi10 ((hterr i _ _ hij hi0).1 hit)
          ((hterr i1 _ _ hi1j hi10).1 hit1)

/-- Adding an entity on another layer than the ground keeps the invariant. -/
theorem LevelInv_adds_other (b0 : Nat) (mapCells : Nat → Nat → Bool) (L : List (Nat × Nat))
    (w w1 : World) (j x y layer : Nat) (bm bs : Bool) (hinv : LevelInv b0 mapCells L w)
    (hadd : Adds w w1 j x y layer bm bs) (hlayer : layer ≠ LAYER_GROUND) :
    LevelInv b0 mapCells L w1 := by
  obtain ⟨hbuild, ⟨p, _, hp, hpx, hpy, hpl⟩, _⟩ := hadd
  obtain ⟨hj0, hlj, hlive, hterr, hflags⟩ :=
    Adds_old_entities b0 mapCells L w w1 j hinv hbuild
  obtain ⟨c1, c2, c3, c4⟩ := LevelInv_adds_base b0 mapCells L w w1 j hinv hbuild
  have hjnot : ∀ x1 y1, ¬ IsTerrainAt w1 j x1 y1 := by
    rintro x1 y1 ⟨_, q, hq, _, _, hlay⟩
    unfold game_object_get_component at hq
    rw [hp] at hq
    simp only [Option.some.injEq] at hq
    subst hq
    rw [hpl] at hlay
    exact hlayer hlay
  refine ⟨c1, c2, c3, c4, ?_, ?_, ?_⟩
  · intro x1 y1 hmem
    obtain ⟨i, hi0, hit, hif⟩ := hinv.terrain x1 y1 hmem
    have hij : i ≠ j := by
      intro h
      subst h
      exact hbuild.2.1 ▸ hit.1.2 <| rfl
    exact ⟨i, hi0, (hterr i x1 y1 hij hi0).2 hit, hflags i _ hij hi0 hit.1 hif⟩
  · intro i x1 y1 hi0 hit
    by_cases hij : i = j
    · subst hij
      exact absurd hit (hjnot x1 y1)
    · exact hinv.only i x1 y1 hi0 ((hterr i x1 y1 hij hi0).1 hit)
  · intro i i1 x1 y1 hi0 hi10 hit hit1
    by_cases hij : i = j
    · subst hij
      exact absurd hit (hjnot x1 y1)
    · by_cases hi1j : i1 = j
      · subst hi1j
        exact absurd hit1 (hjnot x1 y1)
      · exact hinv.uniq i i1 x1 y1 hi0 hi10 ((hterr i _ _ hij hi0).1 hit)
          ((hterr i1 _ _ hi1j hi10).1 hit1)

theorem level_clear_loop_spec (player : Nat) :
    ∀ (n : Nat) (w : World), n + 1 ≤ MAX_GO →
      ((level_clear_loop player n w).gameObjects player).id = (w.gameObjects player).id ∧
      (level_clear_loop player n w).brk = w.brk ∧
      (∀ i, i < MAX_GO - n → (level_clear_loop player n w).gameObjects i = w.gameObjects i) ∧
      (∀ i, MAX_GO - n ≤ i → i < MAX_GO →
        ((level_clear_loop player n w).gameObjects i).id = UNUSED ∨
        ((level_clear_loop player n w).gameObjects i).id = (w.gameObjects player).id) := by
  intro n
  induction n with
  | zero =>
    intro w _
    refine ⟨rfl, rfl, fun _ _ => rfl, ?_⟩
    intro i h1 h2
    omega
  | succ n ih =>
    intro w hn
    have key : ∀ w1 : World, (w1.gameObjects player).id = (w.gameObjects player).id →
        w1.brk = w.brk →
        (∀ k, k ≠ MAX_GO - (n + 1) → w1.gameObjects k = w.gameObjects k) →
        ((w1.gameObjects (MAX_GO - (n + 1))).id = UNUSED ∨
          (w1.gameObjects (MAX_GO - (n + 1))).id = (w.gameObjects player).id) →
        ((level_clear_loop player n w1).gameObjects player).id = (w.gameObjects player).id ∧
        (level_clear_loop player n w1).brk = w.brk ∧
        (∀ i, i < MAX_GO - (n + 1) →
          (level_clear_loop player n w1).gameObjects i = w.gameObjects i) ∧
        (∀ i, MAX_GO - (n + 1) ≤ i → i < MAX_GO →
          ((level_clear_loop player n w1).gameObjects i).id = UNUSED ∨
          ((level_clear_loop player n w1).gameObjects i).id = (w.gameObjects player).id) := by
      intro w1 hpl hbrk hoth hcur
      obtain ⟨i1, i2, i3, i4⟩ := ih w1 (by omega)
      refine ⟨by rw [i1, hpl], by rw [i2, hbrk], ?_, ?_⟩
      · intro i hi
        rw [i3 i (by omega), hoth i (by omega)]
      · intro i hi1 hi2
        by_cases hic : i = MAX_GO - (n + 1)
        · subst hic
          rw [i3 _ (by omega)]
          exact hcur
        · have := i4 i (by omega) hi2
          rw [hpl] at this
          exact this
    unfold level_clear_loop
    split
    · rename_i hcond
      apply key
      · by_cases hp : player = MAX_GO - (n + 1)
        · exfalso
          apply hcond.1
          rw [← hp]
        · simp [game_object_destroy, game_object_destroy_obj, hp]
      · rfl
      · intro k hk
        simp [game_object_destroy, game_object_destroy_obj, hk]
      · left
        simp [game_object_destroy, game_object_destroy_obj]
    · rename_i hcond
      apply key w rfl rfl (fun _ _ => rfl)
      by_cases h1 : (w.gameObjects (MAX_GO - (n + 1))).id = UNUSED
      · exact Or.inl h1
      · right
        by_contra h2
        exact hcond ⟨h2, h1⟩

theorem level_clear_loop_noop (player : Nat) :
    ∀ (n : Nat) (w : World), n + 1 ≤ MAX_GO →
      (∀ i, 1 ≤ i → i < MAX_GO →
        (w.gameObjects i).id = (w.gameObjects player).id ∨ (w.gameObjects i).id = UNUSED) →
      level_clear_loop player n w = w := by
  intro n
  induction n with
  | zero => intro w _ _; rfl
  | succ n ih =>
    intro w hn hall
    unfold level_clear_loop
    have hc : ¬ ((w.gameObjects (MAX_GO - (n + 1))).id ≠ (w.gameObjects player).id ∧
        (w.gameObjects (MAX_GO - (n + 1))).id ≠ UNUSED) := by
      rintro ⟨h1, h2⟩
      rcases hall (MAX_GO - (n + 1)) (by omega) (by unfold MAX_GO at *; omega) with h | h
      · exact h1 h
      · exact h2 h
    rw [if_neg hc]
    exact ih w (by omega) hall

/-- After the first loop of `level_init` with the player in slot 0, in a
world where slot and id coincide, only the player is live, and the invariant
holds with no cell done. -/
theorem LevelInv_level_clear (mapCells : Nat → Nat → Bool) (w : World)
    (hco : SlotIdCoincide w) (hpl : (w.gameObjects 0).id ≠ UNUSED)
    (halloc : ∀ c p, (w.gameObjects 0).components c = some p → p < w.brk) :
    LevelInv w.brk mapCells [] (level_clear w 0) ∧
    ∀ i, 1 ≤ i → i < MAX_GO → ((level_clear w 0).gameObjects i).id = UNUSED := by
  obtain ⟨_, h2, h3, h4⟩ := level_clear_loop_spec 0 (MAX_GO - 1) w (by decide)
  have h0 : (level_clear w 0).gameObjects 0 = w.gameObjects 0 := h3 0 (by decide)
  have hid0 : (w.gameObjects 0).id = 0 := by
    have := hco 0 ⟨by decide, hpl⟩
    simpa using this
  have hgone : ∀ i, 1 ≤ i → i < MAX_GO → ((level_clear w 0).gameObjects i).id = UNUSED := by
    intro i hi1 hi2
    rcases h4 i (by unfold MAX_GO at *; omega) hi2 with h | h
    · exact h
    · exfalso
      rw [hid0] at h
      have horig : (w.gameObjects i).id = (i : Int) ∨ (w.gameObjects i).id = UNUSED := by
        by_cases hu : (w.gameObjects i).id = UNUSED
        · exact Or.inr hu
        · exact Or.inl (hco i ⟨hi2, hu⟩)
      have hkeep : ∀ (n : Nat) (w1 : World), n + 1 ≤ MAX_GO →
          (w1.gameObjects 0).id = 0 →
          ((w1.gameObjects i).id = (i : Int) ∨ (w1.gameObjects i).id = UNUSED) →
          ((level_clear_loop 0 n w1).gameObjects i).id = (i : Int) ∨
          ((level_clear_loop 0 n w1).gameObjects i).id = UNUSED := by
        intro n
        induction n with
        | zero => intro w1 _ _ hw1; exact hw1
        | succ n ih =>
          intro w1 hn h01 hw1
          unfold level_clear_loop
          split
          · rename_i hcond
            apply ih _ (by omega)
            · have h0ne : (0 : Nat) ≠ MAX_GO - (n + 1) := by
                intro h0e
                apply hcond.1
                rw [← h0e]
              simp [game_object_destroy, game_object_destroy_obj, h0ne, h01]
            · by_cases hk : i = MAX_GO - (n + 1)
              · subst hk
                right
                simp [game_object_destroy, game_object_destroy_obj]
              · simp [game_object_destroy, game_object_destroy_obj, hk, hw1]
          · exact ih w1 (by omega) h01 hw1
      have := hkeep (MAX_GO - 1) w (by decide) hid0 horig
      rw [h] at this
      rcases this with h5 | h5
      · have : (i : Int) = 0 := h5.symm
        omega
      · exact absurd h5 (by decide)
  refine ⟨⟨by rw [h0]; exact hpl, by rw [h0]; exact halloc, ?_, ?_, ?_, ?_, ?_⟩, hgone⟩
  · unfold level_clear; rw [h2]
  · intro j hl hj0
    exact absurd (hgone j (by omega) hl.1) hl.2
  · intro x y hmem
    exact absurd hmem (List.not_mem_nil _)
  · intro j x y hj0 hit
    exact absurd (hgone j (by omega) hit.1.1) hit.1.2
  · intro j j1 x y hj0 _ hit _
    exact absurd (hgone j (by omega) hit.1.1) hit.1.2

/-- The terrain loops keep the invariant and add the cells they visit. -/
theorem level_terrain_inv (W H b0 : Nat) (mapCells : Nat → Nat → Bool) :
    ∀ (cs : List (Nat × Nat)) (L : List (Nat × Nat)) (w w1 : World),
      cs.Nodup → (∀ c ∈ cs, c ∉ L) → (∀ c ∈ cs, c.1 < 256 ∧ c.2 < 256) →
      LevelInv b0 mapCells L w → level_terrain W H mapCells cs w = some w1 →
      ∃ L1, LevelInv b0 mapCells L1 w1 ∧ ∀ c, c ∈ L1 ↔ (c ∈ cs ∨ c ∈ L) := by
  intro cs
  induction cs with
  | nil =>
    intro L w w1 _ _ _ hinv h
    simp only [level_terrain, Option.some.injEq] at h
    subst h
    exact ⟨L, hinv, fun c => by simp⟩
  | cons c cs ih =>
    intro L w w1 hnd hnot hsmall hinv h
    simp only [level_terrain, Option.bind_eq_some] at h
    obtain ⟨wa, ha, hrest⟩ := h
    obtain ⟨hx, hy⟩ := hsmall c (List.mem_cons_self _ _)
    have hcL : (c.1, c.2) ∉ L := hnot c (List.mem_cons_self _ _)
    have hstep : LevelInv b0 mapCells ((c.1, c.2) :: L) wa := by
      by_cases hm : mapCells c.1 c.2 = true
      · rw [if_pos hm, Nat.mod_eq_of_lt hx, Nat.mod_eq_of_lt hy] at ha
        obtain ⟨j, hadd, _, _⟩ := wall_add_adds W H w wa c.1 c.2 ha
        exact LevelInv_adds_ground b0 mapCells L w wa j c.1 c.2 true hinv hadd hm hcL
      · rw [if_neg hm, Nat.mod_eq_of_lt hx, Nat.mod_eq_of_lt hy] at ha
        obtain ⟨j, hadd, _, _⟩ := floor_add_adds W H w wa c.1 c.2 ha
        have hm2 : mapCells c.1 c.2 = false := by simpa using hm
        exact LevelInv_adds_ground b0 mapCells L w wa j c.1 c.2 false hinv hadd hm2 hcL
    have hnd2 := List.nodup_cons.1 hnd
    obtain ⟨L1, hL1, hmem⟩ := ih ((c.1, c.2) :: L) wa w1 hnd2.2
      (by
        intro c1 hc1 hin
        rcases List.mem_cons.1 hin with heq | hin
        · have hcc : c1 = c := heq
          exact hnd2.1 (hcc ▸ hc1)
        · exact hnot c1 (List.mem_cons_of_mem _ hc1) hin)
      (fun c1 hc1 => hsmall c1 (List.mem_cons_of_mem _ hc1)) hstep hrest
    refine ⟨L1, hL1, ?_⟩
    intro c1
    rw [hmem c1]
    simp only [List.mem_cons]
    constructor
    · rintro (h1 | h1 | h1)
      · exact Or.inl (Or.inr h1)
      · exact Or.inl (Or.inl h1)
      · exact Or.inr h1
    · rintro ((h1 | h1) | h1)
      · exact Or.inr (Or.inl h1)
      · exact Or.inl h1
      · exact Or.inr (Or.inr h1)

/-- The monster loop keeps the invariant. -/
theorem level_monsters_inv (W H b0 : Nat) (rand : Nat → Nat) (mapCells : Nat → Nat → Bool)
    (prob : Nat → Nat → Int) (templates : Int → Option NpcTemplate) (fuel : Nat)
    (lvl : Int) (L : List (Nat × Nat)) :
    ∀ (n : Nat) (st st1 : World × Nat), LevelInv b0 mapCells L st.1 →
      level_monsters W H rand mapCells prob templates fuel lvl n st = some st1 →
      LevelInv b0 mapCells L st1.1 := by
  intro n
  induction n with
  | zero =>
    intro st st1 hinv h
    simp only [level_monsters, Option.some.injEq] at h
    rw [← h]
    exact hinv
  | succ n ih =>
    intro st st1 hinv h
    unfold level_monsters at h
    split at h
    · exact absurd h (by simp)
    · split at h
      · exact absurd h (by simp)
      · split at h
        · exact absurd h (by simp)
        · rename_i t _
          simp only [Option.bind_eq_some] at h
          obtain ⟨wa, ha, hrest⟩ := h
          obtain ⟨j, hadd, _, _⟩ := npc_add_adds W H st.1 wa _ _ _ t ha
          exact ih (wa, _) st1
            (LevelInv_adds_other b0 mapCells L st.1 wa j _ _ _ _ _ hinv hadd (by decide)) hrest

theorem level_get_open_point_spec (W H : Nat) (rand : Nat → Nat)
    (mapCells : Nat → Nat → Bool) :
    ∀ (fuel k : Nat) (r : (Nat × Nat) × Nat),
      level_get_open_point W H rand mapCells fuel k = some r →
      r.1.1 < W ∧ r.1.2 < H ∧ mapCells r.1.1 r.1.2 = false := by
  intro fuel
  induction fuel with
  | zero => intro k r h; simp [level_get_open_point] at h
  | succ fuel ih =>
    intro k r h
    unfold level_get_open_point at h
    split at h
    · exact absurd h (by simp)
    · rename_i hdim
      split at h
      · rename_i hopen
        simp only [Option.some.injEq] at h
        subst h
        have hW : 0 < W := by omega
        have hH : 0 < H := by omega
        exact ⟨Nat.mod_lt _ hW, Nat.mod_lt _ hH, hopen⟩
      · exact ih _ r h

/-- The placement of the player on a layer other than the ground, in a world
that satisfies the invariant: the terrain entities and their flags are
untouched and the player is no terrain entity. -/
theorem player_place_frame (W H b0 : Nat) (mapCells : Nat → Nat → Bool) (L : List (Nat × Nat))
    (w w1 : World) (d : Position) (hinv : LevelInv b0 mapCells L w)
    (hlayer : d.layer ≠ LAYER_GROUND)
    (h : game_object_update_component W H w 0 COMP_POSITION (some d) = some w1) :
    (∀ j, Live w1 j ↔ Live w j) ∧
    (∀ j x y, j ≠ 0 → (IsTerrainAt w1 j x y ↔ IsTerrainAt w j x y)) ∧
    (∀ j b, j ≠ 0 → Live w j → HasFlags w j b → HasFlags w1 j b) ∧
    (∀ x y, ¬ IsTerrainAt w1 0 x y) ∧
    (∀ j, Live w1 j → j ≠ 0 → ∀ c p, (w1.gameObjects j).components c = some p → b0 ≤ p) ∧
    ∃ p, game_object_get_component w1 0 COMP_POSITION = some p ∧
      (w1.posHeap p).x = d.x ∧ (w1.posHeap p).y = d.y ∧ (w1.posHeap p).layer = d.layer ∧
      d.x < W ∧ d.y < H := by
  obtain ⟨_, _, hx, hy, ⟨p, hp, hpx, hpy, hpl, _⟩, _⟩ := update_position_some_spec W H w w1 0 d h
  have hframe : (∀ j, (w1.gameObjects j).id = (w.gameObjects j).id) ∧
      (∀ j c, j ≠ 0 → (w1.gameObjects j).components c = (w.gameObjects j).components c) ∧
      (∀ a, b0 ≤ a → a < w.brk → w1.posHeap a = w.posHeap a) ∧
      (∀ a, b0 ≤ a → a < w.brk → w1.physHeap a = w.physHeap a) := by
    cases hl : (w.gameObjects 0).components COMP_POSITION with
    | none =>
      obtain ⟨_, _, hoth, hid, _, _, hpos, hphys, _⟩ :=
        attach_fresh_frame W H w w1 0 COMP_POSITION d hl h
      refine ⟨?_, ?_, ?_, ?_⟩
      · intro j
        by_cases hj : j = 0
        · subst hj; exact hid
        · rw [hoth j hj]
      · intro j c hj; rw [hoth j hj]
      · intro a _ ha; exact hpos a (by omega)
      · intro a _ ha; exact hphys a (by omega)
    | some p0 =>
      obtain ⟨fid, flink, fheap, _, fphys, _, _, _⟩ :=
        update_position_existing_frame W H w w1 0 p0 d hl h
      have hp0 := hinv.player_alloc _ p0 hl
      refine ⟨fid, fun j c _ => flink j c, ?_, ?_⟩
      · intro a ha _
        rw [fheap]
        have : a ≠ p0 := by omega
        simp only [this, if_false]
      · intro a _ _; rw [fphys]
  obtain ⟨f1, f2, f3, f4⟩ := hframe
  have hlive : ∀ j, Live w1 j ↔ Live w j := by
    intro j; unfold Live; rw [f1 j]
  refine ⟨hlive, ?_, ?_, ?_, ?_, ⟨p, hp, hpx, hpy, hpl, hx, hy⟩⟩
  · intro j x y hj0
    unfold IsTerrainAt game_object_get_component
    rw [hlive j, f2 j _ hj0]
    constructor
    · rintro ⟨hl, q, hq, h1, h2, h3⟩
      obtain ⟨hq1, hq2⟩ := hinv.fresh j hl hj0 _ q hq
      rw [f3 q hq1 hq2] at h1 h2 h3
      exact ⟨hl, q, hq, h1, h2, h3⟩
    · rintro ⟨hl, q, hq, h1, h2, h3⟩
      obtain ⟨hq1, hq2⟩ := hinv.fresh j hl hj0 _ q hq
      refine ⟨hl, q, hq, ?_, ?_, ?_⟩
      · rw [f3 q hq1 hq2]; exact h1
      · rw [f3 q hq1 hq2]; exact h2
      · rw [f3 q hq1 hq2]; exact h3
  · rintro j b hj0 hl ⟨ph, hph, h1, h2⟩
    unfold HasFlags game_object_get_component at *
    obtain ⟨hq1, hq2⟩ := hinv.fresh j hl hj0 _ ph hph
    refine ⟨ph, by rw [f2 j _ hj0]; exact hph, ?_, ?_⟩
    · rw [f4 ph hq1 hq2]; exact h1
    · rw [f4 ph hq1 hq2]; exact h2
  · intro x y hT
    unfold IsTerrainAt game_object_get_component at hT
    obtain ⟨_, q, hq, _, _, hlay⟩ := hT
    rw [hp] at hq
    simp only [Option.some.injEq] at hq
    subst hq
    rw [hpl] at hlay
    exact hlayer hlay
  · intro j hl hj0 c q hq
    rw [f2 j c hj0] at hq
    exact (hinv.fresh j ((hlive j).1 hl) hj0 c q hq).1

theorem mem_terrainOrder (W H : Nat) (c : Nat × Nat) :
    c ∈ terrainOrder W H ↔ c.1 < W ∧ c.2 < H := by
  unfold terrainOrder
  obtain ⟨a, b⟩ := c
  simp [List.mem_product, List.mem_range]

theorem nodup_terrainOrder (W H : Nat) : (terrainOrder W H).Nodup := by
  unfold terrainOrder
  exact List.Nodup.product (List.nodup_range W) (List.nodup_range H)

/-! ## `level_init` returns -/

theorem goPositions_insert_total (W H : Nat) (w : World) (x y obj : Nat)
    (hx : x < W) (hy : y < H) :
    ∃ w1, goPositions_insert W H w x y obj = some w1 ∧
      ∀ a b, (w.goPositions a b).isSome = true → (w1.goPositions a b).isSome = true := by
  unfold goPositions_insert
  simp only [hx, hy, and_self, if_true]
  refine ⟨_, rfl, ?_⟩
  intro a b h
  dsimp only
  split
  · rfl
  · exact h

theorem goPositions_remove_total (W H : Nat) (w : World) (x y obj : Nat)
    (hx : x < W) (hy : y < H) (hs : (w.goPositions x y).isSome = true) :
    ∃ w1, goPositions_remove W H w x y obj = some w1 ∧
      ∀ a b, (w.goPositions a b).isSome = true → (w1.goPositions a b).isSome = true := by
  unfold goPositions_remove
  simp only [hx, hy, and_self, if_true]
  cases hc : w.goPositions x y with
  | none => rw [hc] at hs; exact absurd hs (by simp)
  | some ls =>
    refine ⟨_, rfl, ?_⟩
    intro a b h
    dsimp only
    split
    · rfl
    · exact h

/-- The attach of a Position on a cell of the map to a live entity that has
none returns. -/
theorem attach_position_total (W H : Nat) (w : World) (j : Nat) (d : Position)
    (hid : (w.gameObjects j).id ≠ UNUSED)
    (hl : (w.gameObjects j).components COMP_POSITION = none) (hx : d.x < W) (hy : d.y < H) :
    ∃ w1, game_object_update_component W H w j COMP_POSITION (some d) = some w1 ∧
      ∀ a b, (w.goPositions a b).isSome = true → (w1.goPositions a b).isSome = true := by
  unfold game_object_update_component
  simp only [hid, if_false, hl]
  exact (goPositions_insert_total W H _ d.x d.y j hx hy).imp fun w1 h =>
    ⟨h.1, fun a b hab => h.2 a b hab⟩

/-- The write of a component other than a Position to a live entity returns. -/
theorem attach_other_total (W H : Nat) (w : World) (j : Nat) (c : GameComponentType)
    (d : CompData c) (hc : c ≠ COMP_POSITION) (hid : (w.gameObjects j).id ≠ UNUSED) :
    ∃ w1, game_object_update_component W H w j c (some d) = some w1 ∧
      (w1.gameObjects j).id = (w.gameObjects j).id ∧
      ∀ a b, (w.goPositions a b).isSome = true → (w1.goPositions a b).isSome = true := by
  unfold game_object_update_component
  simp only [hid, if_false]
  cases c with
  | COMP_POSITION => exact absurd rfl hc
  | COMP_VISIBILITY =>
    refine ⟨_, rfl, ?_, ?_⟩
    · cases (w.gameObjects j).components COMP_VISIBILITY <;> simp [setLink]
    · intro a b h
      cases (w.gameObjects j).components COMP_VISIBILITY <;> simpa [setLink] using h
  | COMP_PHYSICAL =>
    refine ⟨_, rfl, ?_, ?_⟩
    · cases (w.gameObjects j).components COMP_PHYSICAL <;> simp [setLink]
    · intro a b h
      cases (w.gameObjects j).components COMP_PHYSICAL <;> simpa [setLink] using h
  | COMP_HEALTH =>
    refine ⟨_, rfl, ?_, ?_⟩
    · cases (w.gameObjects j).components COMP_HEALTH <;> simp [setLink]
    · intro a b h
      cases (w.gameObjects j).components COMP_HEALTH <;> simpa [setLink] using h
  | COMP_MOVEMENT =>
    refine ⟨_, rfl, ?_, ?_⟩
    · cases (w.gameObjects j).components COMP_MOVEMENT <;> simp [setLink]
    · intro a b h
      cases (w.gameObjects j).components COMP_MOVEMENT <;> simpa [setLink] using h
  | COMP_COMBAT =>
    refine ⟨_, rfl, ?_, ?_⟩
    · cases (w.gameObjects j).components COMP_COMBAT <;> simp [setLink]
    · intro a b h
      cases (w.gameObjects j).components COMP_COMBAT <;> simpa [setLink] using h

/-- A Position write on a cell of the map to a live entity whose Position, if
any, is indexed returns. -/
theorem update_position_total (W H : Nat) (w : World) (e : Nat) (d : Position)
    (hid : (w.gameObjects e).id ≠ UNUSED) (hidx : PositionIndexed W H w e)
    (hx : d.x < W) (hy : d.y < H) :
    ∃ w1, game_object_update_component W H w e COMP_POSITION (some d) = some w1 := by
  cases hl : (w.gameObjects e).components COMP_POSITION with
  | none =>
    obtain ⟨w1, h1, _⟩ := attach_position_total W H w e d hid hl hx hy
    exact ⟨w1, h1⟩
  | some p =>
    obtain ⟨hpx, hpy, hgo⟩ := hidx p hl
    obtain ⟨wr, hr, _⟩ := goPositions_remove_total W H w _ _ e hpx hpy hgo
    unfold game_object_update_component
    simp only [hid, if_false, hl, hr, Option.map_some']
    exact (goPositions_insert_total W H _ d.x d.y e hx hy).imp fun w1 h => h.1

theorem game_object_create_total (w : World) (n : Nat) (hn : n < MAX_GO)
    (hfree : (w.gameObjects n).id = UNUSED) :
    ∃ wc j, game_object_create w = some (wc, j) ∧ j ≤ n := by
  obtain ⟨j, hf, hjn⟩ :=
    findUnused_isSome_of_free w.gameObjects MAX_GO 0 n (Nat.zero_le _) (by omega) hfree
  unfold game_object_create
  rw [hf]
  exact ⟨_, j, rfl, hjn⟩

theorem Extends_refl (w : World) : Extends w w :=
  ⟨le_refl _, fun _ _ => rfl, fun _ _ => rfl, fun _ _ h => h⟩

theorem Extends_trans (w w1 w2 : World) (h1 : Extends w w1) (h2 : Extends w1 w2) :
    Extends w w2 := by
  obtain ⟨a1, a2, a3, a4⟩ := h1
  obtain ⟨b1, b2, b3, b4⟩ := h2
  refine ⟨by omega, ?_, ?_, fun x y h => b4 x y (a4 x y h)⟩
  · intro a ha
    rw [b2 a (by omega), a2 a ha]
  · intro i hi
    have e1 := a3 i hi
    rw [b3 i (by rw [e1]; exact hi), e1]

theorem PositionIndexed_extends (W H : Nat) (w w1 : World) (e : Nat)
    (hlive : (w.gameObjects e).id ≠ UNUSED)
    (halloc : ∀ p, (w.gameObjects e).components COMP_POSITION = some p → p < w.brk)
    (hext : Extends w w1) (h : PositionIndexed W H w e) : PositionIndexed W H w1 e := by
  obtain ⟨_, a2, a3, a4⟩ := hext
  intro p hp
  rw [a3 e hlive] at hp
  obtain ⟨h1, h2, h3⟩ := h p hp
  rw [a2 p (halloc p hp)]
  exact ⟨h1, h2, a4 _ _ h3⟩

/-- The slot that an addition takes is the first free one. -/
theorem Building_slot_le (w wc w1 : World) (j j1 n : Nat)
    (hc : game_object_create w = some (wc, j)) (hjn : j ≤ n)
    (hid : (w1.gameObjects j).id ≠ UNUSED) (hb : Building w w1 j1) : j1 ≤ n := by
  have hj : j1 = j := by
    by_contra hne
    obtain ⟨b0, _⟩ := Building_create w wc j hc
    apply hid
    rw [hb.2.2.2.1 j (Ne.symm hne)]
    exact b0.2.1
  omega

theorem Building_extends (w w1 : World) (j : Nat) (hb : Building w w1 j)
    (hgo : ∀ a b, (w.goPositions a b).isSome = true → (w1.goPositions a b).isSome = true) :
    Extends w w1 := by
  obtain ⟨_, b2, _, b4, b5, _, b7, _, _⟩ := hb
  refine ⟨b5, b7, ?_, hgo⟩
  intro i hi
  apply b4
  intro hij
  subst hij
  exact hi b2

theorem FreeFrom_building (w w1 : World) (j n : Nat) (hfree : FreeFrom w n)
    (hb : Building w w1 j) (hjn : j ≤ n) : FreeFrom w1 (n + 1) := by
  intro i h1 h2
  rw [hb.2.2.2.1 i (by omega)]
  exact hfree i (by omega) h2

theorem game_object_create_goPositions (w wc : World) (j : Nat)
    (hc : game_object_create w = some (wc, j)) :
    wc.goPositions = w.goPositions ∧ (wc.gameObjects j).id ≠ UNUSED := by
  obtain ⟨_, hw⟩ := game_object_create_eq w wc j hc
  subst hw
  refine ⟨rfl, ?_⟩
  simp only [if_true]
  unfold UNUSED
  omega

/-- With a free slot and a cell of the map, `floor_add` returns; the slot it
takes is not after the free one. -/
theorem floor_add_total (W H : Nat) (w : World) (n x y : Nat) (hn : n < MAX_GO)
    (hfree : (w.gameObjects n).id = UNUSED) (hx : x < W) (hy : y < H) :
    ∃ w1 j, floor_add W H w x y = some w1 ∧ j ≤ n ∧
      Adds w w1 j x y LAYER_GROUND false false ∧ Extends w w1 := by
  obtain ⟨wc, j, hc, hjn⟩ := game_object_create_total w n hn hfree
  obtain ⟨g0, hid0⟩ := game_object_create_goPositions w wc j hc
  obtain ⟨_, hnone⟩ := Building_create w wc j hc
  obtain ⟨w1, h1, g1⟩ := attach_position_total W H wc j
    ⟨(wc.gameObjects j).id, x, y, LAYER_GROUND⟩ hid0 (hnone _) hx hy
  have i1 := (update_position_some_spec W H wc w1 j _ h1).2.1
  obtain ⟨w2, h2, i2, g2⟩ := attach_other_total W H w1 j COMP_VISIBILITY
    ⟨(w1.gameObjects j).id, 46, 0x3e3c3cFF, 0, false, true⟩ (by decide) (by rw [i1]; exact hid0)
  obtain ⟨w3, h3, i3, g3⟩ := attach_other_total W H w2 j COMP_PHYSICAL
    ⟨(w2.gameObjects j).id, false, false⟩ (by decide) (by rw [i2, i1]; exact hid0)
  have hfin : floor_add W H w x y = some w3 := by
    unfold floor_add
    simp only [hc, Option.some_bind, h1, h2, h3]
  obtain ⟨j1, hadd, _, _⟩ := floor_add_adds W H w w3 x y hfin
  have hgo : ∀ a b, (w.goPositions a b).isSome = true → (w3.goPositions a b).isSome = true := by
    intro a b h
    exact g3 a b (g2 a b (g1 a b (by rw [g0]; exact h)))
  have hj1 : j1 = j := by
    by_contra hne
    have hlive : (w3.gameObjects j).id ≠ UNUSED := by rw [i3, i2, i1]; exact hid0
    apply hlive
    rw [hadd.1.2.2.2.1 j (Ne.symm hne)]
    exact (Building_create w wc j hc).1.2.1
  subst hj1
  exact ⟨w3, j1, hfin, hjn, hadd, Building_extends w w3 j1 hadd.1 hgo⟩

/-- With a free slot and a cell of the map, `wall_add` returns; the slot it
takes is not after the free one. -/
theorem wall_add_total (W H : Nat) (w : World) (n x y : Nat) (hn : n < MAX_GO)
    (hfree : (w.gameObjects n).id = UNUSED) (hx : x < W) (hy : y < H) :
    ∃ w1 j, wall_add W H w x y = some w1 ∧ j ≤ n ∧
      Adds w w1 j x y LAYER_GROUND true true ∧ Extends w w1 := by
  obtain ⟨wc, j, hc, hjn⟩ := game_object_create_total w n hn hfree
  obtain ⟨g0, hid0⟩ := game_object_create_goPositions w wc j hc
  obtain ⟨_, hnone⟩ := Building_create w wc j hc
  obtain ⟨w1, h1, g1⟩ := attach_position_total W H wc j
    ⟨(wc.gameObjects j).id, x, y, LAYER_GROUND⟩ hid0 (hnone _) hx hy
  have i1 := (update_position_some_spec W H wc w1 j _ h1).2.1
  obtain ⟨w2, h2, i2, g2⟩ := attach_other_total W H w1 j COMP_VISIBILITY
    ⟨(w1.gameObjects j).id, 35, 0x675644FF, 0, false, true⟩ (by decide) (by rw [i1]; exact hid0)
  obtain ⟨w3, h3, i3, g3⟩ := attach_other_total W H w2 j COMP_PHYSICAL
    ⟨(w2.gameObjects j).id, true, true⟩ (by decide) (by rw [i2, i1]; exact hid0)
  have hfin : wall_add W H w x y = some w3 := by
    unfold wall_add
    simp only [hc, Option.some_bind, h1, h2, h3]
  obtain ⟨j1, hadd, _, _⟩ := wall_add_adds W H w w3 x y hfin
  have hgo : ∀ a b, (w.goPositions a b).isSome = true → (w3.goPositions a b).isSome = true := by
    intro a b h
    exact g3 a b (g2 a b (g1 a b (by rw [g0]; exact h)))
  have hj1 : j1 = j := by
    by_contra hne
    have hlive : (w3.gameObjects j).id ≠ UNUSED := by rw [i3, i2, i1]; exact hid0
    apply hlive
    rw [hadd.1.2.2.2.1 j (Ne.symm hne)]
    exact (Building_create w wc j hc).1.2.1
  subst hj1
  exact ⟨w3, j1, hfin, hjn, hadd, Building_extends w w3 j1 hadd.1 hgo⟩

/-- With a free slot and a cell of the map, `npc_add` returns; the slot it
takes is not after the free one. -/
theorem npc_add_total (W H : Nat) (w : World) (n x y layer : Nat) (t : NpcTemplate)
    (hn : n < MAX_GO) (hfree : (w.gameObjects n).id = UNUSED) (hx : x < W) (hy : y < H) :
    ∃ w1 j, npc_add W H w x y layer t = some w1 ∧ j ≤ n ∧
      Adds w w1 j x y layer true false ∧ Extends w w1 := by
  obtain ⟨wc, j, hc, hjn⟩ := game_object_create_total w n hn hfree
  obtain ⟨g0, hid0⟩ := game_object_create_goPositions w wc j hc
  obtain ⟨_, hnone⟩ := Building_create w wc j hc
  obtain ⟨w1, h1, g1⟩ := attach_position_total W H wc j
    ⟨(wc.gameObjects j).id, x, y, layer⟩ hid0 (hnone _) hx hy
  have i1 := (update_position_some_spec W H wc w1 j _ h1).2.1
  obtain ⟨w2, h2, i2, g2⟩ := attach_other_total W H w1 j COMP_VISIBILITY
    ⟨(w1.gameObjects j).id, t.glyph, t.fgColor, 0, false, false⟩ (by decide)
    (by rw [i1]; exact hid0)
  obtain ⟨w3, h3, i3, g3⟩ := attach_other_total W H w2 j COMP_PHYSICAL
    ⟨(w2.gameObjects j).id, true, false⟩ (by decide) (by rw [i2, i1]; exact hid0)
  obtain ⟨w4, h4, i4, g4⟩ := attach_other_total W H w3 j COMP_MOVEMENT
    ⟨(w3.gameObjects j).id, wrap32 t.speed, wrap32 t.frequency, wrap32 t.frequency,
      (0, 0), false, false, 0⟩ (by decide) (by rw [i3, i2, i1]; exact hid0)
  obtain ⟨w5, h5, i5, g5⟩ := attach_other_total W H w4 j COMP_HEALTH
    ⟨(w4.gameObjects j).id, t.maxHP, t.maxHP, t.hpRecRate, 0⟩ (by decide)
    (by rw [i4, i3, i2, i1]; exact hid0)
  obtain ⟨w6, h6, i6, g6⟩ := attach_other_total W H w5 j COMP_COMBAT
    ⟨(w5.gameObjects j).id, t.attack, 0, t.defense, 0, 0⟩ (by decide)
    (by rw [i5, i4, i3, i2, i1]; exact hid0)
  have hfin : npc_add W H w x y layer t = some w6 := by
    unfold npc_add
    simp only [hc, Option.some_bind, h1, h2, h3, h4, h5, h6]
  obtain ⟨j1, hadd, _, _⟩ := npc_add_adds W H w w6 x y layer t hfin
  have hgo : ∀ a b, (w.goPositions a b).isSome = true → (w6.goPositions a b).isSome = true := by
    intro a b h
    exact g6 a b (g5 a b (g4 a b (g3 a b (g2 a b (g1 a b (by rw [g0]; exact h))))))
  have hj1 : j1 = j := by
    by_contra hne
    have hlive : (w6.gameObjects j).id ≠ UNUSED := by rw [i6, i5, i4, i3, i2, i1]; exact hid0
    apply hlive
    rw [hadd.1.2.2.2.1 j (Ne.symm hne)]
    exact (Building_create w wc j hc).1.2.1
  subst hj1
  exact ⟨w6, j1, hfin, hjn, hadd, Building_extends w w6 j1 hadd.1 hgo⟩

theorem level_get_open_point_total (W H : Nat) (rand : Nat → Nat)
    (mapCells : Nat → Nat → Bool) (hW : 0 < W) (hH : 0 < H) :
    ∀ (fuel k : Nat),
      (∃ m, m < fuel ∧ mapCells (rand (k + 2 * m) % W) (rand (k + 2 * m + 1) % H) = false) →
      ∃ r, level_get_open_point W H rand mapCells fuel k = some r := by
  intro fuel
  induction fuel with
  | zero => rintro k ⟨m, hm, _⟩; omega
  | succ fuel ih =>
    rintro k ⟨m, hm, hopen⟩
    unfold level_get_open_point
    have hdim : ¬ (W = 0 ∨ H = 0) := by omega
    simp only [hdim, if_false]
    by_cases hnow : mapCells (rand k % W) (rand (k + 1) % H) = false
    · simp only [hnow, if_true]
      exact ⟨_, rfl⟩
    · simp only [hnow, if_false]
      apply ih
      cases m with
      | zero => exact absurd hopen hnow
      | succ m =>
        refine ⟨m, by omega, ?_⟩
        have e1 : k + 2 + 2 * m = k + 2 * (m + 1) := by ring
        rw [e1]
        exact hopen

/-- The terrain loops return when the pool has a free slot for each cell. -/
theorem level_terrain_total (W H : Nat) (mapCells : Nat → Nat → Bool) :
    ∀ (cs : List (Nat × Nat)) (w : World) (n : Nat), FreeFrom w n →
      n + cs.length ≤ MAX_GO →
      (∀ c ∈ cs, (c.1 < W ∧ c.2 < H) ∧ c.1 < 256 ∧ c.2 < 256) →
      ∃ w1, level_terrain W H mapCells cs w = some w1 ∧ FreeFrom w1 (n + cs.length) ∧
        Extends w w1 := by
  intro cs
  induction cs with
  | nil =>
    intro w n hfree _ _
    exact ⟨w, rfl, hfree, Extends_refl w⟩
  | cons c cs ih =>
    intro w n hfree hlen hcells
    simp only [List.length_cons] at hlen
    obtain ⟨⟨hx, hy⟩, hx2, hy2⟩ := hcells c (List.mem_cons_self _ _)
    have hn : n < MAX_GO := by omega
    have hstep : ∃ wa j, (if mapCells c.1 c.2 = true then wall_add W H w (c.1 % 256) (c.2 % 256)
        else floor_add W H w (c.1 % 256) (c.2 % 256)) = some wa ∧ j ≤ n ∧ Building w wa j ∧
        Extends w wa := by
      rw [Nat.mod_eq_of_lt hx2, Nat.mod_eq_of_lt hy2]
      by_cases hm : mapCells c.1 c.2 = true
      · rw [if_pos hm]
        obtain ⟨wa, j, h1, h2, h3, h4⟩ :=
          wall_add_total W H w n c.1 c.2 hn (hfree n (le_refl _) hn) hx hy
        exact ⟨wa, j, h1, h2, h3.1, h4⟩
      · rw [if_neg hm]
        obtain ⟨wa, j, h1, h2, h3, h4⟩ :=
          floor_add_total W H w n c.1 c.2 hn (hfree n (le_refl _) hn) hx hy
        exact ⟨wa, j, h1, h2, h3.1, h4⟩
    obtain ⟨wa, j, ha, hjn, hb, hext⟩ := hstep
    obtain ⟨w1, h1, hf1, he1⟩ := ih wa (n + 1) (FreeFrom_building w wa j n hfree hb hjn)
      (by omega) (fun c1 hc1 => hcells c1 (List.mem_cons_of_mem _ hc1))
    refine ⟨w1, ?_, ?_, Extends_trans w wa w1 hext he1⟩
    · simp only [level_terrain, ha, Option.some_bind]
      exact h1
    · have e : n + (cs.length + 1) = n + 1 + cs.length := by omega
      simp only [List.length_cons]
      rw [e]
      exact hf1

/-- The monster loop returns when the pool has a free slot for each monster,
the configuration has a template for every type that `monster_for_level`
can return, and the stream of `rand()` reaches an open cell within `fuel`
rounds from any point on. -/
theorem level_monsters_total (W H : Nat) (rand : Nat → Nat) (mapCells : Nat → Nat → Bool)
    (prob : Nat → Nat → Int) (templates : Int → Option NpcTemplate) (fuel : Nat) (lvl : Int)
    (hW : 0 < W ∧ W ≤ 256) (hH : 0 < H ∧ H ≤ 256)
    (hlvl : 1 ≤ lvl ∧ lvl ≤ (MAX_DUNGEON_LEVEL : Int))
    (htmpl : ∀ r id, monster_for_level prob lvl r = some id → (templates id).isSome = true)
    (hrand : ∀ k, ∃ m, m < fuel ∧
      mapCells (rand (k + 2 * m) % W) (rand (k + 2 * m + 1) % H) = false) :
    ∀ (m : Nat) (st : World × Nat) (n : Nat), FreeFrom st.1 n → n + m ≤ MAX_GO →
      ∃ st1, level_monsters W H rand mapCells prob templates fuel lvl m st = some st1 ∧
        FreeFrom st1.1 (n + m) ∧ Extends st.1 st1.1 := by
  intro m
  induction m with
  | zero =>
    intro st n hfree _
    exact ⟨st, rfl, hfree, Extends_refl _⟩
  | succ m ih =>
    intro st n hfree hlen
    have hn : n < MAX_GO := by omega
    have hmon : ∃ id, monster_for_level prob lvl (rand st.2) = some id := by
      unfold monster_for_level
      rw [if_pos hlvl]
      exact ⟨_, rfl⟩
    obtain ⟨id, hid⟩ := hmon
    obtain ⟨⟨pt, k1⟩, hpt⟩ :=
      level_get_open_point_total W H rand mapCells hW.1 hH.1 fuel (st.2 + 1) (hrand _)
    obtain ⟨hptx, hpty, _⟩ := level_get_open_point_spec W H rand mapCells fuel _ _ hpt
    have ht := htmpl _ _ hid
    cases htt : templates id with
    | none => rw [htt] at ht; exact absurd ht (by simp)
    | some t =>
      have hx : pt.1 % 256 < W := by
        rw [Nat.mod_eq_of_lt (by simp only at hptx; omega)]; exact hptx
      have hy : pt.2 % 256 < H := by
        rw [Nat.mod_eq_of_lt (by simp only at hpty; omega)]; exact hpty
      obtain ⟨wa, j, ha, hjn, hadd, hext⟩ := npc_add_total W H st.1 n (pt.1 % 256) (pt.2 % 256)
        LAYER_TOP t hn (hfree n (le_refl _) hn) hx hy
      obtain ⟨st1, h1, hf1, he1⟩ := ih (wa, k1) (n + 1)
        (FreeFrom_building st.1 wa j n hfree hadd.1 hjn) (by omega)
      refine ⟨st1, ?_, ?_, Extends_trans _ _ _ hext he1⟩
      · unfold level_monsters
        simp only [hid, hpt, htt, ha, Option.some_bind]
        exact h1
      · have e : n + (m + 1) = n + 1 + m := by omega
        rw [e]
        exact hf1

theorem level_clear_loop_heaps (player : Nat) :
    ∀ (n : Nat) (w : World),
      (level_clear_loop player n w).posHeap = w.posHeap ∧
      (level_clear_loop player n w).goPositions = w.goPositions := by
  intro n
  induction n with
  | zero => intro w; exact ⟨rfl, rfl⟩
  | succ n ih =>
    intro w
    unfold level_clear_loop
    split
    · obtain ⟨h1, h2⟩ := ih (game_object_destroy w (MAX_GO - (n + 1)))
      exact ⟨h1, h2⟩
    · exact ih w

/-- C20 (amended): let the player be the live entity of slot 0, in a world
where the slot of every live entity is its id, the components of the player
are allocated and its Position, if it has one, is indexed in `goPositions`.
Let the map be at most 256 by 256 and not empty, the level be one of
`1, ..., MAX_DUNGEON_LEVEL`, the pool have a slot for the player, every cell
and every monster of the level, the configuration have a template for every
monster type that `monster_for_level` can return, and the stream of `rand()`
reach an open cell within `fuel` rounds from any point on. Then `level_init`
returns, and in the world it leaves: every cell of the map has exactly one
live entity with a Position on it on `LAYER_GROUND`, whose two Physical flags
are the cell's entry in the wall grid; the first loop has freed every slot
but the player's, and every live entity other than the player has only
components allocated during the call; the player is still the entity of slot
0 and its Position is on `LAYER_TOP`, on a cell of the map that is no wall. -/
theorem level_init_spec (MAP_WIDTH MAP_HEIGHT : Nat) (rand : Nat → Nat)
    (mapCells : Nat → Nat → Bool) (monsterProbability : Nat → Nat → Int)
    (maxMonsters : Nat → Int) (templates : Int → Option NpcTemplate) (fuel : Nat)
    (w : World) (k : Nat) (levelToGenerate : Int)
    (hW : 0 < MAP_WIDTH ∧ MAP_WIDTH ≤ 256) (hH : 0 < MAP_HEIGHT ∧ MAP_HEIGHT ≤ 256)
    (hco : SlotIdCoincide w) (hpl : (w.gameObjects 0).id ≠ UNUSED)
    (halloc : ∀ c p, (w.gameObjects 0).components c = some p → p < w.brk)
    (hidx : PositionIndexed MAP_WIDTH MAP_HEIGHT w 0)
    (hlvl : 1 ≤ levelToGenerate ∧ levelToGenerate ≤ (MAX_DUNGEON_LEVEL : Int))
    (hslots : 1 + MAP_WIDTH * MAP_HEIGHT + (maxMonsters (levelToGenerate - 1).toNat).toNat
      ≤ MAX_GO)
    (htmpl : ∀ r id, monster_for_level monsterProbability levelToGenerate r = some id →
      (templates id).isSome = true)
    (hrand : ∀ k1, ∃ m, m < fuel ∧
      mapCells (rand (k1 + 2 * m) % MAP_WIDTH) (rand (k1 + 2 * m + 1) % MAP_HEIGHT) = false) :
    ∃ w1 dl k1,
      level_init MAP_WIDTH MAP_HEIGHT rand mapCells monsterProbability maxMonsters templates
        fuel w k levelToGenerate 0 = some (w1, dl, k1) ∧
      (∀ x y, x < MAP_WIDTH → y < MAP_HEIGHT →
        ∃ j, IsTerrainAt w1 j x y ∧ HasFlags w1 j (mapCells x y) ∧
          ∀ j1, IsTerrainAt w1 j1 x y → j1 = j) ∧
      (∀ i, 1 ≤ i → i < MAX_GO → ((level_clear w 0).gameObjects i).id = UNUSED) ∧
      (∀ j, Live w1 j → j ≠ 0 → ∀ c p, (w1.gameObjects j).components c = some p → w.brk ≤ p) ∧
      (w1.gameObjects 0).id = (w.gameObjects 0).id ∧
      ∃ p, game_object_get_component w1 0 COMP_POSITION = some p ∧
        (w1.posHeap p).layer = LAYER_TOP ∧
        (w1.posHeap p).x < MAP_WIDTH ∧ (w1.posHeap p).y < MAP_HEIGHT ∧
        mapCells (w1.posHeap p).x (w1.posHeap p).y = false := by
  obtain ⟨hinv0, hgone⟩ := LevelInv_level_clear mapCells w hco hpl halloc
  obtain ⟨_, _, hsame0, _⟩ := level_clear_loop_spec 0 (MAX_GO - 1) w (by decide)
  obtain ⟨hph0, hgo0⟩ := level_clear_loop_heaps 0 (MAX_GO - 1) w
  have e0 : (level_clear w 0).gameObjects 0 = w.gameObjects 0 := hsame0 0 (by decide)
  have hph1 : (level_clear w 0).posHeap = w.posHeap := hph0
  have hgo1 : (level_clear w 0).goPositions = w.goPositions := hgo0
  have hidx0 : PositionIndexed MAP_WIDTH MAP_HEIGHT (level_clear w 0) 0 := by
    intro p hp
    rw [e0] at hp
    rw [hph1, hgo1]
    exact hidx p hp
  have hcells : ∀ c ∈ terrainOrder MAP_WIDTH MAP_HEIGHT,
      (c.1 < MAP_WIDTH ∧ c.2 < MAP_HEIGHT) ∧ c.1 < 256 ∧ c.2 < 256 := by
    intro c hc
    have := (mem_terrainOrder MAP_WIDTH MAP_HEIGHT c).1 hc
    omega
  have hlen : (terrainOrder MAP_WIDTH MAP_HEIGHT).length = MAP_WIDTH * MAP_HEIGHT := by
    unfold terrainOrder
    exact (List.length_product _ _).trans (by rw [List.length_range, List.length_range])
  obtain ⟨w2, ht, hfree2, hext2⟩ := level_terrain_total MAP_WIDTH MAP_HEIGHT mapCells
    (terrainOrder MAP_WIDTH MAP_HEIGHT) (level_clear w 0) 1 (fun i h1 h2 => hgone i h1 h2)
    (by rw [hlen]; omega) hcells
  obtain ⟨L1, hinv2, hL1⟩ := level_terrain_inv MAP_WIDTH MAP_HEIGHT w.brk mapCells
    (terrainOrder MAP_WIDTH MAP_HEIGHT) [] (level_clear w 0) w2
    (nodup_terrainOrder MAP_WIDTH MAP_HEIGHT) (by simp) (fun c hc => (hcells c hc).2) hinv0 ht
  obtain ⟨st3, hm, _, hext3⟩ := level_monsters_total MAP_WIDTH MAP_HEIGHT rand mapCells
    monsterProbability templates fuel levelToGenerate hW hH hlvl htmpl hrand
    (maxMonsters (levelToGenerate - 1).toNat).toNat (w2, k)
    (1 + (terrainOrder MAP_WIDTH MAP_HEIGHT).length) hfree2 (by rw [hlen]; omega)
  have hinv3 := level_monsters_inv MAP_WIDTH MAP_HEIGHT w.brk rand mapCells monsterProbability
    templates fuel levelToGenerate L1 _ (w2, k) st3 hinv2 hm
  obtain ⟨r, hr⟩ := level_get_open_point_total MAP_WIDTH MAP_HEIGHT rand mapCells hW.1 hH.1
    fuel st3.2 (hrand _)
  obtain ⟨hrx, hry, hropen⟩ :=
    level_get_open_point_spec MAP_WIDTH MAP_HEIGHT rand mapCells fuel _ _ hr
  have hext : Extends (level_clear w 0) st3.1 := Extends_trans _ _ _ hext2 hext3
  have hidx3 : PositionIndexed MAP_WIDTH MAP_HEIGHT st3.1 0 :=
    PositionIndexed_extends MAP_WIDTH MAP_HEIGHT _ _ 0 hinv0.player_live
      (fun p hp => lt_of_lt_of_le (hinv0.player_alloc _ p hp) hinv0.brk_le) hext hidx0
  have hmx : r.1.1 % 256 = r.1.1 := Nat.mod_eq_of_lt (by omega)
  have hmy : r.1.2 % 256 = r.1.2 := Nat.mod_eq_of_lt (by omega)
  obtain ⟨w4, h4⟩ := update_position_total MAP_WIDTH MAP_HEIGHT st3.1 0
    ⟨(st3.1.gameObjects 0).id, r.1.1 % 256, r.1.2 % 256, LAYER_TOP⟩ hinv3.player_live hidx3
    (by rw [hmx]; exact hrx) (by rw [hmy]; exact hry)
  obtain ⟨_, f2, f3, f4, f5, p, hp, hpx, hpy, hpl, _, _⟩ :=
    player_place_frame MAP_WIDTH MAP_HEIGHT w.brk mapCells L1 st3.1 w4
      ⟨(st3.1.gameObjects 0).id, r.1.1 % 256, r.1.2 % 256, LAYER_TOP⟩ hinv3
      (show LAYER_TOP ≠ LAYER_GROUND by decide) h4
  have hid4 := (update_position_some_spec MAP_WIDTH MAP_HEIGHT st3.1 w4 0 _ h4).2.1
  refine ⟨w4, { level := levelToGenerate, mapWalls := fun x y => mapCells x.toNat y.toNat },
    r.2, ?_, ?_, hgone, f5, ?_, p, hp, hpl, ?_, ?_, ?_⟩
  · unfold level_init level_populate
    simp only [ht, Option.some_bind]
    rw [if_pos hlvl]
    simp only [hm, Option.some_bind, hr, h4]
  · intro x y hx hy
    have hmem : (x, y) ∈ L1 :=
      (hL1 (x, y)).2 (Or.inl ((mem_terrainOrder MAP_WIDTH MAP_HEIGHT (x, y)).2 ⟨hx, hy⟩))
    obtain ⟨j, hj0, hjt, hjf⟩ := hinv3.terrain x y hmem
    refine ⟨j, (f2 j x y hj0).2 hjt, f3 j _ hj0 hjt.1 hjf, ?_⟩
    intro j1 hj1
    have hj10 : j1 ≠ 0 := by
      intro h0
      subst h0
      exact f4 x y hj1
    exact hinv3.uniq j1 j x y hj10 hj0 ((f2 j1 x y hj10).1 hj1) hjt
  · rw [hid4, hext.2.2.1 0 hinv0.player_live, e0]
  · rw [hpx]
    simp only
    rw [hmx]
    exact hrx
  · rw [hpy]
    simp only
    rw [hmy]
    exact hry
  · rw [hpx, hpy]
    simp only
    rw [hmx, hmy]
    exact hropen

theorem world_player_in_slot_one_live (i : Nat)
    (h : (world_player_in_slot_one.gameObjects i).id ≠ UNUSED) : i = 0 ∨ i = 1 := by
  have key : ∃ w, scenario_player_in_slot_one = some w ∧
      ∀ i, (w.gameObjects i).id ≠ UNUSED → i = 0 ∨ i = 1 := by
    refine ⟨_, rfl, ?_⟩
    intro i h
    by_contra hne
    push_neg at hne
    apply h
    simp [setLink, hne.1, hne.2, world_state_init]
  obtain ⟨w, hw, hp⟩ := key
  have hww : world_player_in_slot_one = w := by
    unfold world_player_in_slot_one
    rw [hw]
    rfl
  rw [hww] at h
  exact hp i h

theorem world_player_in_slot_one_clear :
    level_clear world_player_in_slot_one 1 = world_player_in_slot_one := by
  unfold level_clear
  apply level_clear_loop_noop 1 (MAX_GO - 1) world_player_in_slot_one (by decide)
  intro i h1 _
  by_cases hu : (world_player_in_slot_one.gameObjects i).id = UNUSED
  · exact Or.inr hu
  · rcases world_player_in_slot_one_live i hu with rfl | rfl
    · omega
    · exact Or.inl rfl

theorem world_player_in_slot_zero_live (i : Nat)
    (h : (world_player_in_slot_zero.gameObjects i).id ≠ UNUSED) : i = 0 ∨ i = 1 := by
  have key : ∃ w, scenario_player_in_slot_zero = some w ∧
      ∀ i, (w.gameObjects i).id ≠ UNUSED → i = 0 ∨ i = 1 := by
    refine ⟨_, rfl, ?_⟩
    intro i h
    by_contra hne
    push_neg at hne
    apply h
    simp [setLink, hne.1, hne.2, world_state_init]
  obtain ⟨w, hw, hp⟩ := key
  have hww : world_player_in_slot_zero = w := by
    unfold world_player_in_slot_zero
    rw [hw]
    rfl
  rw [hww] at h
  exact hp i h

theorem world_player_in_slot_zero_coincide : SlotIdCoincide world_player_in_slot_zero := by
  intro i hl
  rcases world_player_in_slot_zero_live i hl.2 with rfl | rfl
  · decide
  · decide

theorem world_player_in_slot_zero_alloc (c : GameComponentType) (p : Nat)
    (hp : (world_player_in_slot_zero.gameObjects 0).components c = some p) :
    p < world_player_in_slot_zero.brk := by
  have h0 : (world_player_in_slot_zero.gameObjects 0).components COMP_POSITION = some 0 := by
    decide
  cases c with
  | COMP_POSITION =>
    rw [h0] at hp
    simp only [Option.some.injEq] at hp
    subst hp
    decide
  | COMP_VISIBILITY =>
    have h1 : (world_player_in_slot_zero.gameObjects 0).components COMP_VISIBILITY = none := by
      decide
    rw [h1] at hp
    exact absurd hp (by simp)
  | COMP_PHYSICAL =>
    have h1 : (world_player_in_slot_zero.gameObjects 0).components COMP_PHYSICAL = none := by
      decide
    rw [h1] at hp
    exact absurd hp (by simp)
  | COMP_HEALTH =>
    have h1 : (world_player_in_slot_zero.gameObjects 0).components COMP_HEALTH = none := by
      decide
    rw [h1] at hp
    exact absurd hp (by simp)
  | COMP_MOVEMENT =>
    have h1 : (world_player_in_slot_zero.gameObjects 0).components COMP_MOVEMENT = none := by
      decide
    rw [h1] at hp
    exact absurd hp (by simp)
  | COMP_COMBAT =>
    have h1 : (world_player_in_slot_zero.gameObjects 0).components COMP_COMBAT = none := by
      decide
    rw [h1] at hp
    exact absurd hp (by simp)

theorem world_player_in_slot_zero_indexed : PositionIndexed 2 2 world_player_in_slot_zero 0 := by
  intro p hp
  have h0 : (world_player_in_slot_zero.gameObjects 0).components COMP_POSITION = some 0 := by
    decide
  rw [h0] at hp
  simp only [Option.some.injEq] at hp
  subst hp
  exact ⟨by decide, by decide, by decide⟩

/-- Witness for C20: `world_player_in_slot_zero`, built through the component
interface, has the player in slot 0 with a Position at `(1, 1)` and a floor
entity of an earlier level in slot 1. For a 2 x 2 map without walls, level 1
with one monster, and a `rand()` that always returns 0, `level_init` returns
and the world it leaves is as the statement says. -/
theorem level_init_spec_witness :
    scenario_player_in_slot_zero = some world_player_in_slot_zero ∧
    Live world_player_in_slot_zero 1 ∧
    ∃ w1 dl k1,
      level_init 2 2 randZero openCells probForty (fun _ => 1) sampleTemplate 8
        world_player_in_slot_zero 0 1 0 = some (w1, dl, k1) ∧
      (∀ x y, x < 2 → y < 2 →
        ∃ j, IsTerrainAt w1 j x y ∧ HasFlags w1 j (openCells x y) ∧
          ∀ j1, IsTerrainAt w1 j1 x y → j1 = j) ∧
      (∀ i, 1 ≤ i → i < MAX_GO →
        ((level_clear world_player_in_slot_zero 0).gameObjects i).id = UNUSED) ∧
      (∀ j, Live w1 j → j ≠ 0 → ∀ c p, (w1.gameObjects j).components c = some p →
        world_player_in_slot_zero.brk ≤ p) ∧
      (w1.gameObjects 0).id = (world_player_in_slot_zero.gameObjects 0).id ∧
      ∃ p, game_object_get_component w1 0 COMP_POSITION = some p ∧
        (w1.posHeap p).layer = LAYER_TOP ∧ (w1.posHeap p).x < 2 ∧ (w1.posHeap p).y < 2 ∧
        openCells (w1.posHeap p).x (w1.posHeap p).y = false :=
  ⟨rfl, ⟨by decide, by decide⟩,
    level_init_spec 2 2 randZero openCells probForty (fun _ => 1) sampleTemplate 8
      world_player_in_slot_zero 0 1 (by decide) (by decide) world_player_in_slot_zero_coincide
      (by decide) world_player_in_slot_zero_alloc world_player_in_slot_zero_indexed
      (by decide) (by decide) (fun _ _ _ => rfl) (fun _ => ⟨0, by decide, rfl⟩)⟩

/-- C20 (counterexample): in `world_player_in_slot_one`, built through the
component interface, slot 0 holds a floor entity at `(0, 0)` and slot 1 the
player. The first loop of `level_init` starts at index 1 and leaves slot 0
alone: after `level_init` for a 2 x 2 map without walls the entity of slot 0,
which is not the player, is still live with its Position, and the cell
`(0, 0)` has two live entities on `LAYER_GROUND`, those of slots 0 and 2. -/
theorem level_init_keeps_entity_of_slot_zero :
    scenario_player_in_slot_one = some world_player_in_slot_one ∧
    world_player_in_slot_one.player = some 1 ∧
    Live world_player_in_slot_one 1 ∧ Live world_player_in_slot_one 0 ∧
    (world_player_in_slot_one.gameObjects 0).id ≠ (world_player_in_slot_one.gameObjects 1).id ∧
    FreeFrom world_player_in_slot_one 2 ∧
    level_init 2 2 randZero openCells probForty (fun _ => 0) (fun _ => none) 8
      world_player_in_slot_one 0 1 1 =
      some (world_player_in_slot_one_after,
        { level := 1, mapWalls := fun x y => openCells x.toNat y.toNat }, 2) ∧
    Live world_player_in_slot_one_after 0 ∧
    world_player_in_slot_one_after.gameObjects 0 = world_player_in_slot_one.gameObjects 0 ∧
    IsTerrainAt world_player_in_slot_one_after 0 0 0 ∧
    IsTerrainAt world_player_in_slot_one_after 2 0 0 ∧
    ¬ (∀ x y, x < 2 → y < 2 → ∃ j, IsTerrainAt world_player_in_slot_one_after j x y ∧
        ∀ j1, IsTerrainAt world_player_in_slot_one_after j1 x y → j1 = j) := by
  have hfree : FreeFrom world_player_in_slot_one 2 := by
    intro i h1 _
    by_contra hu
    rcases world_player_in_slot_one_live i hu with rfl | rfl <;> omega
  have hrun : level_init 2 2 randZero openCells probForty (fun _ => 0) (fun _ => none) 8
      world_player_in_slot_one 0 1 1 =
      some (world_player_in_slot_one_after,
        { level := 1, mapWalls := fun x y => openCells x.toNat y.toNat }, 2) := by
    unfold level_init
    rw [world_player_in_slot_one_clear]
    rfl
  have ht0 : IsTerrainAt world_player_in_slot_one_after 0 0 0 :=
    ⟨⟨by decide, by decide⟩, 0, by decide, by decide, by decide, by decide⟩
  have ht2 : IsTerrainAt world_player_in_slot_one_after 2 0 0 :=
    ⟨⟨by decide, by decide⟩, 4, by decide, by decide, by decide, by decide⟩
  refine ⟨rfl, rfl, ⟨by decide, by decide⟩, ⟨by decide, by decide⟩, by decide, hfree, hrun,
    ⟨by decide, by decide⟩, rfl, ht0, ht2, ?_⟩
  intro hall
  obtain ⟨j, _, hj⟩ := hall 0 0 (by decide) (by decide)
  have h0 := hj 0 ht0
  have h2 := hj 2 ht2
  omega

/-! ## `can_move` -/

/-- On a list of Positions each of which belongs to an entity with a
Physical, the loop of `can_move` returns, and when it returns false one of
the Positions is on the cell of `pos` and its owner blocks movement. -/
theorem can_move_loop_total (w : World) (pos : Position) :
    ∀ (l : List Nat),
      (∀ p, p ∈ l → ∃ o, gameObjectAt (w.posHeap p).objectId = some o ∧ HasPhysical w o) →
      ∃ b, can_move_loop w pos l = some b ∧
        (b = false → ∃ p o, p ∈ l ∧ (w.posHeap p).x = pos.x ∧ (w.posHeap p).y = pos.y ∧
          gameObjectAt (w.posHeap p).objectId = some o ∧ Blocks w o) := by
  intro l
  induction l with
  | nil =>
    intro _
    exact ⟨true, rfl, fun h => Bool.noConfusion h⟩
  | cons e es ih =>
    intro hall
    obtain ⟨b, hb, hbf⟩ := ih (fun p hp => hall p (List.mem_cons_of_mem _ hp))
    have hrest : ∃ b, can_move_loop w pos es = some b ∧
        (b = false → ∃ p o, p ∈ e :: es ∧ (w.posHeap p).x = pos.x ∧
          (w.posHeap p).y = pos.y ∧ gameObjectAt (w.posHeap p).objectId = some o ∧
          Blocks w o) := by
      refine ⟨b, hb, fun h => ?_⟩
      obtain ⟨p, o, hp, h1, h2, h3, h4⟩ := hbf h
      exact ⟨p, o, List.mem_cons_of_mem _ hp, h1, h2, h3, h4⟩
    unfold can_move_loop
    by_cases hc : (w.posHeap e).x = pos.x ∧ (w.posHeap e).y = pos.y
    · simp only [hc, and_self, if_true]
      obtain ⟨o, ho, ph, hph⟩ := hall e (List.mem_cons_self _ _)
      simp only [ho, hph]
      by_cases hbl : (w.physHeap ph).blocksMovement = true
      · simp only [hbl, if_true]
        exact ⟨false, rfl, fun _ =>
          ⟨e, o, List.mem_cons_self _ _, hc.1, hc.2, ho, ph, hph, hbl⟩⟩
      · simp only [hbl, if_false]
        exact hrest
    · simp only [hc, if_false]
      exact hrest

/-- In a world whose Position store is consistent with the pool and holds
only Positions of live entities that have a Physical, `can_move` returns, and
it returns true exactly when `pos` is in bounds and no live entity with a
Position on the cell of `pos` blocks movement. -/
theorem can_move_exact (C R : Nat) (w : World) (pos : Position)
    (hwf : StoreConsistent w) (hex : StoreExact w) :
    ∃ b, can_move C R w pos = some b ∧
      (b = true ↔ (pos.x < C ∧ pos.y < R ∧
        ∀ j, Live w j → HasPositionAt w j pos.x pos.y → ¬ Blocks w j)) := by
  by_cases hc : pos.x < C ∧ pos.y < R
  · obtain ⟨b, hb, hbf⟩ := can_move_loop_total w pos w.positionComps (fun p hp => by
      obtain ⟨o, h1, _, _, h4⟩ := hex p hp
      exact ⟨o, h1, h4⟩)
    have hcm : can_move C R w pos = some b := by
      unfold can_move
      simp only [hc, and_self, if_true]
      exact hb
    refine ⟨b, hcm, ?_⟩
    constructor
    · intro hbt
      subst hbt
      exact ⟨hc.1, hc.2, can_move_true_no_blocker C R w pos hwf hcm⟩
    · rintro ⟨_, _, hno⟩
      cases b with
      | true => rfl
      | false =>
        obtain ⟨p, o, hp, hx, hy, ho, hblk⟩ := hbf rfl
        obtain ⟨o1, h1, h2, h3, _⟩ := hex p hp
        rw [ho] at h1
        simp only [Option.some.injEq] at h1
        subst h1
        exact absurd hblk (hno o h2 ⟨p, h3, hx, hy⟩)
  · refine ⟨false, ?_, ?_⟩
    · unfold can_move
      simp only [hc, if_false]
    · constructor
      · intro h; exact Bool.noConfusion h
      · rintro ⟨h1, h2, _⟩
        exact absurd ⟨h1, h2⟩ hc

theorem world_position_only_physical (j : Nat) :
    game_object_get_component world_position_only j COMP_PHYSICAL = none := by
  have key : ∃ w, scenario_position_only = some w ∧
      ∀ j, game_object_get_component w j COMP_PHYSICAL = none := by
    refine ⟨_, rfl, ?_⟩
    intro j
    by_cases hj : j = 0
    · subst hj
      simp [game_object_get_component, setLink, world_state_init]
    · simp [game_object_get_component, setLink, world_state_init, hj, zeroMem]
  obtain ⟨w, hw, hp⟩ := key
  have hww : world_position_only = w := by
    unfold world_position_only
    rw [hw]
    rfl
  rw [hww]
  exact hp j

/-- C21 (code bug): in `world_position_only`, built through the component
interface, the entity of slot 0 has a Position at `(1, 1)` and no Physical,
and no entity has a Physical at all, so no entity with a Position on `(1, 1)`
blocks movement; the cell is in bounds for a 5 x 5 screen. `can_move((1, 1))`
does not return true: it reads `blocksMovement` through the `NULL` Physical
of the entity. On the free cell `(2, 1)` it returns true, and on `(255, 1)`,
the `u8` value of a step left from column 0, it returns false. The function
returns a value only: it has no access to the world it is given. -/
theorem can_move_faults_without_physical :
    scenario_position_only = some world_position_only ∧
    Live world_position_only 0 ∧ HasPositionAt world_position_only 0 1 1 ∧
    game_object_get_component world_position_only 0 COMP_PHYSICAL = none ∧
    (∀ j, ¬ Blocks world_position_only j) ∧
    u8_dec 0 = 255 ∧
    can_move 5 5 world_position_only ⟨0, 1, 1, LAYER_TOP⟩ = none ∧
    can_move 5 5 world_position_only ⟨0, 2, 1, LAYER_TOP⟩ = some true ∧
    can_move 5 5 world_position_only ⟨0, 255, 1, LAYER_TOP⟩ = some false := by
  refine ⟨rfl, ⟨by decide, by decide⟩, ⟨0, by decide, by decide, by decide⟩, by decide, ?_,
    by decide, by decide, by decide, by decide⟩
  rintro j ⟨ph, hph, _⟩
  rw [world_position_only_physical j] at hph
  exact absurd hph (by simp)

/-! ## The sweeps of `generate_target_map` stay inside the grid and end -/

theorem Interior_inMap (W H : Nat) (x y : Int) (h : Interior W H x y) : inMap W H x y := by
  unfold Interior at h
  unfold inMap
  omega

theorem SweepSafe_initial (W H : Nat) (tx ty : Int) (ht : Interior W H tx ty) :
    SweepSafe W H (dmapSet (fun _ _ => TARGET_UNSET) tx ty 0) := by
  intro x y _
  unfold dmapSet
  by_cases hc : x = tx ∧ y = ty
  · simp only [hc, and_self, if_true, le_refl, true_and]
    intro _
    exact ht
  · simp only [hc, if_false]
    refine ⟨by unfold TARGET_UNSET; omega, fun h => absurd rfl h⟩

/-- One neighbour update from a set cell `(x, y)` whose value is `v`, in a
grid that satisfies `SweepSafe`: the update does not fault, keeps `SweepSafe`
and the value of `(x, y)`, and is a sweep step. -/
theorem relaxNeighbour_safe (W H : Nat) (lvl : DungeonLevel)
    (hb : BorderWalls W H lvl.mapWalls) (s : (Int → Int → Int) × Bool) (x y nx ny v : Int)
    (hs : SweepSafe W H s.1) (hxy : inMap W H x y) (hv : s.1 x y = v)
    (hadj : Adjacent x y nx ny) (hin : inMap W H nx ny) :
    ∃ s1, relaxNeighbour W H (some lvl) s nx ny v = some s1 ∧
      SweepSafe W H s1.1 ∧ s1.1 x y = v ∧ SweepStep W H s s1 := by
  obtain ⟨g, b⟩ := s
  simp only at hs hv
  rw [relaxNeighbour_eq W H lvl g b nx ny v hin]
  have hv0 : 0 ≤ v := by rw [← hv]; exact (hs x y hxy).1
  by_cases hc : lvl.mapWalls nx ny = false ∧ g nx ny > v + 1
  · simp only [hc, and_self, if_true]
    refine ⟨_, rfl, ?_, ?_, ?_⟩
    · intro a c hac
      unfold dmapSet
      by_cases he : a = nx ∧ c = ny
      · simp only [he, and_self, if_true]
        refine ⟨by omega, fun _ => ?_⟩
        exact BorderWalls_interior W H lvl.mapWalls hb nx ny hin hc.1
      · simp only [he, if_false]
        exact hs a c hac
    · have hne := Adjacent_ne x y nx ny hadj
      simp only [dmapSet, hne, if_false]
      exact hv
    · right
      refine ⟨rfl, ?_⟩
      apply dmapSum_dmapSet_lt W H g nx ny (v + 1) hin
      · omega
      · exact hc.2
  · simp only [hc, if_false]
    exact ⟨_, rfl, hs, hv, SweepStep_refl W H _⟩

/-- The loop body at a cell of a grid that satisfies `SweepSafe` does not
fault, keeps `SweepSafe` and is a sweep step. -/
theorem sweepCell_safe (W H : Nat) (lvl : DungeonLevel) (hb : BorderWalls W H lvl.mapWalls)
    (s : (Int → Int → Int) × Bool) (x y : Int)
    (hs : SweepSafe W H s.1) (hxy : inMap W H x y) :
    ∃ s1, sweepCell W H (some lvl) s x y = some s1 ∧
      SweepSafe W H s1.1 ∧ SweepStep W H s s1 := by
  unfold sweepCell dmapGet
  simp only [hxy, if_true]
  by_cases hfin : s.1 x y = TARGET_UNSET
  · simp only [hfin, ne_eq, not_true_eq_false, if_false]
    exact ⟨s, rfl, hs, SweepStep_refl W H s⟩
  · simp only [ne_eq, hfin, not_false_eq_true, if_true]
    have hint : Interior W H x y := (hs x y hxy).2 hfin
    have a1 : Adjacent x y (x + 1) y := Or.inl ⟨rfl, rfl⟩
    have a2 : Adjacent x y (x - 1) y := Or.inr (Or.inl ⟨rfl, rfl⟩)
    have a3 : Adjacent x y x (y - 1) := Or.inr (Or.inr (Or.inl ⟨rfl, rfl⟩))
    have a4 : Adjacent x y x (y + 1) := Or.inr (Or.inr (Or.inr ⟨rfl, rfl⟩))
    obtain ⟨s1, e1, i1, v1, d1⟩ := relaxNeighbour_safe W H lvl hb s x y (x + 1) y (s.1 x y)
      hs hxy rfl a1 (Adjacent_inMap_of_interior W H x y _ _ a1 hint)
    obtain ⟨s2, e2, i2, v2, d2⟩ := relaxNeighbour_safe W H lvl hb s1 x y (x - 1) y (s.1 x y)
      i1 hxy v1 a2 (Adjacent_inMap_of_interior W H x y _ _ a2 hint)
    obtain ⟨s3, e3, i3, v3, d3⟩ := relaxNeighbour_safe W H lvl hb s2 x y x (y - 1) (s.1 x y)
      i2 hxy v2 a3 (Adjacent_inMap_of_interior W H x y _ _ a3 hint)
    obtain ⟨s4, e4, i4, _, d4⟩ := relaxNeighbour_safe W H lvl hb s3 x y x (y + 1) (s.1 x y)
      i3 hxy v3 a4 (Adjacent_inMap_of_interior W H x y _ _ a4 hint)
    refine ⟨s4, ?_, i4, ?_⟩
    · simp only [e1, e2, e3, e4, Option.some_bind]
    · exact SweepStep_trans W H _ _ _ (SweepStep_trans W H _ _ _
        (SweepStep_trans W H _ _ _ d1 d2) d3) d4

theorem sweepCells_safe (W H : Nat) (lvl : DungeonLevel) (hb : BorderWalls W H lvl.mapWalls) :
    ∀ (cs : List (Int × Int)) (s : (Int → Int → Int) × Bool),
      (∀ c ∈ cs, inMap W H c.1 c.2) → SweepSafe W H s.1 →
      ∃ s1, sweepCells W H (some lvl) cs s = some s1 ∧
        SweepSafe W H s1.1 ∧ SweepStep W H s s1 := by
  intro cs
  induction cs with
  | nil =>
    intro s _ hs
    exact ⟨s, rfl, hs, SweepStep_refl W H s⟩
  | cons c cs ih =>
    intro s hcs hs
    obtain ⟨s1, e1, i1, d1⟩ := sweepCell_safe W H lvl hb s c.1 c.2 hs
      (hcs c (List.mem_cons_self _ _))
    obtain ⟨s2, e2, i2, d2⟩ := ih s1 (fun c1 hc1 => hcs c1 (List.mem_cons_of_mem _ hc1)) i1
    refine ⟨s2, ?_, i2, SweepStep_trans W H _ _ _ d1 d2⟩
    simp only [sweepCells, e1, Option.some_bind, e2]

/-- A run of the loop body over cells, from a grid that satisfies
`SweepSafe`, that ends with `changesMade` false has changed nothing, and the
body changes nothing at any of the cells. -/
theorem sweepCells_safe_unchanged (W H : Nat) (lvl : DungeonLevel)
    (hb : BorderWalls W H lvl.mapWalls) :
    ∀ (cs : List (Int × Int)) (s s2 : (Int → Int → Int) × Bool),
      (∀ c ∈ cs, inMap W H c.1 c.2) → SweepSafe W H s.1 →
      sweepCells W H (some lvl) cs s = some s2 → s2.2 = false →
      s2 = s ∧ ∀ c ∈ cs, sweepCell W H (some lvl) s c.1 c.2 = some s := by
  intro cs
  induction cs with
  | nil =>
    intro s s2 _ _ h _
    simp only [sweepCells, Option.some.injEq] at h
    exact ⟨h.symm, fun c hc => absurd hc (List.not_mem_nil c)⟩
  | cons c cs ih =>
    intro s s2 hcs hs h hf
    obtain ⟨s1, e1, i1, d1⟩ := sweepCell_safe W H lvl hb s c.1 c.2 hs
      (hcs c (List.mem_cons_self _ _))
    simp only [sweepCells, e1, Option.some_bind] at h
    obtain ⟨h2, h3⟩ := ih s1 s2 (fun c1 hc1 => hcs c1 (List.mem_cons_of_mem _ hc1)) i1 h hf
    have hs1 : s1 = s := SweepStep_eq_of_false W H s s1 d1 (by rw [← h2]; exact hf)
    rw [hs1] at h2 h3 e1
    refine ⟨h2, ?_⟩
    intro c1 hc1
    rcases List.mem_cons.1 hc1 with rfl | hc1
    · exact e1
    · exact h3 c1 hc1

/-- A sweep of a grid that satisfies `SweepSafe` does not fault and keeps
`SweepSafe`; either it leaves the grid as it is and `changesMade` false, or
it sets `changesMade` and the sum of the grid goes down. -/
theorem sweep_safe (W H : Nat) (lvl : DungeonLevel) (hb : BorderWalls W H lvl.mapWalls)
    (g : Int → Int → Int) (hs : SweepSafe W H g) :
    ∃ g1 b, sweep W H (some lvl) g = some (g1, b) ∧ SweepSafe W H g1 ∧
      ((b = false ∧ g1 = g) ∨ (b = true ∧ dmapSum W H g1 < dmapSum W H g)) := by
  obtain ⟨s1, e1, i1, d1⟩ := sweepCells_safe W H lvl hb (sweepOrder W H) (g, false)
    (fun c hc => (mem_sweepOrder W H c).1 hc) hs
  obtain ⟨g1, b1⟩ := s1
  refine ⟨g1, b1, e1, i1, ?_⟩
  rcases d1 with d1 | ⟨d1, d2⟩
  · simp only [Prod.mk.injEq] at d1
    exact Or.inl ⟨d1.2, d1.1⟩
  · exact Or.inr ⟨d1, d2⟩

/-- With more fuel than the sum of the grid, the loop from a grid that
satisfies `SweepSafe` ends, in a grid that satisfies `SweepSafe` and that a
further sweep leaves unchanged. -/
theorem sweepLoop_safe_terminates (W H : Nat) (lvl : DungeonLevel)
    (hb : BorderWalls W H lvl.mapWalls) :
    ∀ (fuel : Nat) (g : Int → Int → Int), SweepSafe W H g → dmapSum W H g < fuel →
      ∃ g1, sweepLoop W H (some lvl) fuel g = some g1 ∧
        SweepSafe W H g1 ∧ sweep W H (some lvl) g1 = some (g1, false) := by
  intro fuel
  induction fuel with
  | zero => intro g _ h; omega
  | succ fuel ih =>
    intro g hs hsum
    obtain ⟨g1, b1, e1, i1, d1⟩ := sweep_safe W H lvl hb g hs
    unfold sweepLoop
    rw [e1]
    rcases d1 with ⟨hb1, hg1⟩ | ⟨hb1, hlt⟩
    · subst hb1
      subst hg1
      exact ⟨g1, rfl, hs, e1⟩
    · subst hb1
      simp only
      exact ih g1 i1 (by omega)

/-- A grid that satisfies `SweepSafe` and that a sweep leaves unchanged is
settled. -/
theorem sweep_safe_fixpoint_settled (W H : Nat) (lvl : DungeonLevel)
    (hb : BorderWalls W H lvl.mapWalls) (g : Int → Int → Int) (hs : SweepSafe W H g)
    (hfix : sweep W H (some lvl) g = some (g, false)) :
    Settled W H lvl.mapWalls g := by
  intro x y hxy hfin a b hadj _ hwall
  obtain ⟨_, hall⟩ := sweepCells_safe_unchanged W H lvl hb (sweepOrder W H) (g, false)
    (g, false) (fun c hc => (mem_sweepOrder W H c).1 hc) hs hfix rfl
  have hcell := hall (x, y) ((mem_sweepOrder W H (x, y)).2 hxy)
  exact sweepCell_settled W H lvl g x y hxy hfin ((hs x y hxy).2 hfin) hcell a b hadj hwall

theorem sampleLevel_borderWalls : BorderWalls 5 5 sampleLevel.mapWalls := by
  intro x y hxy hedge
  unfold inMap at hxy
  simp only [sampleLevel, decide_eq_true_eq]
  omega

/-- A neighbour update that returns either leaves the state as it is or
writes `v + 1` into one cell whose value was above `v + 1`, and sets
`changesMade`. -/
theorem relaxNeighbour_change (W H : Nat) (currentLevel : Option DungeonLevel)
    (s s1 : (Int → Int → Int) × Bool) (nx ny v : Int)
    (h : relaxNeighbour W H currentLevel s nx ny v = some s1) :
    s1 = s ∨ (s1 = (dmapSet s.1 nx ny (v + 1), true) ∧ v + 1 < s.1 nx ny) := by
  unfold relaxNeighbour at h
  split at h
  · exact absurd h (by simp)
  · simp only [Option.some.injEq] at h
    exact Or.inl h.symm
  · unfold dmapGet at h
    by_cases hin : inMap W H nx ny
    · simp only [hin, if_true] at h
      by_cases hgt : s.1 nx ny > v + 1
      · simp only [hgt, if_true, Option.some.injEq] at h
        exact Or.inr ⟨h.symm, hgt⟩
      · simp only [hgt, if_false, Option.some.injEq] at h
        exact Or.inl h.symm
    · simp [hin] at h

/-- C22: when the current level's wall grid has every border cell a wall and
the target is an interior cell, the `while (changesMade)` loop of
`generate_target_map` ends (within any bound on the number of sweeps above
`9999 * MAP_WIDTH * MAP_HEIGHT`). Every change of a neighbour update writes a
value into one cell that is strictly below the value the cell held. The
initial grid satisfies `SweepSafe` (no negative value, set cells interior),
and a sweep of a grid that satisfies it returns a grid that satisfies it:
either the grid is unchanged and `changesMade` is false, or the sum of the
values of the grid went down. The grid in which the loop ends is left
unchanged by a further sweep, has no negative value, and no cell of it with a
set value has a cardinal neighbour that is not a wall and whose value exceeds
the cell's value plus one. -/
theorem generate_target_map_sweeps_terminate (MAP_WIDTH MAP_HEIGHT : Nat) (w : World)
    (lvl : DungeonLevel) (targetX targetY : Int) (fuel : Nat)
    (hlvl : w.currentLevel = some lvl)
    (hborder : BorderWalls MAP_WIDTH MAP_HEIGHT lvl.mapWalls)
    (htarget : Interior MAP_WIDTH MAP_HEIGHT targetX targetY)
    (hfuel : 9999 * (MAP_WIDTH * MAP_HEIGHT) < fuel) :
    (∀ s nx ny v s1,
      relaxNeighbour MAP_WIDTH MAP_HEIGHT w.currentLevel s nx ny v = some s1 →
      s1 = s ∨ (s1 = (dmapSet s.1 nx ny (v + 1), true) ∧ v + 1 < s.1 nx ny)) ∧
    SweepSafe MAP_WIDTH MAP_HEIGHT (dmapSet (fun _ _ => TARGET_UNSET) targetX targetY 0) ∧
    (∀ g, SweepSafe MAP_WIDTH MAP_HEIGHT g →
      ∃ g1 b, sweep MAP_WIDTH MAP_HEIGHT w.currentLevel g = some (g1, b) ∧
        SweepSafe MAP_WIDTH MAP_HEIGHT g1 ∧
        ((b = false ∧ g1 = g) ∨
          (b = true ∧ dmapSum MAP_WIDTH MAP_HEIGHT g1 < dmapSum MAP_WIDTH MAP_HEIGHT g))) ∧
    ∃ g, sweepLoop MAP_WIDTH MAP_HEIGHT w.currentLevel fuel
        (dmapSet (fun _ _ => TARGET_UNSET) targetX targetY 0) = some g ∧
      generate_target_map MAP_WIDTH MAP_HEIGHT w targetX targetY fuel =
        some { w with targetMap := some g } ∧
      sweep MAP_WIDTH MAP_HEIGHT w.currentLevel g = some (g, false) ∧
      (∀ x y, inMap MAP_WIDTH MAP_HEIGHT x y → 0 ≤ g x y) ∧
      ∀ x y, inMap MAP_WIDTH MAP_HEIGHT x y → g x y ≠ TARGET_UNSET →
        ∀ a b, Adjacent x y a b →
          inMap MAP_WIDTH MAP_HEIGHT a b ∧ (lvl.mapWalls a b = false → g a b ≤ g x y + 1) := by
  have hinit := SweepSafe_initial MAP_WIDTH MAP_HEIGHT targetX targetY htarget
  have hsum := dmapSum_initial_le MAP_WIDTH MAP_HEIGHT targetX targetY
  rw [hlvl]
  obtain ⟨g, hloop, hsafe, hfix⟩ := sweepLoop_safe_terminates MAP_WIDTH MAP_HEIGHT lvl hborder
    fuel _ hinit (lt_of_le_of_lt hsum hfuel)
  have hset := sweep_safe_fixpoint_settled MAP_WIDTH MAP_HEIGHT lvl hborder g hsafe hfix
  refine ⟨fun s nx ny v s1 h => relaxNeighbour_change _ _ _ s s1 nx ny v h, hinit,
    fun g1 hg1 => sweep_safe MAP_WIDTH MAP_HEIGHT lvl hborder g1 hg1, g, hloop, ?_, hfix,
    fun x y hxy => (hsafe x y hxy).1, ?_⟩
  · unfold generate_target_map
    simp only [Interior_inMap MAP_WIDTH MAP_HEIGHT targetX targetY htarget, if_true, hlvl,
      hloop]
  · intro x y hxy hfin a b hadj
    have hab := Adjacent_inMap_of_interior MAP_WIDTH MAP_HEIGHT x y a b hadj
      ((hsafe x y hxy).2 hfin)
    exact ⟨hab, fun hwall => hset x y hxy hfin a b hadj hab hwall⟩

/-- Witness for C22: the 5 x 5 sample level with the target at `(1, 1)`. -/
theorem generate_target_map_sweeps_terminate_witness :
    BorderWalls 5 5 sampleLevel.mapWalls ∧ Interior 5 5 1 1 ∧
    ∃ g, sweepLoop 5 5 sampleLevelWorld.currentLevel 1000000
        (dmapSet (fun _ _ => TARGET_UNSET) 1 1 0) = some g ∧
      generate_target_map 5 5 sampleLevelWorld 1 1 1000000 =
        some { sampleLevelWorld with targetMap := some g } ∧
      sweep 5 5 sampleLevelWorld.currentLevel g = some (g, false) ∧
      (∀ x y, inMap 5 5 x y → 0 ≤ g x y) ∧
      ∀ x y, inMap 5 5 x y → g x y ≠ TARGET_UNSET →
        ∀ a b, Adjacent x y a b →
          inMap 5 5 a b ∧ (sampleLevel.mapWalls a b = false → g a b ≤ g x y + 1) :=
  ⟨sampleLevel_borderWalls, by decide,
    (generate_target_map_sweeps_terminate 5 5 sampleLevelWorld sampleLevel 1 1 1000000 rfl
      sampleLevel_borderWalls (by decide) (by decide)).2.2.2⟩

/-- C23: when the current level's wall grid has every border cell a wall and
the target is not on the border, the grid after the target is set satisfies
`SweepSafe` (every cell with a set value is an interior cell); the loop body
at any cell of a grid that satisfies it returns, without a fault of `is_wall`
or of a read of the grid, in a grid that satisfies it again; a cell that
holds `UNSET` is not expanded; a cell that the body expands is an interior
cell, and the four neighbour indices lie inside the grid, where `is_wall` and
the read of the grid are defined (a write goes to an index that has just been
read); and the whole of `generate_target_map` returns for every bound on the
number of sweeps above `9999 * MAP_WIDTH * MAP_HEIGHT`. -/
theorem generate_target_map_indices_in_grid (MAP_WIDTH MAP_HEIGHT : Nat) (w : World)
    (lvl : DungeonLevel) (targetX targetY : Int)
    (hlvl : w.currentLevel = some lvl)
    (hborder : BorderWalls MAP_WIDTH MAP_HEIGHT lvl.mapWalls)
    (htarget : Interior MAP_WIDTH MAP_HEIGHT targetX targetY) :
    SweepSafe MAP_WIDTH MAP_HEIGHT (dmapSet (fun _ _ => TARGET_UNSET) targetX targetY 0) ∧
    (∀ s x y, SweepSafe MAP_WIDTH MAP_HEIGHT s.1 → inMap MAP_WIDTH MAP_HEIGHT x y →
      ∃ s1, sweepCell MAP_WIDTH MAP_HEIGHT w.currentLevel s x y = some s1 ∧
        SweepSafe MAP_WIDTH MAP_HEIGHT s1.1 ∧
        (s.1 x y = TARGET_UNSET → s1 = s) ∧
        (s.1 x y ≠ TARGET_UNSET → Interior MAP_WIDTH MAP_HEIGHT x y ∧
          ∀ a b, Adjacent x y a b → inMap MAP_WIDTH MAP_HEIGHT a b ∧
            (is_wall MAP_WIDTH MAP_HEIGHT w.currentLevel a b).isSome = true ∧
            (dmapGet MAP_WIDTH MAP_HEIGHT s.1 a b).isSome = true)) ∧
    ∀ fuel, 9999 * (MAP_WIDTH * MAP_HEIGHT) < fuel →
      ∃ w1, generate_target_map MAP_WIDTH MAP_HEIGHT w targetX targetY fuel = some w1 := by
  have hinit := SweepSafe_initial MAP_WIDTH MAP_HEIGHT targetX targetY htarget
  refine ⟨hinit, ?_, ?_⟩
  · intro s x y hs hxy
    rw [hlvl]
    obtain ⟨s1, e1, i1, _⟩ := sweepCell_safe MAP_WIDTH MAP_HEIGHT lvl hborder s x y hs hxy
    refine ⟨s1, e1, i1, ?_, ?_⟩
    · intro hun
      unfold sweepCell dmapGet at e1
      simp only [hxy, if_true, hun, ne_eq, not_true_eq_false, if_false,
        Option.some.injEq] at e1
      exact e1.symm
    · intro hfin
      have hint := (hs x y hxy).2 hfin
      refine ⟨hint, ?_⟩
      intro a b hadj
      have hab := Adjacent_inMap_of_interior MAP_WIDTH MAP_HEIGHT x y a b hadj hint
      refine ⟨hab, ?_, ?_⟩
      · unfold is_wall
        simp only [hab, if_true, Option.isSome_some]
      · unfold dmapGet
        simp only [hab, if_true, Option.isSome_some]
  · intro fuel hfuel
    have hsum := dmapSum_initial_le MAP_WIDTH MAP_HEIGHT targetX targetY
    obtain ⟨g, hloop, _, _⟩ := sweepLoop_safe_terminates MAP_WIDTH MAP_HEIGHT lvl hborder
      fuel _ hinit (lt_of_le_of_lt hsum hfuel)
    refine ⟨{ w with targetMap := some g }, ?_⟩
    unfold generate_target_map
    simp only [Interior_inMap MAP_WIDTH MAP_HEIGHT targetX targetY htarget, if_true, hlvl,
      hloop]

/-- Witness for C23: the 5 x 5 sample level with the target on the interior
wall cell `(2, 2)`; the run with 1000000 as bound returns, and in the map it
leaves the target holds 0, its free neighbour `(1, 2)` holds 1 and the wall
`(3, 2)` is unset. -/
theorem generate_target_map_indices_in_grid_witness :
    BorderWalls 5 5 sampleLevel.mapWalls ∧ Interior 5 5 2 2 ∧
    sampleLevel.mapWalls 2 2 = true ∧
    ((generate_target_map 5 5 sampleLevelWorld 2 2 1000000).bind fun w1 =>
      w1.targetMap.map fun g => (g 2 2, g 1 2, g 3 2, g 1 1)) = some (0, 1, 9999, 2) ∧
    SweepSafe 5 5 (dmapSet (fun _ _ => TARGET_UNSET) 2 2 0) ∧
    ∀ fuel, 9999 * (5 * 5) < fuel →
      ∃ w1, generate_target_map 5 5 sampleLevelWorld 2 2 fuel = some w1 :=
  ⟨sampleLevel_borderWalls, by decide, by decide, by decide,
    (generate_target_map_indices_in_grid 5 5 sampleLevelWorld sampleLevel 2 2 rfl
      sampleLevel_borderWalls (by decide)).1,
    (generate_target_map_indices_in_grid 5 5 sampleLevelWorld sampleLevel 2 2 rfl
      sampleLevel_borderWalls (by decide)).2.2⟩

/-! ## The chase branch on a generated target map -/

theorem PathLen_zero (W H : Nat) (walls : Int → Int → Bool) (tx ty x y : Int)
    (h : PathLen W H walls tx ty 0 x y) : x = tx ∧ y = ty := by
  cases h with
  | start => exact ⟨rfl, rfl⟩

/-- The grid that `generate_target_map` leaves, for an all-wall border and a
target that is a non-wall cell of the grid, satisfies the invariant of the
sweeps and is settled. -/
theorem generate_target_map_settled (W H : Nat) (w : World) (lvl : DungeonLevel)
    (tx ty : Int) (fuel : Nat) (hlvl : w.currentLevel = some lvl)
    (hborder : BorderWalls W H lvl.mapWalls) (htarget : inMap W H tx ty)
    (hfloor : lvl.mapWalls tx ty = false) (hfuel : 9999 * (W * H) < fuel) :
    ∃ g, generate_target_map W H w tx ty fuel = some { w with targetMap := some g } ∧
      TargetInv W H lvl.mapWalls tx ty g ∧ Settled W H lvl.mapWalls g := by
  have hinit := TargetInv_initial W H lvl.mapWalls tx ty
  have hsum := dmapSum_initial_le W H tx ty
  obtain ⟨g, hloop, hinv, hfix⟩ := sweepLoop_terminates W H lvl tx ty hborder htarget hfloor
    fuel _ hinit (lt_of_le_of_lt hsum hfuel)
  have hset := sweep_fixpoint_settled W H lvl tx ty hborder htarget hfloor g hinv hfix
  refine ⟨g, ?_, hinv, hset⟩
  unfold generate_target_map
  simp only [htarget, if_true, hlvl, hloop]

/-- A cell with a set value, in a grid that satisfies the invariant of the
sweeps, is an interior cell. -/
theorem TargetInv_interior (W H : Nat) (walls : Int → Int → Bool) (tx ty : Int)
    (hb : BorderWalls W H walls) (ht : inMap W H tx ty) (hw : walls tx ty = false)
    (g : Int → Int → Int) (hinv : TargetInv W H walls tx ty g)
    (x y : Int) (hxy : inMap W H x y) (hfin : g x y ≠ TARGET_UNSET) :
    Interior W H x y := by
  obtain ⟨n, _, hpath⟩ := hinv.sound x y hxy hfin
  have hfloor := PathLen_inMap_and_floor W H walls tx ty ht hw n x y hpath
  exact BorderWalls_interior W H walls hb x y hxy hfloor.2

/-- The chase branch on a settled target map, for an entity on a cell with a
set value other than 0, on a map whose interior coordinates fit a `u8`: the
reads of the target map are inside the grid, at least one candidate move is
collected, and the target map value on the cell of every candidate is below
the value on the cell of the entity. -/
theorem chaseMoves_descend (W H : Nat) (walls : Int → Int → Bool) (tx ty : Int)
    (hb : BorderWalls W H walls) (ht : inMap W H tx ty) (hw : walls tx ty = false)
    (hW : W ≤ 257) (hH : H ≤ 257)
    (g : Int → Int → Int) (hinv : TargetInv W H walls tx ty g) (hset : Settled W H walls g)
    (p newPos : Position) (hnx : newPos.x = p.x) (hny : newPos.y = p.y)
    (hxy : inMap W H p.x p.y) (hfin : g p.x p.y ≠ TARGET_UNSET) (hnz : g p.x p.y ≠ 0) :
    ∃ moves, chaseMoves W H g p newPos = some moves ∧ 1 ≤ moves.length ∧
      ∀ m, m ∈ moves → g m.x m.y < g p.x p.y := by
  have hint := TargetInv_interior W H walls tx ty hb ht hw g hinv p.x p.y hxy hfin
  have hle := hinv.le p.x p.y hxy
  have a1 : Adjacent p.x p.y ((p.x : Int) + 1) p.y := Or.inl ⟨rfl, rfl⟩
  have a2 : Adjacent p.x p.y ((p.x : Int) - 1) p.y := Or.inr (Or.inl ⟨rfl, rfl⟩)
  have a3 : Adjacent p.x p.y p.x ((p.y : Int) - 1) := Or.inr (Or.inr (Or.inl ⟨rfl, rfl⟩))
  have a4 : Adjacent p.x p.y p.x ((p.y : Int) + 1) := Or.inr (Or.inr (Or.inr ⟨rfl, rfl⟩))
  have i1 := Adjacent_inMap_of_interior W H _ _ _ _ a1 hint
  have i2 := Adjacent_inMap_of_interior W H _ _ _ _ a2 hint
  have i3 := Adjacent_inMap_of_interior W H _ _ _ _ a3 hint
  have i4 := Adjacent_inMap_of_interior W H _ _ _ _ a4 hint
  have hnt : ¬ ((p.x : Int) = tx ∧ (p.y : Int) = ty) := by
    rintro ⟨h1, h2⟩
    apply hnz
    rw [h1, h2]
    exact hinv.target
  obtain ⟨a, b, hadj, _, _, hval⟩ :=
    settled_pred_exact W H walls tx ty ht hw g hinv hset p.x p.y hxy hfin hnt
  have hlow : ∀ a b : Int, inMap W H a b → g a b < g p.x p.y → Interior W H a b :=
    fun a b hab hlt =>
      TargetInv_interior W H walls tx ty hb ht hw g hinv a b hab (by omega)
  unfold Interior at hint
  have hux : ((u8_dec newPos.x : Nat) : Int) = (p.x : Int) - 1 := by
    rw [hnx]; unfold u8_dec; omega
  have huy : ((u8_dec newPos.y : Nat) : Int) = (p.y : Int) - 1 := by
    rw [hny]; unfold u8_dec; omega
  have hix : g ((p.x : Int) + 1) p.y < g p.x p.y →
      ((u8_inc newPos.x : Nat) : Int) = (p.x : Int) + 1 := by
    intro hlt
    have := hlow _ _ i1 hlt
    unfold Interior at this
    rw [hnx]; unfold u8_inc; omega
  have hiy : g p.x ((p.y : Int) + 1) < g p.x p.y →
      ((u8_inc newPos.y : Nat) : Int) = (p.y : Int) + 1 := by
    intro hlt
    have := hlow _ _ i4 hlt
    unfold Interior at this
    rw [hny]; unfold u8_inc; omega
  have hmoves : chaseMoves W H g p newPos = some
      ((if g ((p.x : Int) - 1) p.y < g p.x p.y then [{ newPos with x := u8_dec newPos.x }]
        else []) ++
       (if g p.x ((p.y : Int) - 1) < g p.x p.y then [{ newPos with y := u8_dec newPos.y }]
        else []) ++
       (if g ((p.x : Int) + 1) p.y < g p.x p.y then [{ newPos with x := u8_inc newPos.x }]
        else []) ++
       (if g p.x ((p.y : Int) + 1) < g p.x p.y then [{ newPos with y := u8_inc newPos.y }]
        else [])) := by
    unfold chaseMoves dmapGet
    simp only [hxy, i1, i2, i3, i4, if_true, Option.some_bind]
  refine ⟨_, hmoves, ?_, ?_⟩
  · rcases hadj with ⟨h1, h2⟩ | ⟨h1, h2⟩ | ⟨h1, h2⟩ | ⟨h1, h2⟩
    · subst h1; subst h2
      have hc : g ((p.x : Int) + 1) p.y < g p.x p.y := by omega
      simp only [hc, if_true, List.length_append, List.length_cons, List.length_nil]
      omega
    · subst h1; subst h2
      have hc : g ((p.x : Int) - 1) p.y < g p.x p.y := by omega
      simp only [hc, if_true, List.length_append, List.length_cons, List.length_nil]
      omega
    · subst h1; subst h2
      have hc : g p.x ((p.y : Int) - 1) < g p.x p.y := by omega
      simp only [hc, if_true, List.length_append, List.length_cons, List.length_nil]
      omega
    · subst h1; subst h2
      have hc : g p.x ((p.y : Int) + 1) < g p.x p.y := by omega
      simp only [hc, if_true, List.length_append, List.length_cons, List.length_nil]
      omega
  · intro m hm
    simp only [List.mem_append] at hm
    rcases hm with ((hm | hm) | hm) | hm
    · by_cases hc : g ((p.x : Int) - 1) p.y < g p.x p.y
      · simp only [hc, if_true, List.mem_singleton] at hm
        subst hm
        simp only
        rw [hux, hny]
        exact hc
      · simp [hc] at hm
    · by_cases hc : g p.x ((p.y : Int) - 1) < g p.x p.y
      · simp only [hc, if_true, List.mem_singleton] at hm
        subst hm
        simp only
        rw [huy, hnx]
        exact hc
      · simp [hc] at hm
    · by_cases hc : g ((p.x : Int) + 1) p.y < g p.x p.y
      · simp only [hc, if_true, List.mem_singleton] at hm
        subst hm
        simp only
        rw [hix hc, hny]
        exact hc
      · simp [hc] at hm
    · by_cases hc : g p.x ((p.y : Int) + 1) < g p.x p.y
      · simp only [hc, if_true, List.mem_singleton] at hm
        subst hm
        simp only
        rw [hiy hc, hnx]
        exact hc
      · simp [hc] at hm

/-- C24 (amended): when the current level's wall grid has every border cell
a wall, the target is a non-wall cell of the grid, and `MAP_WIDTH` and
`MAP_HEIGHT` are at most 257 (so that every interior coordinate fits the `u8`
of a Position), `generate_target_map` returns (for any bound on the number of
sweeps above `9999 * MAP_WIDTH * MAP_HEIGHT`), and in the target map it
leaves every cell with a set value other than 0 has a cardinal neighbour
whose value is smaller by exactly one. For an entity whose Position is on
such a cell, the chase branch of `movement_update` reads the target map
inside the grid only and collects at least one candidate move, and whatever
`rand()` returns, the move at index `rand() % moveCount` is on a cell whose
target map value is below the value on the cell of the entity. -/
theorem chase_branch_descends (MAP_WIDTH MAP_HEIGHT : Nat) (w : World)
    (lvl : DungeonLevel) (targetX targetY : Int) (fuel : Nat)
    (hlvl : w.currentLevel = some lvl)
    (hborder : BorderWalls MAP_WIDTH MAP_HEIGHT lvl.mapWalls)
    (htarget : inMap MAP_WIDTH MAP_HEIGHT targetX targetY)
    (hfloor : lvl.mapWalls targetX targetY = false)
    (hfuel : 9999 * (MAP_WIDTH * MAP_HEIGHT) < fuel)
    (hW : MAP_WIDTH ≤ 257) (hH : MAP_HEIGHT ≤ 257) :
    ∃ w1 g, generate_target_map MAP_WIDTH MAP_HEIGHT w targetX targetY fuel = some w1 ∧
      w1.targetMap = some g ∧
      (∀ x y, inMap MAP_WIDTH MAP_HEIGHT x y → g x y ≠ TARGET_UNSET → g x y ≠ 0 →
        ∃ a b, Adjacent x y a b ∧ inMap MAP_WIDTH MAP_HEIGHT a b ∧ g a b = g x y - 1) ∧
      ∀ p : Position, inMap MAP_WIDTH MAP_HEIGHT p.x p.y → g p.x p.y ≠ TARGET_UNSET →
        g p.x p.y ≠ 0 →
        ∃ moves, chaseMoves MAP_WIDTH MAP_HEIGHT g p
            { objectId := p.objectId, x := p.x, y := p.y, layer := p.layer } = some moves ∧
          1 ≤ moves.length ∧
          ∀ r : Nat, ∃ m, moves.get? (r % moves.length) = some m ∧ g m.x m.y < g p.x p.y := by
  obtain ⟨g, hgen, hinv, hset⟩ := generate_target_map_settled MAP_WIDTH MAP_HEIGHT w lvl
    targetX targetY fuel hlvl hborder htarget hfloor hfuel
  refine ⟨_, g, hgen, rfl, ?_, ?_⟩
  · intro x y hxy hfin hnz
    have hnt : ¬ (x = targetX ∧ y = targetY) := by
      rintro ⟨h1, h2⟩
      apply hnz
      rw [h1, h2]
      exact hinv.target
    obtain ⟨a, b, hadj, hab, _, hval⟩ := settled_pred_exact MAP_WIDTH MAP_HEIGHT lvl.mapWalls
      targetX targetY htarget hfloor g hinv hset x y hxy hfin hnt
    exact ⟨a, b, hadj, hab, hval⟩
  · intro p hxy hfin hnz
    obtain ⟨moves, hm, hlen, hall⟩ := chaseMoves_descend MAP_WIDTH MAP_HEIGHT lvl.mapWalls
      targetX targetY hborder htarget hfloor hW hH g hinv hset p
      { objectId := p.objectId, x := p.x, y := p.y, layer := p.layer } rfl rfl hxy hfin hnz
    refine ⟨moves, hm, hlen, ?_⟩
    intro r
    have hlt : r % moves.length < moves.length := Nat.mod_lt _ (by omega)
    exact ⟨moves.get ⟨r % moves.length, hlt⟩, List.get?_eq_get hlt,
      hall _ (List.get_mem _ _ _)⟩

/-- Witness for C24: the 5 x 5 sample level with the target at `(1, 1)`; the
cell `(3, 3)` holds 4 in the target map. -/
theorem chase_branch_descends_witness :
    BorderWalls 5 5 sampleLevel.mapWalls ∧ sampleLevel.mapWalls 1 1 = false ∧
    ((generate_target_map 5 5 sampleLevelWorld 1 1 1000000).bind fun w1 =>
      w1.targetMap.bind fun g =>
        (chaseMoves 5 5 g ⟨0, 3, 3, LAYER_TOP⟩ ⟨0, 3, 3, LAYER_TOP⟩).map fun moves =>
          (g 3 3, moves)) = some (4, [⟨0, 2, 3, LAYER_TOP⟩]) ∧
    ∃ w1 g, generate_target_map 5 5 sampleLevelWorld 1 1 1000000 = some w1 ∧
      w1.targetMap = some g ∧
      (∀ x y, inMap 5 5 x y → g x y ≠ TARGET_UNSET → g x y ≠ 0 →
        ∃ a b, Adjacent x y a b ∧ inMap 5 5 a b ∧ g a b = g x y - 1) ∧
      ∀ p : Position, inMap 5 5 p.x p.y → g p.x p.y ≠ TARGET_UNSET → g p.x p.y ≠ 0 →
        ∃ moves, chaseMoves 5 5 g p
            { objectId := p.objectId, x := p.x, y := p.y, layer := p.layer } = some moves ∧
          1 ≤ moves.length ∧
          ∀ r : Nat, ∃ m, moves.get? (r % moves.length) = some m ∧ g m.x m.y < g p.x p.y :=
  ⟨sampleLevel_borderWalls, by decide, by decide,
    chase_branch_descends 5 5 sampleLevelWorld sampleLevel 1 1 1000000 rfl
      sampleLevel_borderWalls (by decide) (by decide) (by decide) (by decide) (by decide)⟩

theorem wideLevel_borderWalls : BorderWalls 258 3 wideLevel.mapWalls := by
  intro x y hxy hedge
  unfold inMap at hxy
  simp only [wideLevel, decide_eq_true_eq]
  omega

/-- The candidate moves of the chase branch when the cell of the entity and
its four neighbours lie inside the grid. -/
theorem chaseMoves_eq (W H : Nat) (g : Int → Int → Int) (p newPos : Position)
    (hint : Interior W H p.x p.y) :
    chaseMoves W H g p newPos = some
      ((if g ((p.x : Int) - 1) p.y < g p.x p.y then [{ newPos with x := u8_dec newPos.x }]
        else []) ++
       (if g p.x ((p.y : Int) - 1) < g p.x p.y then [{ newPos with y := u8_dec newPos.y }]
        else []) ++
       (if g ((p.x : Int) + 1) p.y < g p.x p.y then [{ newPos with x := u8_inc newPos.x }]
        else []) ++
       (if g p.x ((p.y : Int) + 1) < g p.x p.y then [{ newPos with y := u8_inc newPos.y }]
        else [])) := by
  have hxy := Interior_inMap W H _ _ hint
  have i1 := Adjacent_inMap_of_interior W H (p.x : Int) p.y ((p.x : Int) + 1) p.y
    (Or.inl ⟨rfl, rfl⟩) hint
  have i2 := Adjacent_inMap_of_interior W H (p.x : Int) p.y ((p.x : Int) - 1) p.y
    (Or.inr (Or.inl ⟨rfl, rfl⟩)) hint
  have i3 := Adjacent_inMap_of_interior W H (p.x : Int) p.y p.x ((p.y : Int) - 1)
    (Or.inr (Or.inr (Or.inl ⟨rfl, rfl⟩))) hint
  have i4 := Adjacent_inMap_of_interior W H (p.x : Int) p.y p.x ((p.y : Int) + 1)
    (Or.inr (Or.inr (Or.inr ⟨rfl, rfl⟩))) hint
  unfold chaseMoves dmapGet
  simp only [hxy, i1, i2, i3, i4, if_true, Option.some_bind]

/-- C24 (counterexample): on the 258 x 3 level `wideLevel`, whose border
cells are all walls, with the target on the interior non-wall cell
`(256, 1)`, `generate_target_map` returns and the cell `(255, 1)` holds 1 in
the target map. For an entity on `(255, 1)` the chase branch collects one
candidate, the step to the right, whose `u8` coordinate `255 + 1` wraps to 0:
the chosen move is the cell `(0, 1)`, a border wall whose target map value
is `UNSET`, not below 1. -/
theorem chase_move_wraps_on_wide_map :
    BorderWalls 258 3 wideLevel.mapWalls ∧ inMap 258 3 256 1 ∧
    wideLevel.mapWalls 256 1 = false ∧ u8_inc 255 = 0 ∧
    ∃ w1 g, generate_target_map 258 3 wideLevelWorld 256 1 10000000 = some w1 ∧
      w1.targetMap = some g ∧ g 255 1 = 1 ∧ g 256 1 = 0 ∧
      chaseMoves 258 3 g ⟨0, 255, 1, LAYER_TOP⟩ ⟨0, 255, 1, LAYER_TOP⟩ =
        some [⟨0, 0, 1, LAYER_TOP⟩] ∧
      g 0 1 = TARGET_UNSET ∧
      ¬ (∀ p : Position, inMap 258 3 p.x p.y → g p.x p.y ≠ TARGET_UNSET → g p.x p.y ≠ 0 →
        ∃ moves, chaseMoves 258 3 g p
            { objectId := p.objectId, x := p.x, y := p.y, layer := p.layer } = some moves ∧
          1 ≤ moves.length ∧
          ∀ r : Nat, ∃ m, moves.get? (r % moves.length) = some m ∧
            g m.x m.y < g p.x p.y) := by
  have hb := wideLevel_borderWalls
  have ht : inMap 258 3 256 1 := by decide
  have hw : wideLevel.mapWalls 256 1 = false := by decide
  obtain ⟨g, hgen, hinv, hset⟩ := generate_target_map_settled 258 3 wideLevelWorld wideLevel
    256 1 10000000 rfl hb ht hw (by decide)
  have hwall : ∀ x y : Int, inMap 258 3 x y → wideLevel.mapWalls x y = true →
      g x y = TARGET_UNSET := by
    intro x y hxy hwl
    by_contra hfin
    obtain ⟨n, _, hpath⟩ := hinv.sound x y hxy hfin
    have := (PathLen_inMap_and_floor 258 3 wideLevel.mapWalls 256 1 ht hw n x y hpath).2
    rw [hwl] at this
    exact Bool.noConfusion this
  have hpos : ∀ x y : Int, inMap 258 3 x y → ¬ (x = 256 ∧ y = 1) → 1 ≤ g x y := by
    intro x y hxy hne
    by_cases hfin : g x y = TARGET_UNSET
    · rw [hfin]; decide
    · obtain ⟨n, hn, hpath⟩ := hinv.sound x y hxy hfin
      cases n with
      | zero => exact absurd (PathLen_zero 258 3 _ 256 1 x y hpath) hne
      | succ n => rw [hn]; push_cast; omega
  have h0 : g 256 1 = 0 := hinv.target
  have h255le : g 255 1 ≤ g 256 1 + 1 :=
    hset 256 1 ht (by rw [h0]; decide) 255 1 (Or.inr (Or.inl ⟨by norm_num, rfl⟩))
      (by decide) (by decide)
  have h255 : g 255 1 = 1 := by
    have := hpos 255 1 (by decide) (by decide)
    omega
  have h254 : 1 ≤ g 254 1 := hpos 254 1 (by decide) (by decide)
  have hup : g 255 0 = TARGET_UNSET := hwall 255 0 (by decide) (by decide)
  have hdown : g 255 2 = TARGET_UNSET := hwall 255 2 (by decide) (by decide)
  have hleft : g 0 1 = TARGET_UNSET := hwall 0 1 (by decide) (by decide)
  have hmoves : chaseMoves 258 3 g ⟨0, 255, 1, LAYER_TOP⟩ ⟨0, 255, 1, LAYER_TOP⟩ =
      some [⟨0, 0, 1, LAYER_TOP⟩] := by
    rw [chaseMoves_eq 258 3 g ⟨0, 255, 1, LAYER_TOP⟩ ⟨0, 255, 1, LAYER_TOP⟩ (by decide)]
    have e1 : ((255 : Int) - 1) = 254 := by norm_num
    have e2 : ((1 : Int) - 1) = 0 := by norm_num
    have e3 : ((255 : Int) + 1) = 256 := by norm_num
    have e4 : ((1 : Int) + 1) = 2 := by norm_num
    have e5 : ((255 : Nat) : Int) = 255 := by norm_num
    have e6 : ((1 : Nat) : Int) = 1 := by norm_num
    simp only [e5, e6, e1, e2, e3, e4, h255, h0, hup, hdown]
    have c1 : ¬ (g 254 1 < 1) := by omega
    have c2 : ¬ (TARGET_UNSET < (1 : Int)) := by decide
    have c3 : (0 : Int) < 1 := by decide
    simp only [c1, c2, c3, if_true, if_false, List.append_nil, List.nil_append]
    rfl
  refine ⟨hb, ht, hw, by decide, _, g, hgen, rfl, h255, h0, hmoves, hleft, ?_⟩
  intro hall
  obtain ⟨moves, hm, _, hr⟩ := hall ⟨0, 255, 1, LAYER_TOP⟩ (by decide)
    (by
      have e5 : (((⟨0, 255, 1, LAYER_TOP⟩ : Position).x : Nat) : Int) = 255 := by norm_num
      have e6 : (((⟨0, 255, 1, LAYER_TOP⟩ : Position).y : Nat) : Int) = 1 := by norm_num
      rw [e5, e6, h255]; decide)
    (by
      have e5 : (((⟨0, 255, 1, LAYER_TOP⟩ : Position).x : Nat) : Int) = 255 := by norm_num
      have e6 : (((⟨0, 255, 1, LAYER_TOP⟩ : Position).y : Nat) : Int) = 1 := by norm_num
      rw [e5, e6, h255]; decide)
  rw [hmoves] at hm
  simp only [Option.some.injEq] at hm
  subst hm
  obtain ⟨m, hm1, hm2⟩ := hr 0
  simp only [List.length_singleton, Nat.zero_mod, List.get?_cons_zero,
    Option.some.injEq] at hm1
  subst hm1
  have hm3 : g 0 1 < g 255 1 := by simpa using hm2
  rw [h255, hleft] at hm3
  exact absurd hm3 (by decide)

/-! ## `monster_for_level`: the first type whose accumulated weight reaches the roll -/

theorem cumWeight_eq_sum (prob : Nat → Nat → Int) (lvl : Nat) :
    ∀ n, cumWeight prob lvl n = ((List.range n).map fun i => prob i lvl).sum := by
  intro n
  induction n with
  | zero => rfl
  | succ n ih =>
    rw [List.range_succ, List.map_append, List.sum_append]
    simp only [cumWeight, ih, List.map_cons, List.map_nil, List.sum_cons, List.sum_nil,
      add_zero]

theorem cumWeight_mono (prob : Nat → Nat → Int) (lvl N : Nat)
    (hnn : ∀ i, i < N → 0 ≤ prob i lvl) :
    ∀ j i, i ≤ j → j ≤ N → cumWeight prob lvl i ≤ cumWeight prob lvl j := by
  intro j
  induction j with
  | zero =>
    intro i hi _
    have : i = 0 := by omega
    subst this
    exact le_refl _
  | succ j ih =>
    intro i hi hj
    by_cases hc : i = j + 1
    · subst hc; exact le_refl _
    · have h1 := ih i (by omega) (by omega)
      have h2 := hnn j (by omega)
      simp only [cumWeight]
      omega

theorem cumWeight_nonneg (prob : Nat → Nat → Int) (lvl N : Nat)
    (hnn : ∀ i, i < N → 0 ≤ prob i lvl) (j : Nat) (hj : j ≤ N) :
    0 ≤ cumWeight prob lvl j :=
  cumWeight_mono prob lvl N hnn j 0 (Nat.zero_le _) hj

/-- The loop of `monster_for_level` from the type index `i` on, with the
accumulated weight of the types before `i` (no wrap of the `u32`): when `k`
is the first index from `i` on at which the accumulated weight reaches the
roll, the loop returns `k + 1`. -/
theorem monster_loop_hit (prob : Nat → Nat → Int) (lvl N : Nat) (r : Int)
    (hB : ∀ j, j ≤ N → 0 ≤ cumWeight prob lvl j ∧ cumWeight prob lvl j < 4294967296) :
    ∀ (n i k : Nat), i + n ≤ N → i ≤ k → k < i + n → r ≤ cumWeight prob lvl (k + 1) →
      (∀ k1, i ≤ k1 → k1 < k → cumWeight prob lvl (k1 + 1) < r) →
      monster_loop prob lvl r n i (cumWeight prob lvl i) = (k : Int) + 1 := by
  intro n
  induction n with
  | zero => intro i k _ h1 h2; omega
  | succ n ih =>
    intro i k hN h1 h2 hr hfirst
    have hw : toU32 (cumWeight prob lvl i + prob i lvl) = cumWeight prob lvl (i + 1) := by
      have := hB (i + 1) (by omega)
      simp only [cumWeight] at this ⊢
      unfold toU32
      omega
    unfold monster_loop
    rw [hw]
    by_cases hik : i = k
    · subst hik
      simp only [ge_iff_le, hr, if_true]
    · have hlt := hfirst i (le_refl _) (by omega)
      have hno : ¬ (cumWeight prob lvl (i + 1) ≥ r) := by omega
      simp only [hno, if_false]
      exact ih (i + 1) k (by omega) (by omega) (by omega) hr
        (fun k1 hk1 hk2 => hfirst k1 (by omega) hk2)

/-- When the accumulated weight stays below the roll at every index, the
loop runs out and returns the default type 1. -/
theorem monster_loop_miss (prob : Nat → Nat → Int) (lvl N : Nat) (r : Int)
    (hB : ∀ j, j ≤ N → 0 ≤ cumWeight prob lvl j ∧ cumWeight prob lvl j < 4294967296) :
    ∀ (n i : Nat), i + n ≤ N →
      (∀ k, i ≤ k → k < i + n → cumWeight prob lvl (k + 1) < r) →
      monster_loop prob lvl r n i (cumWeight prob lvl i) = 1 := by
  intro n
  induction n with
  | zero => intro i _ _; rfl
  | succ n ih =>
    intro i hN hall
    have hw : toU32 (cumWeight prob lvl i + prob i lvl) = cumWeight prob lvl (i + 1) := by
      have := hB (i + 1) (by omega)
      simp only [cumWeight] at this ⊢
      unfold toU32
      omega
    unfold monster_loop
    rw [hw]
    have hlt := hall i (le_refl _) (by omega)
    have hno : ¬ (cumWeight prob lvl (i + 1) ≥ r) := by omega
    simp only [hno, if_false]
    exact ih (i + 1) (by omega) (fun k hk1 hk2 => hall k (by omega) (by omega))

theorem cumWeight_bounds (prob : Nat → Nat → Int) (lvl : Nat)
    (hnn : ∀ i, i < MONSTER_TYPE_COUNT → 0 ≤ prob i lvl)
    (hS : cumWeight prob lvl MONSTER_TYPE_COUNT < 4294967296) :
    ∀ j, j ≤ MONSTER_TYPE_COUNT →
      0 ≤ cumWeight prob lvl j ∧ cumWeight prob lvl j < 4294967296 := by
  intro j hj
  have h1 := cumWeight_nonneg prob lvl MONSTER_TYPE_COUNT hnn j hj
  have h2 := cumWeight_mono prob lvl MONSTER_TYPE_COUNT hnn MONSTER_TYPE_COUNT j hj (le_refl _)
  exact ⟨h1, by omega⟩

/-- For a level of the table and non-negative weights whose sum fits a
`u32`, `monster_for_level` returns `k + 1` when `k` is the first type index
at which the accumulated weight reaches the roll. -/
theorem monster_for_level_first_hit (prob : Nat → Nat → Int) (level : Int) (randVal k : Nat)
    (hlvl : 1 ≤ level ∧ level ≤ (MAX_DUNGEON_LEVEL : Int))
    (hnn : ∀ i, i < MONSTER_TYPE_COUNT → 0 ≤ prob i (level - 1).toNat)
    (hS : cumWeight prob (level - 1).toNat MONSTER_TYPE_COUNT < 4294967296)
    (hk : k < MONSTER_TYPE_COUNT)
    (hr : ((randVal % 100 : Nat) : Int) ≤ cumWeight prob (level - 1).toNat (k + 1))
    (hfirst : ∀ k1, k1 < k →
      cumWeight prob (level - 1).toNat (k1 + 1) < ((randVal % 100 : Nat) : Int)) :
    monster_for_level prob level randVal = some ((k : Int) + 1) := by
  unfold monster_for_level
  rw [if_pos hlvl]
  have := monster_loop_hit prob (level - 1).toNat MONSTER_TYPE_COUNT
    ((randVal % 100 : Nat) : Int) (cumWeight_bounds prob _ hnn hS) MONSTER_TYPE_COUNT 0 k
    (by omega) (Nat.zero_le _) (by omega) hr (fun k1 _ hk1 => hfirst k1 hk1)
  simp only [cumWeight] at this
  rw [this]

/-- For a level of the table and non-negative weights whose sum fits a
`u32`, `monster_for_level` returns the default type 1 when the accumulated
weight never reaches the roll. -/
theorem monster_for_level_default (prob : Nat → Nat → Int) (level : Int) (randVal : Nat)
    (hlvl : 1 ≤ level ∧ level ≤ (MAX_DUNGEON_LEVEL : Int))
    (hnn : ∀ i, i < MONSTER_TYPE_COUNT → 0 ≤ prob i (level - 1).toNat)
    (hS : cumWeight prob (level - 1).toNat MONSTER_TYPE_COUNT < 4294967296)
    (hmiss : cumWeight prob (level - 1).toNat MONSTER_TYPE_COUNT <
      ((randVal % 100 : Nat) : Int)) :
    monster_for_level prob level randVal = some 1 := by
  unfold monster_for_level
  rw [if_pos hlvl]
  have := monster_loop_miss prob (level - 1).toNat MONSTER_TYPE_COUNT
    ((randVal % 100 : Nat) : Int) (cumWeight_bounds prob _ hnn hS) MONSTER_TYPE_COUNT 0
    (by omega) (fun k _ hk => by
      have := cumWeight_mono prob (level - 1).toNat MONSTER_TYPE_COUNT hnn MONSTER_TYPE_COUNT
        (k + 1) (by omega) (le_refl _)
      omega)
  simp only [cumWeight] at this
  rw [this]

/-- When the accumulated weight of the first `N` types reaches `r`, there is
a first type index at which it does. -/
theorem cumWeight_first_hit (prob : Nat → Nat → Int) (lvl N : Nat) (r : Int) (hN : 0 < N)
    (hr : r ≤ cumWeight prob lvl N) :
    ∃ k, k < N ∧ r ≤ cumWeight prob lvl (k + 1) ∧
      ∀ k1, k1 < k → cumWeight prob lvl (k1 + 1) < r := by
  have hex : ∃ m, m < N ∧ r ≤ cumWeight prob lvl (m + 1) := by
    refine ⟨N - 1, by omega, ?_⟩
    have e : N - 1 + 1 = N := by omega
    rw [e]
    exact hr
  refine ⟨Nat.find hex, (Nat.find_spec hex).1, (Nat.find_spec hex).2, ?_⟩
  intro k1 hk1
  have := Nat.find_min hex hk1
  have h2 : k1 < N := lt_trans hk1 (Nat.find_spec hex).1
  by_contra hge
  exact this ⟨h2, by omega⟩

set_option maxRecDepth 100000 in
/-- C18 (amended): for a level in `1, ..., MAX_DUNGEON_LEVEL` whose weights
`monsterProbability[.][level-1]` are non-negative and sum to 40,
`monster_for_level` returns the default type 1 for every roll `r` with
`40 < r < 100`, whatever types carry the weight; for every roll up to 40,
the roll 40 included, there is a first type at which the accumulated weight
reaches the roll, and it returns this type. -/
theorem monster_for_level_above_forty (monsterProbability : Nat → Nat → Int) (level : Int)
    (hlvl : 1 ≤ level ∧ level ≤ (MAX_DUNGEON_LEVEL : Int))
    (hnn : ∀ i, i < MONSTER_TYPE_COUNT → 0 ≤ monsterProbability i (level - 1).toNat)
    (hsum : ((List.range MONSTER_TYPE_COUNT).map fun i =>
      monsterProbability i (level - 1).toNat).sum = 40) :
    (∀ randVal : Nat, 40 < randVal % 100 →
      monster_for_level monsterProbability level randVal = some 1) ∧
    (∀ randVal : Nat, randVal % 100 ≤ 40 →
      ∃ k, k < MONSTER_TYPE_COUNT ∧
        ((randVal % 100 : Nat) : Int) ≤
          cumWeight monsterProbability (level - 1).toNat (k + 1) ∧
        (∀ k1, k1 < k → cumWeight monsterProbability (level - 1).toNat (k1 + 1) <
          ((randVal % 100 : Nat) : Int)) ∧
        monster_for_level monsterProbability level randVal = some ((k : Int) + 1)) ∧
    (∀ randVal k : Nat, k < MONSTER_TYPE_COUNT →
      ((randVal % 100 : Nat) : Int) ≤ cumWeight monsterProbability (level - 1).toNat (k + 1) →
      (∀ k1, k1 < k → cumWeight monsterProbability (level - 1).toNat (k1 + 1) <
        ((randVal % 100 : Nat) : Int)) →
      randVal % 100 ≤ 40 ∧
      monster_for_level monsterProbability level randVal = some ((k : Int) + 1)) := by
  have hc : cumWeight monsterProbability (level - 1).toNat MONSTER_TYPE_COUNT = 40 := by
    rw [cumWeight_eq_sum]; exact hsum
  refine ⟨?_, ?_, ?_⟩
  · intro randVal hr
    exact monster_for_level_default monsterProbability level randVal hlvl hnn
      (by rw [hc]; decide) (by rw [hc]; omega)
  · intro randVal hr
    obtain ⟨k, hk, hhit, hfirst⟩ := cumWeight_first_hit monsterProbability (level - 1).toNat
      MONSTER_TYPE_COUNT ((randVal % 100 : Nat) : Int) (by decide) (by rw [hc]; omega)
    exact ⟨k, hk, hhit, hfirst, monster_for_level_first_hit monsterProbability level randVal k
      hlvl hnn (by rw [hc]; decide) hk hhit hfirst⟩
  · intro randVal k hk hr hfirst
    have hle := cumWeight_mono monsterProbability (level - 1).toNat MONSTER_TYPE_COUNT hnn
      MONSTER_TYPE_COUNT (k + 1) (by omega) (le_refl _)
    exact ⟨by omega, monster_for_level_first_hit monsterProbability level randVal k hlvl hnn
      (by rw [hc]; decide) hk hr hfirst⟩

theorem probForty_nonneg (i : Nat) : 0 ≤ probForty i 0 := by
  unfold probForty
  split <;> decide

set_option maxRecDepth 100000 in
/-- Witness for C18 (amended): the weights `probForty` of level 1, 40 on type
2; every roll above 40 returns type 1, and the roll 40 returns type 2, the
first type at which the accumulated weight is 40. -/
theorem monster_for_level_above_forty_witness :
    ((List.range MONSTER_TYPE_COUNT).map fun i => probForty i 0).sum = 40 ∧
    (∀ randVal : Nat, 40 < randVal % 100 →
      monster_for_level probForty 1 randVal = some 1) ∧
    monster_for_level probForty 1 40 = some 2 :=
  ⟨by rfl,
    (monster_for_level_above_forty probForty 1 (by decide) (fun i _ => probForty_nonneg i)
      (by rfl)).1,
    ((monster_for_level_above_forty probForty 1 (by decide) (fun i _ => probForty_nonneg i)
      (by rfl)).2.2 40 1 (by decide) (by decide) (by
        intro k1 hk1
        have : k1 = 0 := by omega
        subst this
        decide)).2⟩

/-- The number of `r < n` with `lo ≤ r < hi`. -/
theorem range_filter_interval_length (lo hi : Nat) :
    ∀ n, ((List.range n).filter fun r => decide (lo ≤ r ∧ r < hi)).length =
      min hi n - min lo n := by
  intro n
  induction n with
  | zero => simp
  | succ n ih =>
    rw [List.range_succ, List.filter_append, List.length_append, ih]
    by_cases hc : lo ≤ n ∧ n < hi
    · simp only [List.filter_cons, hc, and_self, decide_True, if_true, List.filter_nil,
        List.length_singleton]
      simp only [Nat.min_def]
      split_ifs <;> omega
    · simp only [List.filter_cons, hc, decide_False, Bool.false_eq_true, if_false,
        List.filter_nil, List.length_nil]
      simp only [Nat.min_def]
      split_ifs <;> omega

/-- For weights of a level that are non-negative and sum to 100, and a roll
below 100: `monster_for_level` returns the type `k + 1` exactly when the roll
is at most the accumulated weight of the types up to `k + 1` and, for
`k > 0`, above the accumulated weight of the types up to `k`. -/
theorem monster_for_level_eq_iff (prob : Nat → Nat → Int) (level : Int) (r k : Nat)
    (hlvl : 1 ≤ level ∧ level ≤ (MAX_DUNGEON_LEVEL : Int))
    (hnn : ∀ i, i < MONSTER_TYPE_COUNT → 0 ≤ prob i (level - 1).toNat)
    (hc : cumWeight prob (level - 1).toNat MONSTER_TYPE_COUNT = 100)
    (hr : r < 100) (hk : k < MONSTER_TYPE_COUNT) :
    monster_for_level prob level r = some ((k : Int) + 1) ↔
      ((k = 0 ∨ cumWeight prob (level - 1).toNat k < (r : Int)) ∧
        (r : Int) ≤ cumWeight prob (level - 1).toNat (k + 1)) := by
  have hmod : r % 100 = r := Nat.mod_eq_of_lt hr
  have hS : cumWeight prob (level - 1).toNat MONSTER_TYPE_COUNT < 4294967296 := by
    rw [hc]; decide
  have hfirst_of : ∀ k0 : Nat, k0 < MONSTER_TYPE_COUNT →
      (k0 = 0 ∨ cumWeight prob (level - 1).toNat k0 < (r : Int)) →
      (r : Int) ≤ cumWeight prob (level - 1).toNat (k0 + 1) →
      monster_for_level prob level r = some ((k0 : Int) + 1) := by
    intro k0 hk0 hlow hhigh
    apply monster_for_level_first_hit prob level r k0 hlvl hnn hS hk0
    · rw [hmod]; exact hhigh
    · intro k1 hk1
      rw [hmod]
      rcases hlow with h0 | hlt
      · omega
      · have := cumWeight_mono prob (level - 1).toNat MONSTER_TYPE_COUNT hnn k0 (k1 + 1)
          (by omega) (by omega)
        omega
  constructor
  · intro h
    have hex : ∃ m, m < MONSTER_TYPE_COUNT ∧
        (r : Int) ≤ cumWeight prob (level - 1).toNat (m + 1) := by
      refine ⟨99, by decide, ?_⟩
      have h100 : cumWeight prob (level - 1).toNat (99 + 1) = 100 := hc
      rw [h100]
      omega
    have hk0 := Nat.find_spec hex
    have hmin : ∀ m, m < Nat.find hex →
        cumWeight prob (level - 1).toNat (m + 1) < (r : Int) := by
      intro m hm
      have := Nat.find_min hex hm
      have hm2 : m < MONSTER_TYPE_COUNT := by omega
      by_contra hge
      exact this ⟨hm2, by omega⟩
    have hlow : Nat.find hex = 0 ∨
        cumWeight prob (level - 1).toNat (Nat.find hex) < (r : Int) := by
      by_cases h0 : Nat.find hex = 0
      · exact Or.inl h0
      · right
        have := hmin (Nat.find hex - 1) (by omega)
        have e : Nat.find hex - 1 + 1 = Nat.find hex := by omega
        rw [e] at this
        exact this
    have hres := hfirst_of (Nat.find hex) hk0.1 hlow hk0.2
    rw [hres] at h
    simp only [Option.some.injEq] at h
    have hkk : Nat.find hex = k := by omega
    rw [hkk] at hlow hk0
    exact ⟨hlow, hk0.2⟩
  · rintro ⟨hlow, hhigh⟩
    exact hfirst_of k hk hlow hhigh

set_option maxRecDepth 100000 in
/-- C19 (amended): for a level in `1, ..., MAX_DUNGEON_LEVEL` whose weights
`monsterProbability[.][level-1]` are non-negative and sum to exactly 100,
`monster_for_level` returns for the roll `r` the first type whose accumulated
weight is at least `r`. Hence the number of rolls `r` in `0, ..., 99` for
which it returns the type `t` is the weight of `t`, plus one for type 1 (the
roll 0 always returns type 1), minus one for the type at which the
accumulated weight reaches 100 (the roll 100 that would complete its range
does not occur); and a type other than type 1 whose weight is 0 is never
returned. -/
theorem monster_for_level_distribution (monsterProbability : Nat → Nat → Int) (level : Int)
    (hlvl : 1 ≤ level ∧ level ≤ (MAX_DUNGEON_LEVEL : Int))
    (hnn : ∀ i, i < MONSTER_TYPE_COUNT → 0 ≤ monsterProbability i (level - 1).toNat)
    (hsum : ((List.range MONSTER_TYPE_COUNT).map fun i =>
      monsterProbability i (level - 1).toNat).sum = 100) :
    (∀ r k : Nat, r < 100 → k < MONSTER_TYPE_COUNT →
      (monster_for_level monsterProbability level r = some ((k : Int) + 1) ↔
        ((k = 0 ∨ cumWeight monsterProbability (level - 1).toNat k < (r : Int)) ∧
          (r : Int) ≤ cumWeight monsterProbability (level - 1).toNat (k + 1)))) ∧
    (∀ k : Nat, k < MONSTER_TYPE_COUNT →
      (rollCount monsterProbability level ((k : Int) + 1) : Int) =
        monsterProbability k (level - 1).toNat + (if k = 0 then 1 else 0) -
          (if cumWeight monsterProbability (level - 1).toNat k < 100 ∧
              cumWeight monsterProbability (level - 1).toNat (k + 1) = 100 then 1 else 0)) ∧
    (∀ k : Nat, 1 ≤ k → k < MONSTER_TYPE_COUNT →
      monsterProbability k (level - 1).toNat = 0 →
      ∀ randVal : Nat,
        monster_for_level monsterProbability level randVal ≠ some ((k : Int) + 1)) := by
  have hc : cumWeight monsterProbability (level - 1).toNat MONSTER_TYPE_COUNT = 100 := by
    rw [cumWeight_eq_sum]; exact hsum
  have hiff := fun r k hr hk =>
    monster_for_level_eq_iff monsterProbability level r k hlvl hnn hc hr hk
  refine ⟨hiff, ?_, ?_⟩
  · intro k hk
    have ha0 := cumWeight_nonneg monsterProbability (level - 1).toNat MONSTER_TYPE_COUNT hnn k
      (by omega)
    have hab := cumWeight_mono monsterProbability (level - 1).toNat MONSTER_TYPE_COUNT hnn
      (k + 1) k (by omega) (by omega)
    have hb100 := cumWeight_mono monsterProbability (level - 1).toNat MONSTER_TYPE_COUNT hnn
      MONSTER_TYPE_COUNT (k + 1) (by omega) (le_refl _)
    rw [hc] at hb100
    have hw : monsterProbability k (level - 1).toNat =
        cumWeight monsterProbability (level - 1).toNat (k + 1) -
          cumWeight monsterProbability (level - 1).toNat k := by
      simp only [cumWeight]; ring
    obtain ⟨a, ha⟩ : ∃ a : Nat, cumWeight monsterProbability (level - 1).toNat k = (a : Int) :=
      ⟨_, (Int.toNat_of_nonneg ha0).symm⟩
    obtain ⟨b, hb⟩ : ∃ b : Nat,
        cumWeight monsterProbability (level - 1).toNat (k + 1) = (b : Int) :=
      ⟨_, (Int.toNat_of_nonneg (le_trans ha0 hab)).symm⟩
    have hk0a : k = 0 → a = 0 := by
      intro h0
      subst h0
      simp only [cumWeight] at ha
      omega
    have hfc : ((List.range 100).filter fun r =>
          decide (monster_for_level monsterProbability level r = some ((k : Int) + 1))) =
        (List.range 100).filter fun r =>
          decide ((if k = 0 then 0 else a + 1) ≤ r ∧ r < b + 1) := by
      apply List.filter_congr
      intro r hrmem
      have hr : r < 100 := List.mem_range.1 hrmem
      have h := hiff r k hr hk
      rw [ha, hb] at h
      by_cases hres : monster_for_level monsterProbability level r = some ((k : Int) + 1)
      · have h2 := h.1 hres
        rw [decide_eq_true hres]
        symm
        apply decide_eq_true
        by_cases hk0 : k = 0
        · simp only [hk0, if_true]
          omega
        · simp only [hk0, if_false]
          rcases h2.1 with h0 | hlt
          · exact absurd h0 hk0
          · omega
      · rw [decide_eq_false hres]
        symm
        apply decide_eq_false
        intro hcond
        apply hres
        apply h.2
        by_cases hk0 : k = 0
        · exact ⟨Or.inl hk0, by omega⟩
        · simp only [hk0, if_false] at hcond
          exact ⟨Or.inr (by omega), by omega⟩
    have hcount : rollCount monsterProbability level ((k : Int) + 1) =
        min (b + 1) 100 - min (if k = 0 then 0 else a + 1) 100 := by
      unfold rollCount
      rw [hfc, range_filter_interval_length]
    rw [hcount, hw, ha, hb]
    rw [ha, hb] at hab
    rw [hb] at hb100
    by_cases hk0 : k = 0
    · have := hk0a hk0
      subst this
      simp only [hk0, if_true]
      by_cases hb1 : b = 100
      · subst hb1
        simp
      · have hn : ¬ ((((0 : Nat) : Int)) < 100 ∧ (b : Int) = 100) := by omega
        simp only [hn, if_false]
        omega
    · simp only [hk0, if_false]
      by_cases hcnd : (a : Int) < 100 ∧ (b : Int) = 100
      · simp only [hcnd, and_self, if_true]
        omega
      · simp only [hcnd, if_false]
        omega
  · intro k hk1 hk hzero randVal hres
    have hr : randVal % 100 < 100 := Nat.mod_lt _ (by decide)
    have hsame : monster_for_level monsterProbability level (randVal % 100) =
        monster_for_level monsterProbability level randVal := by
      unfold monster_for_level
      rw [Nat.mod_mod]
    rw [← hsame] at hres
    have h := (hiff (randVal % 100) k hr hk).1 hres
    simp only [cumWeight, hzero, add_zero] at h
    rcases h.1 with h0 | hlt
    · omega
    · omega

theorem probHundred_nonneg (i : Nat) : 0 ≤ probHundred i 0 := by
  unfold probHundred
  split <;> decide

set_option maxRecDepth 100000 in
/-- Witness for C19 (amended): the weights `probHundred` of level 1, 100 on
type 2. Type 1 (weight 0) is returned for one roll, the roll 0; type 2 is
returned for `100 - 1` rolls; no other type is ever returned. -/
theorem monster_for_level_distribution_witness :
    ((List.range MONSTER_TYPE_COUNT).map fun i => probHundred i 0).sum = 100 ∧
    (∀ k : Nat, k < MONSTER_TYPE_COUNT →
      (rollCount probHundred 1 ((k : Int) + 1) : Int) =
        probHundred k 0 + (if k = 0 then 1 else 0) -
          (if cumWeight probHundred 0 k < 100 ∧ cumWeight probHundred 0 (k + 1) = 100
            then 1 else 0)) ∧
    (∀ k : Nat, 1 ≤ k → k < MONSTER_TYPE_COUNT → probHundred k 0 = 0 →
      ∀ randVal : Nat, monster_for_level probHundred 1 randVal ≠ some ((k : Int) + 1)) :=
  ⟨by rfl,
    (monster_for_level_distribution probHundred 1 (by decide)
      (fun i _ => probHundred_nonneg i) (by rfl)).2.1,
    (monster_for_level_distribution probHundred 1 (by decide)
      (fun i _ => probHundred_nonneg i) (by rfl)).2.2⟩

/-! ## Every move of the pass is guarded -/

/-- A prefix of a run of the loop that does not fault does not fault. -/
theorem movement_loop_prefix (W H C R : Nat) (rand : Nat → Nat) :
    ∀ (pre rest : List Nat) (st st1 : World × Nat),
      movement_loop W H C R rand (pre ++ rest) st = some st1 →
      ∃ sa, movement_loop W H C R rand pre st = some sa ∧
        movement_loop W H C R rand rest sa = some st1 := by
  intro pre
  induction pre with
  | nil => intro rest st st1 h; exact ⟨st, rfl, h⟩
  | cons mv pre ih =>
    intro rest st st1 h
    simp only [List.cons_append, movement_loop] at h ⊢
    cases hs : movement_step W H C R rand st mv with
    | none => simp [hs] at h
    | some s1 =>
      simp only [hs, Option.some_bind] at h ⊢
      exact ih rest s1 st1 h

end DarkCaverns
